import Mathlib

/-!
# AZ::VectorN (AzCore/Math/VectorN.inl)

A shallow embedding of the dynamically sized vector `AZ::VectorN`, which packs
its scalars into a sequence of four-wide `Vector4` lanes, together with the
properties of its operations.

Conventions of the embedding:

* `float` is the exact scalar `Scalar := ℚ`; what a division by zero yields is a
  parameter (`Externals.divByZero`), as are the square root and the content of
  the lanes after the container's `resize`. The two additions of floats written
  in the source (`dot += ...`, `lengthSquared += ...`) go through
  `Externals.addFloat`, which is `float32Add` (the sum rounded to a `float`) on
  the hardware. The product by a scalar is also read over `Float32`, floats with
  the infinities and NaN.
* `size_t` values are natural numbers; the two places where the source can wrap
  (`m_values.size() - 1` and `m_numElements + 3`) are taken modulo `SIZE_MOD`.
* The build is the checked one: `AZ_Assert` and the container's index check are
  failures of the `Except Failure` monad.
-/

namespace AZ

/-! ## Scalars, failures and the external collaborators -/

/-- Exact-arithmetic stand-in for the `float` scalar. -/
abbrev Scalar := ℚ

/-- Number of values of `AZStd::size_t` (64 bit). -/
def SIZE_MOD : Nat := 2 ^ 64

/-- Subtraction of `AZStd::size_t`, wrapping around. -/
def sizeSub (a b : Nat) : Nat := (a + SIZE_MOD - b % SIZE_MOD) % SIZE_MOD

/-- Addition of `AZStd::size_t`, wrapping around. -/
def sizeAdd (a b : Nat) : Nat := (a + b) % SIZE_MOD

/-- The ways an operation stops in a checked build. -/
inductive Failure
  /-- Failed `AZ_Assert(m_numElements == rhs.m_numElements, "Dimensionality must be equal")` -/
  | dimensionalityMismatch
  /-- the bounds check of `AZStd::vector::operator[]` -/
  | outOfRange
  /-- a read past the end of the local `masks` table -/
  | maskTableOverrun
  deriving DecidableEq, Repr

/-- Macro `AZ_Assert(condition, ...)` in a checked build. -/
def AZ_Assert (condition : Bool) (failure : Failure) : Except Failure Unit :=
  if condition then .ok () else .error failure

/-- Modelled from the spec: the `Vector4` lane type (Lane4 primitive, a value
type holding 4 packed floats); its declaration is not part of the source file. -/
structure Vector4 where
  x : Scalar
  y : Scalar
  z : Scalar
  w : Scalar
  deriving DecidableEq, Repr

/-- Modelled from the spec: a per-slot comparison result of the SIMD primitives
(boolean per lane slot). -/
structure Vec4Mask where
  x : Bool
  y : Bool
  z : Bool
  w : Bool
  deriving DecidableEq, Repr

/-- Rounding of an exact value to the nearest integer, a tie going to the even
one. -/
def roundTiesToEven (q : Scalar) : Int :=
  if q - (⌊q⌋ : Int) < 1 / 2 then ⌊q⌋
  else if 1 / 2 < q - (⌊q⌋ : Int) then ⌊q⌋ + 1
  else if ⌊q⌋ % 2 = 0 then ⌊q⌋ else ⌊q⌋ + 1

/-- The `float` nearest to an exact value (IEEE 754 binary32, round to nearest,
ties to even): 24 significant bits, with the spacing `2 ^ -149` of the
subnormals at the bottom. An overflow to infinity lies outside the finite
scalars. -/
def float32Round (x : Scalar) : Scalar :=
  if x = 0 then 0
  else
    (roundTiesToEven (x / (2 : Scalar) ^ (max (Int.log 2 |x| - 23) (-149))) : Scalar)
      * (2 : Scalar) ^ (max (Int.log 2 |x| - 23) (-149))

/-- The sum of two `float` values as `+=` on a `float` computes it: the exact sum,
rounded to a `float`. -/
def float32Add (a b : Scalar) : Scalar := float32Round (a + b)

/-- Modelled from the spec: the collaborators the vector consumes as opaque
capabilities: the content of a lane newly created by the container's `resize`
(by lane index), what that `resize` leaves in a lane that existed before (from
the old storage, the new lane count and the lane index; the spec leaves the
surviving content implementation-defined), the value the lane division gives for
a zero divisor, and the scalar square root `AZ::Sqrt`. The field `addFloat` is
the addition of two `float` values, `float32Add` on the hardware and the exact
sum when the arithmetic is read as exact. -/
structure Externals where
  fresh : Nat → Vector4
  survivor : List Vector4 → Nat → Nat → Vector4
  divByZero : Scalar → Scalar
  sqrt : Scalar → Scalar
  addFloat : Scalar → Scalar → Scalar

/-- Collaborators that zero new lanes, keep the lanes that survive a `resize`,
give 0 for a division by zero, take the square root through the integer square
roots of numerator and denominator (exact on squares of rationals) and add as
the hardware does; used to evaluate concrete scenarios. -/
def Externals.plain : Externals :=
  { fresh := fun _ => ⟨0, 0, 0, 0⟩
    survivor := fun l _ i =>
      match l[i]? with
      | some lane => lane
      | none => ⟨0, 0, 0, 0⟩
    divByZero := fun _ => 0
    sqrt := fun s => (Nat.sqrt s.num.toNat : Scalar) / (Nat.sqrt s.den : Scalar)
    addFloat := float32Add }

/-! ## The lane primitive -/

/-- Modelled from the spec: `Vector4::GetElement(index)`, get of a single lane
slot by index 0-3. -/
def Vector4.GetElement (v : Vector4) (index : Nat) : Scalar :=
  match index with
  | 0 => v.x
  | 1 => v.y
  | 2 => v.z
  | _ => v.w

/-- Modelled from the spec: `Vector4::SetElement(index, value)`, set of a single
lane slot by index 0-3. -/
def Vector4.SetElement (v : Vector4) (index : Nat) (value : Scalar) : Vector4 :=
  match index with
  | 0 => { v with x := value }
  | 1 => { v with y := value }
  | 2 => { v with z := value }
  | _ => { v with w := value }

/-- Slot-wise application of a scalar function. -/
def Vector4.map (f : Scalar → Scalar) (v : Vector4) : Vector4 :=
  ⟨f v.x, f v.y, f v.z, f v.w⟩

/-- Slot-wise application of a binary scalar function. -/
def Vector4.map₂ (f : Scalar → Scalar → Scalar) (a b : Vector4) : Vector4 :=
  ⟨f a.x b.x, f a.y b.y, f a.z b.z, f a.w b.w⟩

/-- Modelled from the spec: `Simd::Vec4::Splat` and `Vector4(float)`, construction
from a scalar (broadcast). -/
def Splat (s : Scalar) : Vector4 := ⟨s, s, s, s⟩

/-- Modelled from the spec: `Simd::Vec4::ZeroFloat`, the zero constant. -/
def ZeroFloat : Vector4 := ⟨0, 0, 0, 0⟩

/-- Scalar division; the value for a zero divisor comes from the collaborators. -/
def scalarDiv (E : Externals) (a b : Scalar) : Scalar :=
  if b = 0 then E.divByZero a else a / b

/-- Modelled from the spec: lane `+`. -/
def Vector4.add (a b : Vector4) : Vector4 := Vector4.map₂ (fun s t => s + t) a b

/-- Modelled from the spec: lane `-`. -/
def Vector4.sub (a b : Vector4) : Vector4 := Vector4.map₂ (fun s t => s - t) a b

/-- Modelled from the spec: lane `*`. -/
def Vector4.mul (a b : Vector4) : Vector4 := Vector4.map₂ (fun s t => s * t) a b

/-- Modelled from the spec: lane `/`. -/
def Vector4.div (E : Externals) (a b : Vector4) : Vector4 := Vector4.map₂ (scalarDiv E) a b

/-- Modelled from the spec: lane unary negate. -/
def Vector4.neg (a : Vector4) : Vector4 := Vector4.map (fun s => -s) a

/-- Modelled from the spec: `Vector4::GetFloor`. -/
def Vector4.GetFloor (a : Vector4) : Vector4 := Vector4.map (fun s => ((⌊s⌋ : Int) : Scalar)) a

/-- Modelled from the spec: `Vector4::GetCeil`. -/
def Vector4.GetCeil (a : Vector4) : Vector4 := Vector4.map (fun s => ((⌈s⌉ : Int) : Scalar)) a

/-- Modelled from the spec: `Vector4::GetRound`, to the nearest integer (a tie
goes up; no property below depends on the tie rule). -/
def Vector4.GetRound (a : Vector4) : Vector4 := Vector4.map (fun s => ((round s : Int) : Scalar)) a

/-- Modelled from the spec: `Vector4::GetAbs` and `Simd::Vec4::Abs`. -/
def Vector4.GetAbs (a : Vector4) : Vector4 := Vector4.map (fun s => |s|) a

/-- Modelled from the spec: `Vector4::GetMin`. -/
def Vector4.GetMin (a b : Vector4) : Vector4 := Vector4.map₂ (fun s t => min s t) a b

/-- Modelled from the spec: `Vector4::GetMax`. -/
def Vector4.GetMax (a b : Vector4) : Vector4 := Vector4.map₂ (fun s t => max s t) a b

/-- Modelled from the spec: `Vector4::GetClamp(min, max)`, the value limited to
`max` from above and then to `min` from below. -/
def Vector4.GetClamp (a lo hi : Vector4) : Vector4 := (a.GetMin hi).GetMax lo

/-- Modelled from the spec: `Vector4::Dot`, the sum of the 4 products. -/
def Vector4.Dot (a b : Vector4) : Scalar := a.x * b.x + a.y * b.y + a.z * b.z + a.w * b.w

/-- Modelled from the spec: `Vector4::GetLengthSq`. -/
def Vector4.GetLengthSq (a : Vector4) : Scalar := a.Dot a

/-- Modelled from the spec: `Simd::Vec4::CmpAllLt`, all four slots less than. -/
def CmpAllLt (a b : Vector4) : Bool :=
  decide (a.x < b.x) && decide (a.y < b.y) && decide (a.z < b.z) && decide (a.w < b.w)

/-- Modelled from the spec: `Simd::Vec4::CmpAllLtEq`. -/
def CmpAllLtEq (a b : Vector4) : Bool :=
  decide (a.x ≤ b.x) && decide (a.y ≤ b.y) && decide (a.z ≤ b.z) && decide (a.w ≤ b.w)

/-- Modelled from the spec: `Simd::Vec4::CmpAllGt`. -/
def CmpAllGt (a b : Vector4) : Bool :=
  decide (a.x > b.x) && decide (a.y > b.y) && decide (a.z > b.z) && decide (a.w > b.w)

/-- Modelled from the spec: `Simd::Vec4::CmpAllGtEq`. -/
def CmpAllGtEq (a b : Vector4) : Bool :=
  decide (a.x ≥ b.x) && decide (a.y ≥ b.y) && decide (a.z ≥ b.z) && decide (a.w ≥ b.w)

/-- Modelled from the spec: `Simd::Vec4::CmpGtEq`, the per-slot mask. -/
def CmpGtEq (a b : Vector4) : Vec4Mask :=
  ⟨decide (a.x ≥ b.x), decide (a.y ≥ b.y), decide (a.z ≥ b.z), decide (a.w ≥ b.w)⟩

/-- Modelled from the spec: `Simd::Vec4::Select(a, b, mask)`, the first where the
mask is set and the second otherwise. -/
def Select (a b : Vector4) (mask : Vec4Mask) : Vector4 :=
  ⟨if mask.x then a.x else b.x, if mask.y then a.y else b.y,
   if mask.z then a.z else b.z, if mask.w then a.w else b.w⟩

/-- Bitwise AND of one float slot with one 32-bit mask word. The all-ones word
keeps the slot bit for bit and the zero word gives the all-zero pattern `0.0`,
the only two words of the `masks` table; any other word is read as a clear. -/
def andWord (s : Scalar) (word : Nat) : Scalar :=
  if word = 0xFFFFFFFF then s else 0

/-- Modelled from the spec: `Simd::Vec4::And` of a lane with four mask words. -/
def And (a : Vector4) (m : Nat × Nat × Nat × Nat) : Vector4 :=
  ⟨andWord a.x m.1, andWord a.y m.2.1, andWord a.z m.2.2.1, andWord a.w m.2.2.2⟩

/-- Modelled from the spec: `Simd::Vec4::LoadAligned`, the load of four
consecutive 32-bit words of a table starting at `offset`. -/
def LoadAligned (table : List Nat) (offset : Nat) : Except Failure (Nat × Nat × Nat × Nat) :=
  match table[offset]?, table[offset + 1]?, table[offset + 2]?, table[offset + 3]? with
  | some a, some b, some c, some d => .ok (a, b, c, d)
  | _, _, _, _ => .error .maskTableOverrun

/-! ## The lane container -/

/-- Modelled from the spec: checked `AZStd::vector::operator[]`, read. -/
def getAt (l : List Vector4) (i : Nat) : Except Failure Vector4 :=
  match l[i]? with
  | some a => .ok a
  | none => .error .outOfRange

/-- Modelled from the spec: checked `AZStd::vector::operator[]`, write. -/
def setAt (l : List Vector4) (i : Nat) (a : Vector4) : Except Failure (List Vector4) :=
  if i < l.length then .ok (l.set i a) else .error .outOfRange

/-- Modelled from the spec: `AZStd::vector::resize(count)`. The storage has
exactly `count` lanes afterwards; a lane that existed before holds what the
container leaves there (the spec does not guarantee that old content is
preserved) and a new lane what the container puts there. -/
def resize (E : Externals) (l : List Vector4) (count : Nat) : List Vector4 :=
  (List.range count).map (fun i => if i < l.length then E.survivor l count i else E.fresh i)

/-- Counting loop `for (i = start; i < start + fuel; ++i) body`. -/
def forLoop {σ : Type} (body : Nat → σ → Except Failure σ) : Nat → Nat → σ → Except Failure σ
  | 0, _, s => .ok s
  | fuel + 1, i, s =>
    match body i s with
    | .ok s1 => forLoop body fuel (i + 1) s1
    | .error e => .error e

/-- Counting loop whose body leaves with `false` at the first failed test. -/
def allLoop (test : Nat → Except Failure Bool) : Nat → Nat → Except Failure Bool
  | 0, _ => .ok true
  | fuel + 1, i =>
    match test i with
    | .ok true => allLoop test fuel (i + 1)
    | .ok false => .ok false
    | .error e => .error e

/-- Loop `for i < count: dst[i] = value i`. -/
def assignLanes (value : Nat → Except Failure Vector4) (count : Nat) (dst : List Vector4) :
    Except Failure (List Vector4) :=
  forLoop (fun i cur => do
    let r ← value i
    setAt cur i r) count 0 dst

/-- Loop `for i < count: cur[i] = update i cur[i]` (compound assignment). -/
def updateLanes (update : Nat → Vector4 → Except Failure Vector4) (count : Nat)
    (cur : List Vector4) : Except Failure (List Vector4) :=
  forLoop (fun i c => do
    let a ← getAt c i
    let r ← update i a
    setAt c i r) count 0 cur

/-! ## VectorN -/

/-- The vector: the element count and the lane storage. -/
structure VectorN where
  m_numElements : Nat
  m_values : List Vector4
  deriving DecidableEq, Repr

namespace VectorN

/-- The `masks` table of `FixLastVectorElement`. -/
def masks : List Nat :=
  [0xFFFFFFFF, 0xFFFFFFFF, 0xFFFFFFFF, 0xFFFFFFFF,
   0xFFFFFFFF, 0x00000000, 0x00000000, 0x00000000,
   0xFFFFFFFF, 0xFFFFFFFF, 0x00000000, 0x00000000,
   0xFFFFFFFF, 0xFFFFFFFF, 0xFFFFFFFF, 0x00000000]

/-- Source: `VectorN::FixLastVectorElement`. -/
def FixLastVectorElement (v : VectorN) : Except Failure VectorN := do
  let lastElement := sizeSub v.m_values.length 1
  let trailingZeroElements := 4 * (v.m_numElements % 4)
  let mask ← LoadAligned masks trailingZeroElements
  let last ← getAt v.m_values lastElement
  let values ← setAt v.m_values lastElement (And last mask)
  pure { v with m_values := values }

/-- Source: `VectorN::OnSizeChanged`. -/
def OnSizeChanged (E : Externals) (v : VectorN) : Except Failure VectorN :=
  FixLastVectorElement
    { v with m_values := resize E v.m_values (sizeAdd v.m_numElements 3 / 4) }

/-- Source: `VectorN::VectorN(size_t numElements)`. -/
def create (E : Externals) (numElements : Nat) : Except Failure VectorN :=
  OnSizeChanged E { m_numElements := numElements, m_values := [] }

/-- Source: `VectorN::VectorN(size_t numElements, float x)`. -/
def createFill (E : Externals) (numElements : Nat) (x : Scalar) : Except Failure VectorN := do
  let v ← create E numElements
  let xVec := Splat x
  FixLastVectorElement { v with m_values := v.m_values.map (fun _ => xVec) }

/-- Source: `VectorN::CreateZero`. -/
def CreateZero (E : Externals) (numElements : Nat) : Except Failure VectorN :=
  createFill E numElements 0

/-- Source: `VectorN::CreateOne`. -/
def CreateOne (E : Externals) (numElements : Nat) : Except Failure VectorN :=
  createFill E numElements 1

/-- Source: `VectorN::GetDimensionality`. -/
def GetDimensionality (v : VectorN) : Nat := v.m_numElements

/-- Source: `VectorN::Resize`. -/
def Resize (E : Externals) (v : VectorN) (size : Nat) : Except Failure VectorN :=
  OnSizeChanged E { v with m_numElements := size }

/-- Source: `VectorN::GetElement`. -/
def GetElement (v : VectorN) (index : Nat) : Except Failure Scalar := do
  let element := index / 4
  let lane ← getAt v.m_values element
  pure (lane.GetElement (index % 4))

/-- Source: `VectorN::SetElement`. -/
def SetElement (v : VectorN) (index : Nat) (value : Scalar) : Except Failure VectorN := do
  let element := index / 4
  let lane ← getAt v.m_values element
  let values ← setAt v.m_values element (lane.SetElement (index % 4) value)
  pure { v with m_values := values }

/-- Source: `VectorN::CreateFromFloats`; `inputs` is the `const float*`. -/
def CreateFromFloats (E : Externals) (numElements : Nat) (inputs : Nat → Scalar) :
    Except Failure VectorN := do
  let returnValue ← create E numElements
  forLoop (fun iter rv => SetElement rv iter (inputs iter)) numElements 0 returnValue

/-- Source: `VectorN::IsClose`. -/
def IsClose (a v : VectorN) (tolerance : Scalar) : Except Failure Bool := do
  AZ_Assert (a.m_numElements == v.m_numElements) .dimensionalityMismatch
  let vecTolerance := Splat tolerance
  allLoop (fun i => do
    let l ← getAt a.m_values i
    let r ← getAt v.m_values i
    let dist := (Vector4.sub l r).GetAbs
    pure (CmpAllLtEq dist vecTolerance)) a.m_values.length 0

/-- Source: `VectorN::IsZero`. -/
def IsZero (a : VectorN) (tolerance : Scalar) : Bool :=
  let vecTolerance := Splat tolerance
  a.m_values.all (fun element => CmpAllLtEq element.GetAbs vecTolerance)

/-- Source: `VectorN::ReLU`. -/
def ReLU (a : VectorN) : VectorN :=
  let zero := ZeroFloat
  { a with m_values := a.m_values.map (fun element =>
      let mask := CmpGtEq element zero
      Select element zero mask) }

/-- Source: `VectorN::IsLessThan`. -/
def IsLessThan (a v : VectorN) : Except Failure Bool := do
  AZ_Assert (a.m_numElements == v.m_numElements) .dimensionalityMismatch
  allLoop (fun i => do
    let l ← getAt a.m_values i
    let r ← getAt v.m_values i
    pure (CmpAllLt l r)) a.m_values.length 0

/-- Source: `VectorN::IsLessEqualThan`. -/
def IsLessEqualThan (a v : VectorN) : Except Failure Bool := do
  AZ_Assert (a.m_numElements == v.m_numElements) .dimensionalityMismatch
  allLoop (fun i => do
    let l ← getAt a.m_values i
    let r ← getAt v.m_values i
    pure (CmpAllLtEq l r)) a.m_values.length 0

/-- Source: `VectorN::IsGreaterThan`. -/
def IsGreaterThan (a v : VectorN) : Except Failure Bool := do
  AZ_Assert (a.m_numElements == v.m_numElements) .dimensionalityMismatch
  allLoop (fun i => do
    let l ← getAt a.m_values i
    let r ← getAt v.m_values i
    pure (CmpAllGt l r)) a.m_values.length 0

/-- Source: `VectorN::IsGreaterEqualThan`. -/
def IsGreaterEqualThan (a v : VectorN) : Except Failure Bool := do
  AZ_Assert (a.m_numElements == v.m_numElements) .dimensionalityMismatch
  allLoop (fun i => do
    let l ← getAt a.m_values i
    let r ← getAt v.m_values i
    pure (CmpAllGtEq l r)) a.m_values.length 0

/-- Source: `VectorN::GetFloor`. -/
def GetFloor (E : Externals) (a : VectorN) : Except Failure VectorN := do
  let returnValue ← create E a.m_numElements
  let values ← assignLanes (fun i => do
    let l ← getAt a.m_values i
    pure (l.GetFloor)) a.m_values.length returnValue.m_values
  pure { returnValue with m_values := values }

/-- Source: `VectorN::GetCeil`. -/
def GetCeil (E : Externals) (a : VectorN) : Except Failure VectorN := do
  let returnValue ← create E a.m_numElements
  let values ← assignLanes (fun i => do
    let l ← getAt a.m_values i
    pure (l.GetCeil)) a.m_values.length returnValue.m_values
  pure { returnValue with m_values := values }

/-- Source: `VectorN::GetRound`. -/
def GetRound (E : Externals) (a : VectorN) : Except Failure VectorN := do
  let returnValue ← create E a.m_numElements
  let values ← assignLanes (fun i => do
    let l ← getAt a.m_values i
    pure (l.GetRound)) a.m_values.length returnValue.m_values
  pure { returnValue with m_values := values }

/-- Source: `VectorN::GetMin`. -/
def GetMin (E : Externals) (a rhs : VectorN) : Except Failure VectorN := do
  AZ_Assert (a.m_numElements == rhs.m_numElements) .dimensionalityMismatch
  let returnValue ← create E a.m_numElements
  let values ← assignLanes (fun i => do
    let l ← getAt a.m_values i
    let r ← getAt rhs.m_values i
    pure (l.GetMin r)) a.m_values.length returnValue.m_values
  pure { returnValue with m_values := values }

/-- Source: `VectorN::GetMax`. -/
def GetMax (E : Externals) (a rhs : VectorN) : Except Failure VectorN := do
  AZ_Assert (a.m_numElements == rhs.m_numElements) .dimensionalityMismatch
  let returnValue ← create E a.m_numElements
  let values ← assignLanes (fun i => do
    let l ← getAt a.m_values i
    let r ← getAt rhs.m_values i
    pure (l.GetMax r)) a.m_values.length returnValue.m_values
  pure { returnValue with m_values := values }

/-- Source: `VectorN::GetClamp`. -/
def GetClamp (E : Externals) (a min max : VectorN) : Except Failure VectorN := do
  AZ_Assert (a.m_numElements == min.m_numElements) .dimensionalityMismatch
  AZ_Assert (a.m_numElements == max.m_numElements) .dimensionalityMismatch
  let returnValue ← create E a.m_numElements
  let values ← assignLanes (fun i => do
    let l ← getAt a.m_values i
    let lo ← getAt min.m_values i
    let hi ← getAt max.m_values i
    pure (l.GetClamp lo hi)) a.m_values.length returnValue.m_values
  pure { returnValue with m_values := values }

/-- Source: `VectorN::GetLengthSq`; `lengthSquared += ...` is an addition of
floats. -/
def GetLengthSq (E : Externals) (a : VectorN) : Except Failure Scalar :=
  forLoop (fun i lengthSquared => do
    let l ← getAt a.m_values i
    pure (E.addFloat lengthSquared l.GetLengthSq)) a.m_values.length 0 0

/-- Source: `VectorN::GetLength`. -/
def GetLength (E : Externals) (a : VectorN) : Except Failure Scalar := do
  let lengthSquared ← GetLengthSq E a
  pure (E.sqrt lengthSquared)

/-- Source: `VectorN::GetAbs`. -/
def GetAbs (E : Externals) (a : VectorN) : Except Failure VectorN := do
  let returnValue ← create E a.m_numElements
  let values ← assignLanes (fun i => do
    let l ← getAt a.m_values i
    pure (l.GetAbs)) a.m_values.length returnValue.m_values
  pure { returnValue with m_values := values }

/-- Source: `VectorN::GetSquare`. -/
def GetSquare (E : Externals) (a : VectorN) : Except Failure VectorN := do
  let returnValue ← create E a.m_numElements
  let values ← assignLanes (fun i => do
    let l ← getAt a.m_values i
    let r ← getAt a.m_values i
    pure (l.mul r)) a.m_values.length returnValue.m_values
  pure { returnValue with m_values := values }

/-- Source: `VectorN::Dot`; `dot += ...` is an addition of floats. -/
def Dot (E : Externals) (a rhs : VectorN) : Except Failure Scalar := do
  AZ_Assert (a.m_numElements == rhs.m_numElements) .dimensionalityMismatch
  forLoop (fun i dot => do
    let l ← getAt a.m_values i
    let r ← getAt rhs.m_values i
    pure (E.addFloat dot (l.Dot r))) a.m_values.length 0 0

/-- Source: `VectorN::operator+=(const VectorN&)`. -/
def opAddAssign (a rhs : VectorN) : Except Failure VectorN := do
  AZ_Assert (a.m_numElements == rhs.m_numElements) .dimensionalityMismatch
  let values ← updateLanes (fun i l => do
    let r ← getAt rhs.m_values i
    pure (l.add r)) a.m_values.length a.m_values
  pure { a with m_values := values }

/-- Source: `VectorN::operator-=(const VectorN&)`. -/
def opSubAssign (a rhs : VectorN) : Except Failure VectorN := do
  AZ_Assert (a.m_numElements == rhs.m_numElements) .dimensionalityMismatch
  let values ← updateLanes (fun i l => do
    let r ← getAt rhs.m_values i
    pure (l.sub r)) a.m_values.length a.m_values
  pure { a with m_values := values }

/-- Source: `VectorN::operator*=(const VectorN&)`. -/
def opMulAssign (a rhs : VectorN) : Except Failure VectorN := do
  AZ_Assert (a.m_numElements == rhs.m_numElements) .dimensionalityMismatch
  let values ← updateLanes (fun i l => do
    let r ← getAt rhs.m_values i
    pure (l.mul r)) a.m_values.length a.m_values
  pure { a with m_values := values }

/-- Source: `VectorN::operator/=(const VectorN&)`. -/
def opDivAssign (E : Externals) (a rhs : VectorN) : Except Failure VectorN := do
  AZ_Assert (a.m_numElements == rhs.m_numElements) .dimensionalityMismatch
  let values ← updateLanes (fun i l => do
    let r ← getAt rhs.m_values i
    pure (l.div E r)) a.m_values.length a.m_values
  FixLastVectorElement { a with m_values := values }

/-- Source: `VectorN::operator+=(float)`. -/
def opAddAssignScalar (a : VectorN) (sum : Scalar) : Except Failure VectorN := do
  let sumVec := Splat sum
  let values ← updateLanes (fun _ l => pure (l.add sumVec)) a.m_values.length a.m_values
  FixLastVectorElement { a with m_values := values }

/-- Source: `VectorN::operator-=(float)`. -/
def opSubAssignScalar (a : VectorN) (difference : Scalar) : Except Failure VectorN := do
  let diffVec := Splat difference
  let values ← updateLanes (fun _ l => pure (l.sub diffVec)) a.m_values.length a.m_values
  FixLastVectorElement { a with m_values := values }

/-- Source: `VectorN::operator*=(float)`. -/
def opMulAssignScalar (a : VectorN) (multiplier : Scalar) : Except Failure VectorN := do
  let values ← updateLanes (fun _ l => pure (l.mul (Splat multiplier))) a.m_values.length a.m_values
  pure { a with m_values := values }

/-- Source: `VectorN::operator/=(float)`. -/
def opDivAssignScalar (E : Externals) (a : VectorN) (divisor : Scalar) : Except Failure VectorN := do
  let values ← updateLanes (fun _ l => pure (l.div E (Splat divisor))) a.m_values.length a.m_values
  FixLastVectorElement { a with m_values := values }

/-- Source: `VectorN::Normalize`. -/
def Normalize (E : Externals) (a : VectorN) : Except Failure VectorN := do
  let length ← GetLength E a
  opDivAssignScalar E a length

/-- Source: `VectorN::GetNormalized`. -/
def GetNormalized (E : Externals) (a : VectorN) : Except Failure VectorN :=
  let returnValue := a
  Normalize E returnValue

/-- Source: `VectorN::operator-() const`. -/
def opNeg (E : Externals) (a : VectorN) : Except Failure VectorN := do
  let returnValue ← create E a.m_numElements
  let values ← assignLanes (fun i => do
    let l ← getAt a.m_values i
    pure (l.neg)) a.m_values.length returnValue.m_values
  pure { returnValue with m_values := values }

/-- Source: `VectorN::operator+(const VectorN&)`. -/
def opAdd (E : Externals) (a rhs : VectorN) : Except Failure VectorN := do
  AZ_Assert (a.m_numElements == rhs.m_numElements) .dimensionalityMismatch
  let returnValue ← create E a.m_numElements
  let values ← assignLanes (fun i => do
    let l ← getAt a.m_values i
    let r ← getAt rhs.m_values i
    pure (l.add r)) a.m_values.length returnValue.m_values
  pure { returnValue with m_values := values }

/-- Source: `VectorN::operator-(const VectorN&)`. -/
def opSub (E : Externals) (a rhs : VectorN) : Except Failure VectorN := do
  AZ_Assert (a.m_numElements == rhs.m_numElements) .dimensionalityMismatch
  let returnValue ← create E a.m_numElements
  let values ← assignLanes (fun i => do
    let l ← getAt a.m_values i
    let r ← getAt rhs.m_values i
    pure (l.sub r)) a.m_values.length returnValue.m_values
  pure { returnValue with m_values := values }

/-- Source: `VectorN::operator*(const VectorN&)`. -/
def opMul (E : Externals) (a rhs : VectorN) : Except Failure VectorN := do
  AZ_Assert (a.m_numElements == rhs.m_numElements) .dimensionalityMismatch
  let returnValue ← create E a.m_numElements
  let values ← assignLanes (fun i => do
    let l ← getAt a.m_values i
    let r ← getAt rhs.m_values i
    pure (l.mul r)) a.m_values.length returnValue.m_values
  pure { returnValue with m_values := values }

/-- Source: `VectorN::operator/(const VectorN&)`. -/
def opDiv (E : Externals) (a rhs : VectorN) : Except Failure VectorN := do
  AZ_Assert (a.m_numElements == rhs.m_numElements) .dimensionalityMismatch
  let returnValue ← create E a.m_numElements
  let values ← assignLanes (fun i => do
    let l ← getAt a.m_values i
    let r ← getAt rhs.m_values i
    pure (l.div E r)) a.m_values.length returnValue.m_values
  FixLastVectorElement { returnValue with m_values := values }

/-- Source: `VectorN::operator*(float)`. -/
def opMulScalar (E : Externals) (a : VectorN) (multiplier : Scalar) : Except Failure VectorN := do
  let returnValue ← create E a.m_numElements
  let values ← assignLanes (fun i => do
    let l ← getAt a.m_values i
    pure (l.mul (Splat multiplier))) a.m_values.length returnValue.m_values
  pure { returnValue with m_values := values }

/-- Source: `VectorN::operator/(float)`. -/
def opDivScalar (E : Externals) (a : VectorN) (divisor : Scalar) : Except Failure VectorN := do
  let returnValue ← create E a.m_numElements
  let values ← assignLanes (fun i => do
    let l ← getAt a.m_values i
    pure (l.div E (Splat divisor))) a.m_values.length returnValue.m_values
  FixLastVectorElement { returnValue with m_values := values }

/-- Source: `VectorN::GetVectorValues`. -/
def GetVectorValues (a : VectorN) : List Vector4 := a.m_values

/-! ## Slots and the class invariant -/

/-- The scalar in storage slot `j` (lane `j / 4`, offset `j % 4`), read without
any check; `0` when the lane does not exist. -/
def slot (v : VectorN) (j : Nat) : Scalar :=
  match v.m_values[j / 4]? with
  | some lane => lane.GetElement (j % 4)
  | none => 0

/-- Invariant I1: every padding slot (index at least the length, inside the
stored lanes) holds `0.0`. -/
def PaddingZero (v : VectorN) : Prop :=
  ∀ j, j < 4 * v.m_values.length → v.m_numElements ≤ j → slot v j = 0

/-- The lane storage has exactly `ceil(length / 4)` lanes. -/
def LaneCount (v : VectorN) : Prop :=
  v.m_values.length = (v.m_numElements + 3) / 4

/-- A vector of length `n` in its resting state: `ceil(n / 4)` lanes and zero
padding. -/
def Settled (n : Nat) (v : VectorN) : Prop :=
  v.m_numElements = n ∧ LaneCount v ∧ PaddingZero v

/-- An operation returned a vector of length `n` in its resting state. -/
def Yields (n : Nat) (r : Except Failure VectorN) : Prop :=
  ∃ v, r = .ok v ∧ Settled n v

instance (v : VectorN) : Decidable (PaddingZero v) := by
  unfold PaddingZero; infer_instance

instance (v : VectorN) : Decidable (LaneCount v) := by
  unfold LaneCount; infer_instance

instance (n : Nat) (v : VectorN) : Decidable (Settled n v) := by
  unfold Settled; infer_instance

end VectorN

/-- The lane at index `i` of a lane storage, the zero lane when there is none. -/
def laneAt (l : List Vector4) (i : Nat) : Vector4 :=
  match l[i]? with
  | some a => a
  | none => ZeroFloat

/-- The vector `[1, -2, 3, -4, 5]` in its resting state. -/
def sampleA : VectorN :=
  { m_numElements := 5, m_values := [⟨1, -2, 3, -4⟩, ⟨5, 0, 0, 0⟩] }

/-- The vector `[2, 2, 2, 2, 2]` in its resting state. -/
def sampleB : VectorN :=
  { m_numElements := 5, m_values := [⟨2, 2, 2, 2⟩, ⟨2, 0, 0, 0⟩] }

/-- A vector of length `n` with `ceil(n / 4)` lanes, whatever its padding holds. -/
def Shaped (n : Nat) (v : VectorN) : Prop :=
  v.m_numElements = n ∧ VectorN.LaneCount v

instance (n : Nat) (v : VectorN) : Decidable (Shaped n v) := by
  unfold Shaped; infer_instance

/-! ## The scalar product over the IEEE special values

The exact scalars above are all finite. The product of a lane by a scalar is the
one operation whose padding depends on a non-finite argument, so it is also read
over floats carrying the infinities and NaN. -/

/-- A `float` with the IEEE 754 special values: an exact finite value, an
infinity with its sign bit, or a NaN. -/
inductive Float32 where
  | finite (value : Scalar)
  | infinity (negative : Bool)
  | nan
  deriving DecidableEq, Repr

/-- Modelled from the spec: the product of two floats, special values
propagating by the IEEE 754 rules (a NaN operand gives NaN, zero times an
infinity is NaN, the sign of an infinite product is the exclusive or of the
signs); finite values multiply exactly. -/
def Float32.mul : Float32 → Float32 → Float32
  | .nan, _ => .nan
  | _, .nan => .nan
  | .finite a, .finite b => .finite (a * b)
  | .finite a, .infinity t => if a = 0 then .nan else .infinity (xor (decide (a < 0)) t)
  | .infinity t, .finite b => if b = 0 then .nan else .infinity (xor t (decide (b < 0)))
  | .infinity t, .infinity u => .infinity (xor t u)

/-- Modelled from the spec: a `Vector4` lane of four floats with their special
values. -/
structure Vector4F where
  x : Float32
  y : Float32
  z : Float32
  w : Float32
  deriving DecidableEq, Repr

/-- Modelled from the spec: `Vector4::operator*=(float)`, every slot times the
multiplier. -/
def Vector4F.mulScalar (l : Vector4F) (multiplier : Float32) : Vector4F :=
  ⟨l.x.mul multiplier, l.y.mul multiplier, l.z.mul multiplier, l.w.mul multiplier⟩

/-- The lane of exact scalars seen as a lane of floats. -/
def Vector4.toFloats (l : Vector4) : Vector4F :=
  ⟨.finite l.x, .finite l.y, .finite l.z, .finite l.w⟩

/-- Source: `VectorN::operator*=(float)` over a lane storage of floats with
their special values: `m_values[i] *= multiplier` for every lane, and no
tail-mask fix-up. -/
def opMulAssignScalarIEEE (values : List Vector4F) (multiplier : Float32) :
    Except Failure (List Vector4F) :=
  forLoop (fun i cur =>
    match cur[i]? with
    | some l => .ok (cur.set i (l.mulScalar multiplier))
    | none => .error .outOfRange) values.length 0 values

/-- The accumulator after `k` rounds of `acc += term i`, starting from `0.0f`. -/
def floatSum (add : Scalar → Scalar → Scalar) (term : Nat → Scalar) : Nat → Scalar
  | 0 => 0
  | k + 1 => add (floatSum add term k) (term k)

/-- The result is not the dimensionality-mismatch failure. -/
def NoMismatch {α : Type} (r : Except Failure α) : Prop :=
  r ≠ .error .dimensionalityMismatch

open VectorN

/-! ## The container and the loops -/

theorem getAt_ok {l : List Vector4} {i : Nat} (h : i < l.length) : getAt l i = .ok l[i] := by
  simp [getAt, List.getElem?_eq_getElem h]

theorem getAt_of_some {l : List Vector4} {i : Nat} {a : Vector4} (h : l[i]? = some a) :
    getAt l i = .ok a := by
  simp [getAt, h]

theorem getAt_error {l : List Vector4} {i : Nat} (h : l.length ≤ i) :
    getAt l i = .error .outOfRange := by
  have : l[i]? = none := List.getElem?_eq_none h
  simp [getAt, this]

theorem setAt_ok {l : List Vector4} {i : Nat} (a : Vector4) (h : i < l.length) :
    setAt l i a = .ok (l.set i a) := by
  simp [setAt, h]

theorem setAt_error {l : List Vector4} {i : Nat} (a : Vector4) (h : l.length ≤ i) :
    setAt l i a = .error .outOfRange := by
  have : ¬ i < l.length := by omega
  simp [setAt, this]

theorem resize_length (E : Externals) (l : List Vector4) (count : Nat) :
    (resize E l count).length = count := by
  simp [resize]

/-- Hoare rule of the counting loop: an invariant kept by every iteration holds
at the end, and the loop returns. -/
theorem forLoop_inv {σ : Type} (body : Nat → σ → Except Failure σ) (P : Nat → σ → Prop) :
    ∀ (fuel i : Nat) (s : σ), P i s →
      (∀ j t, i ≤ j → j < i + fuel → P j t → ∃ t1, body j t = .ok t1 ∧ P (j + 1) t1) →
      ∃ r, forLoop body fuel i s = .ok r ∧ P (i + fuel) r := by
  intro fuel
  induction fuel with
  | zero =>
    intro i s h _
    exact ⟨s, rfl, by simpa using h⟩
  | succ k ih =>
    intro i s h hstep
    obtain ⟨t1, hb, hp⟩ := hstep i s (le_refl _) (by omega) h
    obtain ⟨r, hr, hpr⟩ :=
      ih (i + 1) t1 hp (fun j t hj1 hj2 hpj => hstep j t (by omega) (by omega) hpj)
    refine ⟨r, ?_, ?_⟩
    · simp [forLoop, hb, hr]
    · have e : i + (k + 1) = i + 1 + k := by omega
      rw [e]
      exact hpr

/-- The assignment loop writes `G j` into every lane `j` when the right-hand
side can be read. -/
theorem assignLanes_spec (value : Nat → Except Failure Vector4) (G : Nat → Vector4) (k : Nat)
    (dst : List Vector4) (hlen : dst.length = k) (hv : ∀ j, j < k → value j = .ok (G j)) :
    ∃ r, assignLanes value k dst = .ok r ∧ r.length = k ∧ ∀ j, j < k → r[j]? = some (G j) := by
  have h := forLoop_inv (fun i cur => do
      let r ← value i
      setAt cur i r)
    (fun i s => s.length = k ∧ ∀ j, j < i → s[j]? = some (G j)) k 0 dst
    ⟨hlen, fun j hj => absurd hj (Nat.not_lt_zero j)⟩
    (by
      intro j t _ hj ⟨hl, hp⟩
      have hjk : j < k := by omega
      refine ⟨t.set j (G j), ?_, ?_, ?_⟩
      · simp [hv j hjk, bind, Except.bind, setAt, hl, hjk]
      · simp [hl]
      · intro j1 hj1
        by_cases e : j1 = j
        · subst e
          simp [hl, hjk]
        · have : j1 < j := by omega
          rw [List.getElem?_set_ne (Ne.symm e)]
          exact hp j1 this)
  obtain ⟨r, hr, hl, hp⟩ := h
  exact ⟨r, hr, hl, fun j hj => hp j (by omega)⟩

/-- The compound-assignment loop replaces every lane `a` at `j` by `U j a`. -/
theorem updateLanes_spec (update : Nat → Vector4 → Except Failure Vector4)
    (U : Nat → Vector4 → Vector4) (cur : List Vector4)
    (hu : ∀ j a, j < cur.length → update j a = .ok (U j a)) :
    ∃ r, updateLanes update cur.length cur = .ok r ∧ r.length = cur.length ∧
      ∀ j a, cur[j]? = some a → r[j]? = some (U j a) := by
  have h := forLoop_inv (fun i c => do
      let a ← getAt c i
      let r ← update i a
      setAt c i r)
    (fun i s => s.length = cur.length ∧ (∀ j a, j < i → cur[j]? = some a → s[j]? = some (U j a)) ∧
      ∀ j, i ≤ j → s[j]? = cur[j]?) cur.length 0 cur
    ⟨rfl, fun j a hj => absurd hj (Nat.not_lt_zero j), fun _ _ => rfl⟩
    (by
      intro j t _ hj ⟨hl, hp, hq⟩
      have hjk : j < cur.length := by omega
      have hjt : j < t.length := by omega
      have htj : t[j]? = some cur[j] := by
        rw [hq j (le_refl _)]
        exact List.getElem?_eq_getElem hjk
      refine ⟨t.set j (U j cur[j]), ?_, ?_, ?_, ?_⟩
      · simp [getAt_of_some htj, hu j cur[j] hjk, bind, Except.bind, setAt, hjt]
      · simp [hl]
      · intro j1 a hj1 ha
        by_cases e : j1 = j
        · subst e
          have : a = cur[j1] := by
            rw [List.getElem?_eq_getElem hjk] at ha
            exact (Option.some.inj ha).symm
          subst this
          simp [hjt]
        · have : j1 < j := by omega
          rw [List.getElem?_set_ne (Ne.symm e)]
          exact hp j1 a this ha
      · intro j1 hj1
        have e : j ≠ j1 := by omega
        rw [List.getElem?_set_ne e]
        exact hq j1 (by omega))
  obtain ⟨r, hr, hl, hp, _⟩ := h
  exact ⟨r, hr, hl, fun j a ha => hp j a (by
    by_contra hc
    have : cur[j]? = none := List.getElem?_eq_none (by omega)
    rw [this] at ha
    cases ha) ha⟩

/-! ## Lanes and slots -/

theorem Vector4.map_get (f : Scalar → Scalar) (v : Vector4) (t : Nat) :
    (Vector4.map f v).GetElement t = f (v.GetElement t) := by
  rcases t with _ | _ | _ | t <;> rfl

theorem Vector4.map₂_get (f : Scalar → Scalar → Scalar) (a b : Vector4) (t : Nat) :
    (Vector4.map₂ f a b).GetElement t = f (a.GetElement t) (b.GetElement t) := by
  rcases t with _ | _ | _ | t <;> rfl

theorem Splat_get (s : Scalar) (t : Nat) : (Splat s).GetElement t = s := by
  rcases t with _ | _ | _ | t <;> rfl

theorem Vector4.SetElement_get (v : Vector4) (i t : Nat) (s : Scalar) (hi : i < 4) (ht : t < 4) :
    (v.SetElement i s).GetElement t = if t = i then s else v.GetElement t := by
  interval_cases i <;> interval_cases t <;> simp [Vector4.SetElement, Vector4.GetElement]

theorem slot_of_some {v : VectorN} {j : Nat} {lane : Vector4} (h : v.m_values[j / 4]? = some lane) :
    slot v j = lane.GetElement (j % 4) := by
  simp [slot, h]

theorem slot_eq_getElem (v : VectorN) (j : Nat) (h : j / 4 < v.m_values.length) :
    slot v j = (v.m_values[j / 4]).GetElement (j % 4) :=
  slot_of_some (List.getElem?_eq_getElem h)

/-- The mask loaded for a length `n` stays inside the table, keeps the first
`n % 4` slots of a lane (all four when `n % 4 = 0`) and clears the others. -/
theorem loadMask_spec (n : Nat) :
    ∃ m, LoadAligned masks (4 * (n % 4)) = .ok m ∧
      ∀ (lane : Vector4) (t : Nat), t < 4 →
        (And lane m).GetElement t = if n % 4 = 0 ∨ t < n % 4 then lane.GetElement t else 0 := by
  rcases (by omega : n % 4 = 0 ∨ n % 4 = 1 ∨ n % 4 = 2 ∨ n % 4 = 3) with h | h | h | h <;>
    rw [h] <;> refine ⟨_, rfl, ?_⟩ <;> intro lane t ht <;> interval_cases t <;>
    simp [And, andWord, Vector4.GetElement, masks]

theorem sizeSub_one (k : Nat) (h1 : 1 ≤ k) (h2 : k ≤ SIZE_MOD) : sizeSub k 1 = k - 1 := by
  unfold sizeSub SIZE_MOD at *
  norm_num at *
  omega

theorem sizeAdd_three (n : Nat) (h : n + 3 < SIZE_MOD) : sizeAdd n 3 = n + 3 := by
  unfold sizeAdd
  exact Nat.mod_eq_of_lt h

/-- Tail masking, slot by slot: the logical slots are kept and the padding
slots are cleared. -/
theorem FixLast_spec (v : VectorN) (hpos : 1 ≤ v.m_numElements) (hlen : LaneCount v)
    (hsz : v.m_numElements < SIZE_MOD) :
    ∃ w, FixLastVectorElement v = .ok w ∧ w.m_numElements = v.m_numElements ∧
      w.m_values.length = v.m_values.length ∧
      ∀ j, j < 4 * v.m_values.length →
        slot w j = if j < v.m_numElements then slot v j else 0 := by
  obtain ⟨m, hm, hand⟩ := loadMask_spec v.m_numElements
  unfold LaneCount at hlen
  have hk1 : 1 ≤ v.m_values.length := by omega
  have hk2 : v.m_values.length ≤ SIZE_MOD := by omega
  have hlast : v.m_values.length - 1 < v.m_values.length := by omega
  refine ⟨{ v with m_values := (v.m_values.set (v.m_values.length - 1)
      (And (v.m_values[v.m_values.length - 1]) m)) }, ?_, rfl, by simp, ?_⟩
  · simp [FixLastVectorElement, hm, sizeSub_one _ hk1 hk2, getAt_ok hlast, setAt_ok _ hlast,
      bind, Except.bind, pure, Except.pure]
  · intro j hj
    have hj4 : j / 4 < v.m_values.length := by omega
    by_cases e : j / 4 = v.m_values.length - 1
    · have h1 : slot { v with m_values := (v.m_values.set (v.m_values.length - 1)
          (And (v.m_values[v.m_values.length - 1]) m)) } j
          = (And (v.m_values[v.m_values.length - 1]) m).GetElement (j % 4) := by
        apply slot_of_some
        simp [e, hlast]
      have h2 : slot v j = (v.m_values[v.m_values.length - 1]).GetElement (j % 4) := by
        apply slot_of_some
        rw [e]
        exact List.getElem?_eq_getElem hlast
      rw [h1, h2, hand _ _ (Nat.mod_lt _ (by omega))]
      have hiff : (v.m_numElements % 4 = 0 ∨ j % 4 < v.m_numElements % 4) ↔ j < v.m_numElements := by
        omega
      simp only [hiff]
    · have hlt : j < v.m_numElements := by omega
      have h1 : slot { v with m_values := (v.m_values.set (v.m_values.length - 1)
          (And (v.m_values[v.m_values.length - 1]) m)) } j = slot v j := by
        unfold slot
        simp only []
        rw [List.getElem?_set_ne (Ne.symm e)]
      rw [h1, if_pos hlt]

/-! ## Element access -/

theorem GetElement_eq_slot (v : VectorN) (i : Nat) (h : i / 4 < v.m_values.length) :
    GetElement v i = .ok (slot v i) := by
  simp [GetElement, getAt_ok h, slot_eq_getElem v i h, bind, Except.bind, pure, Except.pure]

theorem GetElement_error (v : VectorN) (i : Nat) (h : v.m_values.length ≤ i / 4) :
    GetElement v i = .error .outOfRange := by
  simp [GetElement, getAt_error h, bind, Except.bind]

theorem SetElement_error (v : VectorN) (i : Nat) (x : Scalar) (h : v.m_values.length ≤ i / 4) :
    SetElement v i x = .error .outOfRange := by
  simp [SetElement, getAt_error h, bind, Except.bind]

/-- Writing slot `i` of an existing lane changes that slot and no other. -/
theorem SetElement_spec (v : VectorN) (i : Nat) (x : Scalar) (h : i / 4 < v.m_values.length) :
    ∃ w, SetElement v i x = .ok w ∧ w.m_numElements = v.m_numElements ∧
      w.m_values.length = v.m_values.length ∧
      ∀ j, slot w j = if j = i then x else slot v j := by
  refine ⟨{ v with m_values := (v.m_values.set (i / 4)
      ((v.m_values[i / 4]).SetElement (i % 4) x)) }, ?_, rfl, by simp, ?_⟩
  · simp [SetElement, getAt_ok h, setAt_ok _ h, bind, Except.bind, pure, Except.pure]
  · intro j
    by_cases e : j / 4 = i / 4
    · have h1 : slot { v with m_values := (v.m_values.set (i / 4)
          ((v.m_values[i / 4]).SetElement (i % 4) x)) } j
          = ((v.m_values[i / 4]).SetElement (i % 4) x).GetElement (j % 4) := by
        apply slot_of_some
        simp [e, h]
      have h2 : slot v j = (v.m_values[i / 4]).GetElement (j % 4) := by
        apply slot_of_some
        rw [e]
        exact List.getElem?_eq_getElem h
      rw [h1, h2, Vector4.SetElement_get _ _ _ _ (Nat.mod_lt _ (by omega)) (Nat.mod_lt _ (by omega))]
      have hiff : (j % 4 = i % 4) ↔ j = i := by omega
      simp only [hiff]
    · have hne : j ≠ i := by
        intro hji
        exact e (by rw [hji])
      have h1 : slot { v with m_values := (v.m_values.set (i / 4)
          ((v.m_values[i / 4]).SetElement (i % 4) x)) } j = slot v j := by
        unfold slot
        simp only []
        rw [List.getElem?_set_ne (Ne.symm e)]
      rw [h1, if_neg hne]

/-! ## Construction -/

/-- Tail masking of a vector with the right lane count gives a vector in its
resting state and keeps the logical slots. -/
theorem FixLast_settled (v : VectorN) (n : Nat) (hn : v.m_numElements = n) (hpos : 1 ≤ n)
    (hlen : LaneCount v) (hsz : n < SIZE_MOD) :
    ∃ w, FixLastVectorElement v = .ok w ∧ Settled n w ∧
      ∀ j, j < n → slot w j = slot v j := by
  subst hn
  obtain ⟨w, hw, hwn, hwl, hslot⟩ := FixLast_spec v hpos hlen hsz
  have hl : v.m_values.length = (v.m_numElements + 3) / 4 := hlen
  refine ⟨w, hw, ⟨hwn, ?_, ?_⟩, ?_⟩
  · unfold LaneCount
    rw [hwl, hwn]
    exact hlen
  · intro j hj hnj
    rw [hwl] at hj
    rw [hwn] at hnj
    rw [hslot j hj, if_neg (by omega)]
  · intro j hj
    rw [hslot j (by omega), if_pos hj]

theorem OnSizeChanged_spec (E : Externals) (v : VectorN) (n : Nat) (hn : v.m_numElements = n)
    (hpos : 1 ≤ n) (hsz : n + 3 < SIZE_MOD) :
    ∃ w, OnSizeChanged E v = .ok w ∧ Settled n w ∧
      ∀ j, j < n → slot w j
        = slot { v with m_values := resize E v.m_values ((n + 3) / 4) } j := by
  subst hn
  unfold OnSizeChanged
  rw [sizeAdd_three _ hsz]
  exact FixLast_settled _ _ rfl hpos (by simp [LaneCount, resize_length]) (by omega)

/-- The constructor `VectorN(n)` returns a vector in its resting state. -/
theorem create_spec (E : Externals) (n : Nat) (hpos : 1 ≤ n) (hsz : n + 3 < SIZE_MOD) :
    ∃ v, create E n = .ok v ∧ Settled n v := by
  obtain ⟨w, hw, hs, _⟩ := OnSizeChanged_spec E { m_numElements := n, m_values := [] } n rfl hpos hsz
  exact ⟨w, hw, hs⟩

theorem Resize_spec (E : Externals) (v : VectorN) (m : Nat) (hpos : 1 ≤ m)
    (hsz : m + 3 < SIZE_MOD) :
    ∃ w, Resize E v m = .ok w ∧ Settled m w := by
  obtain ⟨w, hw, hs, _⟩ := OnSizeChanged_spec E { v with m_numElements := m } m rfl hpos hsz
  exact ⟨w, hw, hs⟩

theorem slot_map_const (n : Nat) (l : List Vector4) (c : Vector4) (j : Nat)
    (h : j / 4 < l.length) :
    slot { m_numElements := n, m_values := l.map (fun _ => c) } j = c.GetElement (j % 4) := by
  apply slot_of_some
  rw [List.getElem?_map, List.getElem?_eq_getElem h]
  rfl

/-- The constructor `VectorN(n, x)`: resting state with `x` in every logical slot. -/
theorem createFill_spec (E : Externals) (n : Nat) (x : Scalar) (hpos : 1 ≤ n)
    (hsz : n + 3 < SIZE_MOD) :
    ∃ v, createFill E n x = .ok v ∧ Settled n v ∧ ∀ j, j < n → slot v j = x := by
  obtain ⟨v0, hv0, hn0, hl0, _⟩ := create_spec E n hpos hsz
  have hl0a : v0.m_values.length = (v0.m_numElements + 3) / 4 := hl0
  obtain ⟨w, hw, hs, hslot⟩ := FixLast_settled
    { v0 with m_values := v0.m_values.map (fun _ => Splat x) } n hn0 hpos
    (by simpa [LaneCount] using hl0) (by omega)
  refine ⟨w, ?_, hs, ?_⟩
  · simp only [createFill, hv0, bind, Except.bind]
    exact hw
  · intro j hj
    rw [hslot j hj, slot_map_const _ _ _ _ (by omega), Splat_get]

/-- The element loop of `CreateFromFloats` keeps the resting state and stores
`inputs j` in every logical slot `j`. -/
theorem CreateFromFloats_spec (E : Externals) (n : Nat) (inputs : Nat → Scalar) (hpos : 1 ≤ n)
    (hsz : n + 3 < SIZE_MOD) :
    ∃ v, CreateFromFloats E n inputs = .ok v ∧ Settled n v ∧ ∀ j, j < n → slot v j = inputs j := by
  obtain ⟨v0, hv0, hs0⟩ := create_spec E n hpos hsz
  have h := forLoop_inv (fun iter rv => SetElement rv iter (inputs iter))
    (fun i s => Settled n s ∧ ∀ j, j < i → slot s j = inputs j) n 0 v0
    ⟨hs0, fun j hj => absurd hj (Nat.not_lt_zero j)⟩
    (by
      intro j t _ hj ⟨⟨htn, htl, htp⟩, hq⟩
      have htl1 : t.m_values.length = (t.m_numElements + 3) / 4 := htl
      obtain ⟨w, hw, hwn, hwl, hslot⟩ := SetElement_spec t j (inputs j) (by omega)
      refine ⟨w, hw, ⟨by omega, ?_, ?_⟩, ?_⟩
      · unfold LaneCount
        omega
      · intro j1 h1 h2
        rw [hslot j1, if_neg (by omega)]
        exact htp j1 (by omega) (by omega)
      · intro j1 h1
        rw [hslot j1]
        by_cases e : j1 = j
        · simp [e]
        · rw [if_neg e]
          exact hq j1 (by omega))
  obtain ⟨r, hr, hs, hq⟩ := h
  refine ⟨r, ?_, hs, fun j hj => hq j (by omega)⟩
  simp only [CreateFromFloats, hv0, bind, Except.bind]
  exact hr

/-! ## Construction: the claims -/

/-- C2 (fill construction): for every length `n ≥ 1` whose lane count is computed
without wrap-around and every fill value `x`, the constructor `VectorN(n, x)`
returns a vector with `GetDimensionality() == n`, `ceil(n / 4)` lanes,
`GetElement(i) == x` for every `i < n`, and every padding slot equal to `0.0`. -/
theorem C2_fill_construction (E : Externals) (n : Nat) (x : Scalar) (hpos : 1 ≤ n)
    (hsz : n + 3 < SIZE_MOD) :
    ∃ v, createFill E n x = .ok v ∧ GetDimensionality v = n ∧
      v.m_values.length = (n + 3) / 4 ∧
      (∀ i, i < n → GetElement v i = .ok x) ∧
      (∀ j, n ≤ j → j < 4 * v.m_values.length → slot v j = 0) := by
  obtain ⟨v, hv, ⟨hn, hl, hp⟩, hx⟩ := createFill_spec E n x hpos hsz
  have hl1 : v.m_values.length = (v.m_numElements + 3) / 4 := hl
  refine ⟨v, hv, hn, by omega, ?_, ?_⟩
  · intro i hi
    rw [GetElement_eq_slot v i (by omega), hx i hi]
  · intro j h1 h2
    exact hp j h2 (by omega)

/-- C2, the scenario of the spec: `Create(5, 2.0)` holds `2.0` at the indices
0..4 and `0.0` in the slots 5, 6 and 7. -/
theorem C2_fill_construction_witness :
    1 ≤ 5 ∧ 5 + 3 < SIZE_MOD ∧
    createFill Externals.plain 5 2
      = .ok { m_numElements := 5, m_values := [⟨2, 2, 2, 2⟩, ⟨2, 0, 0, 0⟩] } ∧
    ∃ v, createFill Externals.plain 5 2 = .ok v ∧ GetDimensionality v = 5 ∧
      v.m_values.length = (5 + 3) / 4 ∧
      (∀ i, i < 5 → GetElement v i = .ok 2) ∧
      (∀ j, 5 ≤ j → j < 4 * v.m_values.length → slot v j = 0) :=
  ⟨by decide, by decide, by rfl, C2_fill_construction Externals.plain 5 2 (by decide) (by decide)⟩

/-- C3 (length 0): the constructor `VectorN(0)` and `Resize(0)` leave the lane
storage empty, so the tail-masking step computes the last-lane index
`0 - 1 = 2^64 - 1` and its checked access to the lane storage fails. -/
theorem C3_zero_length_fails (E : Externals) :
    sizeSub 0 1 = SIZE_MOD - 1 ∧
    create E 0 = .error .outOfRange ∧
    ∀ v : VectorN, Resize E v 0 = .error .outOfRange := by
  refine ⟨by decide, ?_, ?_⟩
  · simp [create, OnSizeChanged, FixLastVectorElement, resize, sizeAdd, SIZE_MOD, LoadAligned,
      masks, getAt, bind, Except.bind]
  · intro v
    simp [Resize, OnSizeChanged, FixLastVectorElement, resize, sizeAdd, SIZE_MOD, LoadAligned,
      masks, getAt, bind, Except.bind]

/-- C4 (round-trip construction): for every length `n ≥ 1` whose lane count is
computed without wrap-around and every array of scalars, `CreateFromFloats(n, arr)`
returns a vector of dimensionality `n` with `ceil(n / 4)` lanes whose
`GetElement(i)` is exactly `arr[i]` for every `i < n` and whose padding slots
are `0.0`. -/
theorem C4_round_trip_construction (E : Externals) (n : Nat) (arr : Nat → Scalar)
    (hpos : 1 ≤ n) (hsz : n + 3 < SIZE_MOD) :
    ∃ v, CreateFromFloats E n arr = .ok v ∧ GetDimensionality v = n ∧
      v.m_values.length = (n + 3) / 4 ∧
      (∀ i, i < n → GetElement v i = .ok (arr i)) ∧
      (∀ j, n ≤ j → j < 4 * v.m_values.length → slot v j = 0) := by
  obtain ⟨v, hv, ⟨hn, hl, hp⟩, hx⟩ := CreateFromFloats_spec E n arr hpos hsz
  have hl1 : v.m_values.length = (v.m_numElements + 3) / 4 := hl
  refine ⟨v, hv, hn, by omega, ?_, ?_⟩
  · intro i hi
    rw [GetElement_eq_slot v i (by omega), hx i hi]
  · intro j h1 h2
    exact hp j h2 (by omega)

/-- C4 at a concrete input: six scalars `1..6` over collaborators whose new lanes
hold `7`. -/
theorem C4_round_trip_construction_witness :
    1 ≤ 6 ∧ 6 + 3 < SIZE_MOD ∧
    ∃ v, CreateFromFloats { Externals.plain with fresh := fun _ => ⟨7, 7, 7, 7⟩ } 6
        (fun i => (i : Scalar) + 1) = .ok v ∧ GetDimensionality v = 6 ∧
      v.m_values.length = (6 + 3) / 4 ∧
      (∀ i, i < 6 → GetElement v i = .ok ((fun i => (i : Scalar) + 1) i)) ∧
      (∀ j, 6 ≤ j → j < 4 * v.m_values.length → slot v j = 0) :=
  ⟨by decide, by decide, C4_round_trip_construction _ 6 _ (by decide) (by decide)⟩

/-! ## The dimensionality assertion -/

theorem NoMismatch.bind {α β : Type} {x : Except Failure α} {f : α → Except Failure β}
    (hx : NoMismatch x) (hf : ∀ a, NoMismatch (f a)) : NoMismatch (x >>= f) := by
  cases x with
  | error e =>
    intro h
    have e1 : (Except.error e >>= f) = Except.error e := rfl
    rw [e1] at h
    cases h
    exact hx rfl
  | ok a => exact hf a

theorem pure_nm {α : Type} (a : α) : NoMismatch (pure a : Except Failure α) := by
  intro h
  cases h

theorem AZ_Assert_nm (c : Bool) (f : Failure) (h : c = true) : NoMismatch (AZ_Assert c f) := by
  subst h
  intro h
  cases h

theorem getAt_nm (l : List Vector4) (i : Nat) : NoMismatch (getAt l i) := by
  unfold getAt NoMismatch
  split <;> simp

theorem setAt_nm (l : List Vector4) (i : Nat) (a : Vector4) : NoMismatch (setAt l i a) := by
  unfold setAt NoMismatch
  split <;> simp

theorem LoadAligned_nm (table : List Nat) (offset : Nat) : NoMismatch (LoadAligned table offset) := by
  unfold LoadAligned NoMismatch
  split <;> simp

theorem forLoop_nm {σ : Type} (body : Nat → σ → Except Failure σ)
    (h : ∀ i s, NoMismatch (body i s)) (fuel i : Nat) (s : σ) :
    NoMismatch (forLoop body fuel i s) := by
  induction fuel generalizing i s with
  | zero =>
    intro e
    cases e
  | succ k ih =>
    unfold forLoop
    have hb := h i s
    cases hbody : body i s with
    | error e =>
      rw [hbody] at hb
      exact hb
    | ok s1 => exact ih (i + 1) s1

theorem allLoop_nm (test : Nat → Except Failure Bool) (h : ∀ i, NoMismatch (test i))
    (fuel i : Nat) : NoMismatch (allLoop test fuel i) := by
  induction fuel generalizing i with
  | zero =>
    intro e
    cases e
  | succ k ih =>
    unfold allLoop
    have hb := h i
    cases htest : test i with
    | error e =>
      rw [htest] at hb
      exact hb
    | ok b =>
      cases b with
      | true => exact ih (i + 1)
      | false =>
        intro e
        cases e

theorem assignLanes_nm (value : Nat → Except Failure Vector4) (h : ∀ i, NoMismatch (value i))
    (count : Nat) (dst : List Vector4) : NoMismatch (assignLanes value count dst) := by
  unfold assignLanes
  apply forLoop_nm
  intro i s
  exact NoMismatch.bind (h i) (fun r => setAt_nm s i r)

theorem updateLanes_nm (update : Nat → Vector4 → Except Failure Vector4)
    (h : ∀ i a, NoMismatch (update i a)) (count : Nat) (cur : List Vector4) :
    NoMismatch (updateLanes update count cur) := by
  unfold updateLanes
  apply forLoop_nm
  intro i s
  exact NoMismatch.bind (getAt_nm s i)
    (fun a => NoMismatch.bind (h i a) (fun r => setAt_nm s i r))

theorem FixLast_nm (v : VectorN) : NoMismatch (FixLastVectorElement v) := by
  unfold FixLastVectorElement
  exact NoMismatch.bind (LoadAligned_nm _ _) (fun _ =>
    NoMismatch.bind (getAt_nm _ _) (fun _ =>
      NoMismatch.bind (setAt_nm _ _ _) (fun _ => pure_nm _)))

theorem create_nm (E : Externals) (n : Nat) : NoMismatch (create E n) := by
  unfold create OnSizeChanged
  exact FixLast_nm _

theorem Dot_mismatch_iff (E : Externals) (a b : VectorN) :
    Dot E a b = .error .dimensionalityMismatch ↔ a.m_numElements ≠ b.m_numElements := by
  constructor
  · intro h hn
    have hnm : NoMismatch (Dot E a b) := by
      unfold Dot
      repeat (first
        | exact pure_nm _
        | exact getAt_nm _ _
        | (apply AZ_Assert_nm; rw [beq_iff_eq]; assumption)
        | (apply forLoop_nm; intro _ _)
        | apply NoMismatch.bind
        | intro _)
    exact hnm h
  · intro hn
    simp [Dot, AZ_Assert, hn, bind, Except.bind]

theorem IsLessThan_mismatch_iff (a b : VectorN) :
    IsLessThan a b = .error .dimensionalityMismatch ↔ a.m_numElements ≠ b.m_numElements := by
  constructor
  · intro h hn
    have hnm : NoMismatch (IsLessThan a b) := by
      unfold IsLessThan
      repeat (first
        | exact pure_nm _
        | exact getAt_nm _ _
        | (apply AZ_Assert_nm; rw [beq_iff_eq]; assumption)
        | (apply allLoop_nm; intro _)
        | apply NoMismatch.bind
        | intro _)
    exact hnm h
  · intro hn
    simp [IsLessThan, AZ_Assert, hn, bind, Except.bind]

theorem IsLessEqualThan_mismatch_iff (a b : VectorN) :
    IsLessEqualThan a b = .error .dimensionalityMismatch ↔ a.m_numElements ≠ b.m_numElements := by
  constructor
  · intro h hn
    have hnm : NoMismatch (IsLessEqualThan a b) := by
      unfold IsLessEqualThan
      repeat (first
        | exact pure_nm _
        | exact getAt_nm _ _
        | (apply AZ_Assert_nm; rw [beq_iff_eq]; assumption)
        | (apply allLoop_nm; intro _)
        | apply NoMismatch.bind
        | intro _)
    exact hnm h
  · intro hn
    simp [IsLessEqualThan, AZ_Assert, hn, bind, Except.bind]

theorem IsGreaterThan_mismatch_iff (a b : VectorN) :
    IsGreaterThan a b = .error .dimensionalityMismatch ↔ a.m_numElements ≠ b.m_numElements := by
  constructor
  · intro h hn
    have hnm : NoMismatch (IsGreaterThan a b) := by
      unfold IsGreaterThan
      repeat (first
        | exact pure_nm _
        | exact getAt_nm _ _
        | (apply AZ_Assert_nm; rw [beq_iff_eq]; assumption)
        | (apply allLoop_nm; intro _)
        | apply NoMismatch.bind
        | intro _)
    exact hnm h
  · intro hn
    simp [IsGreaterThan, AZ_Assert, hn, bind, Except.bind]

theorem IsGreaterEqualThan_mismatch_iff (a b : VectorN) :
    IsGreaterEqualThan a b = .error .dimensionalityMismatch ↔ a.m_numElements ≠ b.m_numElements := by
  constructor
  · intro h hn
    have hnm : NoMismatch (IsGreaterEqualThan a b) := by
      unfold IsGreaterEqualThan
      repeat (first
        | exact pure_nm _
        | exact getAt_nm _ _
        | (apply AZ_Assert_nm; rw [beq_iff_eq]; assumption)
        | (apply allLoop_nm; intro _)
        | apply NoMismatch.bind
        | intro _)
    exact hnm h
  · intro hn
    simp [IsGreaterEqualThan, AZ_Assert, hn, bind, Except.bind]

theorem opAddAssign_mismatch_iff (a b : VectorN) :
    opAddAssign a b = .error .dimensionalityMismatch ↔ a.m_numElements ≠ b.m_numElements := by
  constructor
  · intro h hn
    have hnm : NoMismatch (opAddAssign a b) := by
      unfold opAddAssign
      repeat (first
        | exact pure_nm _
        | exact getAt_nm _ _
        | (apply AZ_Assert_nm; rw [beq_iff_eq]; assumption)
        | (apply updateLanes_nm; intro _ _)
        | apply NoMismatch.bind
        | intro _)
    exact hnm h
  · intro hn
    simp [opAddAssign, AZ_Assert, hn, bind, Except.bind]

theorem opSubAssign_mismatch_iff (a b : VectorN) :
    opSubAssign a b = .error .dimensionalityMismatch ↔ a.m_numElements ≠ b.m_numElements := by
  constructor
  · intro h hn
    have hnm : NoMismatch (opSubAssign a b) := by
      unfold opSubAssign
      repeat (first
        | exact pure_nm _
        | exact getAt_nm _ _
        | (apply AZ_Assert_nm; rw [beq_iff_eq]; assumption)
        | (apply updateLanes_nm; intro _ _)
        | apply NoMismatch.bind
        | intro _)
    exact hnm h
  · intro hn
    simp [opSubAssign, AZ_Assert, hn, bind, Except.bind]

theorem opMulAssign_mismatch_iff (a b : VectorN) :
    opMulAssign a b = .error .dimensionalityMismatch ↔ a.m_numElements ≠ b.m_numElements := by
  constructor
  · intro h hn
    have hnm : NoMismatch (opMulAssign a b) := by
      unfold opMulAssign
      repeat (first
        | exact pure_nm _
        | exact getAt_nm _ _
        | (apply AZ_Assert_nm; rw [beq_iff_eq]; assumption)
        | (apply updateLanes_nm; intro _ _)
        | apply NoMismatch.bind
        | intro _)
    exact hnm h
  · intro hn
    simp [opMulAssign, AZ_Assert, hn, bind, Except.bind]

theorem IsClose_mismatch_iff (a b : VectorN) (t : Scalar) :
    IsClose a b t = .error .dimensionalityMismatch ↔ a.m_numElements ≠ b.m_numElements := by
  constructor
  · intro h hn
    have hnm : NoMismatch (IsClose a b t) := by
      unfold IsClose
      repeat (first
        | exact pure_nm _
        | exact getAt_nm _ _
        | (apply AZ_Assert_nm; rw [beq_iff_eq]; assumption)
        | (apply allLoop_nm; intro _)
        | apply NoMismatch.bind
        | intro _)
    exact hnm h
  · intro hn
    simp [IsClose, AZ_Assert, hn, bind, Except.bind]

theorem GetMin_mismatch_iff (E : Externals) (a b : VectorN) :
    GetMin E a b = .error .dimensionalityMismatch ↔ a.m_numElements ≠ b.m_numElements := by
  constructor
  · intro h hn
    have hnm : NoMismatch (GetMin E a b) := by
      unfold GetMin
      repeat (first
        | exact pure_nm _
        | exact getAt_nm _ _
        | exact create_nm _ _
        | (apply AZ_Assert_nm; rw [beq_iff_eq]; assumption)
        | (apply assignLanes_nm; intro _)
        | apply NoMismatch.bind
        | intro _)
    exact hnm h
  · intro hn
    simp [GetMin, AZ_Assert, hn, bind, Except.bind]

theorem GetMax_mismatch_iff (E : Externals) (a b : VectorN) :
    GetMax E a b = .error .dimensionalityMismatch ↔ a.m_numElements ≠ b.m_numElements := by
  constructor
  · intro h hn
    have hnm : NoMismatch (GetMax E a b) := by
      unfold GetMax
      repeat (first
        | exact pure_nm _
        | exact getAt_nm _ _
        | exact create_nm _ _
        | (apply AZ_Assert_nm; rw [beq_iff_eq]; assumption)
        | (apply assignLanes_nm; intro _)
        | apply NoMismatch.bind
        | intro _)
    exact hnm h
  · intro hn
    simp [GetMax, AZ_Assert, hn, bind, Except.bind]

theorem opDivAssign_mismatch_iff (E : Externals) (a b : VectorN) :
    opDivAssign E a b = .error .dimensionalityMismatch ↔ a.m_numElements ≠ b.m_numElements := by
  constructor
  · intro h hn
    have hnm : NoMismatch (opDivAssign E a b) := by
      unfold opDivAssign
      repeat (first
        | exact pure_nm _
        | exact FixLast_nm _
        | exact getAt_nm _ _
        | (apply AZ_Assert_nm; rw [beq_iff_eq]; assumption)
        | (apply updateLanes_nm; intro _ _)
        | apply NoMismatch.bind
        | intro _)
    exact hnm h
  · intro hn
    simp [opDivAssign, AZ_Assert, hn, bind, Except.bind]

theorem opAdd_mismatch_iff (E : Externals) (a b : VectorN) :
    opAdd E a b = .error .dimensionalityMismatch ↔ a.m_numElements ≠ b.m_numElements := by
  constructor
  · intro h hn
    have hnm : NoMismatch (opAdd E a b) := by
      unfold opAdd
      repeat (first
        | exact pure_nm _
        | exact getAt_nm _ _
        | exact create_nm _ _
        | (apply AZ_Assert_nm; rw [beq_iff_eq]; assumption)
        | (apply assignLanes_nm; intro _)
        | apply NoMismatch.bind
        | intro _)
    exact hnm h
  · intro hn
    simp [opAdd, AZ_Assert, hn, bind, Except.bind]

theorem opSub_mismatch_iff (E : Externals) (a b : VectorN) :
    opSub E a b = .error .dimensionalityMismatch ↔ a.m_numElements ≠ b.m_numElements := by
  constructor
  · intro h hn
    have hnm : NoMismatch (opSub E a b) := by
      unfold opSub
      repeat (first
        | exact pure_nm _
        | exact getAt_nm _ _
        | exact create_nm _ _
        | (apply AZ_Assert_nm; rw [beq_iff_eq]; assumption)
        | (apply assignLanes_nm; intro _)
        | apply NoMismatch.bind
        | intro _)
    exact hnm h
  · intro hn
    simp [opSub, AZ_Assert, hn, bind, Except.bind]

theorem opMul_mismatch_iff (E : Externals) (a b : VectorN) :
    opMul E a b = .error .dimensionalityMismatch ↔ a.m_numElements ≠ b.m_numElements := by
  constructor
  · intro h hn
    have hnm : NoMismatch (opMul E a b) := by
      unfold opMul
      repeat (first
        | exact pure_nm _
        | exact getAt_nm _ _
        | exact create_nm _ _
        | (apply AZ_Assert_nm; rw [beq_iff_eq]; assumption)
        | (apply assignLanes_nm; intro _)
        | apply NoMismatch.bind
        | intro _)
    exact hnm h
  · intro hn
    simp [opMul, AZ_Assert, hn, bind, Except.bind]

theorem opDiv_mismatch_iff (E : Externals) (a b : VectorN) :
    opDiv E a b = .error .dimensionalityMismatch ↔ a.m_numElements ≠ b.m_numElements := by
  constructor
  · intro h hn
    have hnm : NoMismatch (opDiv E a b) := by
      delta opDiv
      repeat (first
        | exact pure_nm _
        | exact FixLast_nm _
        | exact create_nm _ _
        | exact getAt_nm _ _
        | (apply AZ_Assert_nm; rw [beq_iff_eq]; assumption)
        | (apply assignLanes_nm; intro _)
        | apply NoMismatch.bind
        | intro _)
    exact hnm h
  · intro hn
    simp [opDiv, AZ_Assert, hn, bind, Except.bind]

theorem GetClamp_mismatch_iff (E : Externals) (a lo hi : VectorN) :
    GetClamp E a lo hi = .error .dimensionalityMismatch ↔
      (a.m_numElements ≠ lo.m_numElements ∨ a.m_numElements ≠ hi.m_numElements) := by
  constructor
  · intro h
    by_contra hc
    have h1 : a.m_numElements = lo.m_numElements := by
      by_contra h1
      exact hc (Or.inl h1)
    have h2 : a.m_numElements = hi.m_numElements := by
      by_contra h2
      exact hc (Or.inr h2)
    have hnm : NoMismatch (GetClamp E a lo hi) := by
      unfold GetClamp
      repeat (first
        | exact pure_nm _
        | exact getAt_nm _ _
        | exact create_nm _ _
        | (apply AZ_Assert_nm; rw [beq_iff_eq]; assumption)
        | (apply assignLanes_nm; intro _)
        | apply NoMismatch.bind
        | intro _)
    exact hnm h
  · intro hn
    by_cases h1 : a.m_numElements = lo.m_numElements
    · have h2 : a.m_numElements ≠ hi.m_numElements := by
        rcases hn with hn | hn
        · exact absurd h1 hn
        · exact hn
      have h3 : lo.m_numElements ≠ hi.m_numElements := by
        rw [← h1]
        exact h2
      simp [GetClamp, AZ_Assert, h1, h3, bind, Except.bind]
    · simp [GetClamp, AZ_Assert, h1, bind, Except.bind]

/-- C5 (dimensionality precondition): each of `Dot`, `IsClose`, the four ordering
predicates, `GetMin`, `GetMax`, the vector operators `+ - * /` and `+= -= *= /=`
stops with the dimensionality-mismatch failure exactly when the two element
counts differ, whatever the lane storages hold (the assertion comes before any
lane is read); `GetClamp` does so exactly when the count of either bound
differs; with equal counts none of them reports a mismatch. -/
theorem C5_dimensionality_precondition (E : Externals) (a b : VectorN) (t : Scalar) :
    (Dot E a b = .error .dimensionalityMismatch ↔ a.m_numElements ≠ b.m_numElements) ∧
    (IsClose a b t = .error .dimensionalityMismatch ↔ a.m_numElements ≠ b.m_numElements) ∧
    (IsLessThan a b = .error .dimensionalityMismatch ↔ a.m_numElements ≠ b.m_numElements) ∧
    (IsLessEqualThan a b = .error .dimensionalityMismatch ↔ a.m_numElements ≠ b.m_numElements) ∧
    (IsGreaterThan a b = .error .dimensionalityMismatch ↔ a.m_numElements ≠ b.m_numElements) ∧
    (IsGreaterEqualThan a b = .error .dimensionalityMismatch ↔ a.m_numElements ≠ b.m_numElements) ∧
    (GetMin E a b = .error .dimensionalityMismatch ↔ a.m_numElements ≠ b.m_numElements) ∧
    (GetMax E a b = .error .dimensionalityMismatch ↔ a.m_numElements ≠ b.m_numElements) ∧
    (opAdd E a b = .error .dimensionalityMismatch ↔ a.m_numElements ≠ b.m_numElements) ∧
    (opSub E a b = .error .dimensionalityMismatch ↔ a.m_numElements ≠ b.m_numElements) ∧
    (opMul E a b = .error .dimensionalityMismatch ↔ a.m_numElements ≠ b.m_numElements) ∧
    (opDiv E a b = .error .dimensionalityMismatch ↔ a.m_numElements ≠ b.m_numElements) ∧
    (opAddAssign a b = .error .dimensionalityMismatch ↔ a.m_numElements ≠ b.m_numElements) ∧
    (opSubAssign a b = .error .dimensionalityMismatch ↔ a.m_numElements ≠ b.m_numElements) ∧
    (opMulAssign a b = .error .dimensionalityMismatch ↔ a.m_numElements ≠ b.m_numElements) ∧
    (opDivAssign E a b = .error .dimensionalityMismatch ↔ a.m_numElements ≠ b.m_numElements) ∧
    (∀ c : VectorN, GetClamp E a b c = .error .dimensionalityMismatch ↔
      (a.m_numElements ≠ b.m_numElements ∨ a.m_numElements ≠ c.m_numElements)) :=
  ⟨Dot_mismatch_iff E a b, IsClose_mismatch_iff a b t, IsLessThan_mismatch_iff a b, IsLessEqualThan_mismatch_iff a b, IsGreaterThan_mismatch_iff a b, IsGreaterEqualThan_mismatch_iff a b, GetMin_mismatch_iff E a b, GetMax_mismatch_iff E a b, opAdd_mismatch_iff E a b, opSub_mismatch_iff E a b, opMul_mismatch_iff E a b, opDiv_mismatch_iff E a b, opAddAssign_mismatch_iff a b, opSubAssign_mismatch_iff a b, opMulAssign_mismatch_iff a b, opDivAssign_mismatch_iff E a b,
    fun c => GetClamp_mismatch_iff E a b c⟩

/-- C6, the padding index: in a vector of length 5 (two lanes, zero padding) the
index 6 is at least the length, yet `GetElement(6)` returns the padding slot and
`SetElement(6, 9)` writes it; neither stops. -/
theorem C6_padding_index_accepted :
    Settled 5 { m_numElements := 5, m_values := [⟨1, 2, 3, 4⟩, ⟨5, 0, 0, 0⟩] } ∧ 5 ≤ 6 ∧
    GetElement { m_numElements := 5, m_values := [⟨1, 2, 3, 4⟩, ⟨5, 0, 0, 0⟩] } 6 = .ok 0 ∧
    SetElement { m_numElements := 5, m_values := [⟨1, 2, 3, 4⟩, ⟨5, 0, 0, 0⟩] } 6 9
      = .ok { m_numElements := 5, m_values := [⟨1, 2, 3, 4⟩, ⟨5, 0, 9, 0⟩] } :=
  ⟨by decide, by decide, by rfl, by rfl⟩

/-- C6 as the code has it: for a vector of length `n` with `ceil(n / 4)` lanes, an
index at or past the end of the lane storage (`i ≥ 4 * ceil(n / 4)`) makes the
checked lane access of `GetElement` and `SetElement` fail, while an index in the
padding of the last lane (`n ≤ i < 4 * ceil(n / 4)`) is accepted: `GetElement`
returns that padding slot and `SetElement` writes it. -/
theorem C6_out_of_range_index (v : VectorN) (i : Nat) (x : Scalar) (hl : LaneCount v) :
    (4 * ((v.m_numElements + 3) / 4) ≤ i →
      GetElement v i = .error .outOfRange ∧ SetElement v i x = .error .outOfRange) ∧
    (v.m_numElements ≤ i → i < 4 * ((v.m_numElements + 3) / 4) →
      GetElement v i = .ok (slot v i) ∧
      ∃ w, SetElement v i x = .ok w ∧ slot w i = x ∧ w.m_numElements = v.m_numElements) := by
  have hl1 : v.m_values.length = (v.m_numElements + 3) / 4 := hl
  constructor
  · intro h
    exact ⟨GetElement_error v i (by omega), SetElement_error v i x (by omega)⟩
  · intro _ h
    refine ⟨GetElement_eq_slot v i (by omega), ?_⟩
    obtain ⟨w, hw, hwn, _, hslot⟩ := SetElement_spec v i x (by omega)
    exact ⟨w, hw, by rw [hslot i, if_pos rfl], hwn⟩

/-- C6 as the code has it, at a vector of length 5: the index 8 is rejected and
the padding index 6 is read and written. -/
theorem C6_out_of_range_index_witness :
    LaneCount { m_numElements := 5, m_values := [⟨1, 2, 3, 4⟩, ⟨5, 0, 0, 0⟩] } ∧
    (GetElement { m_numElements := 5, m_values := [⟨1, 2, 3, 4⟩, ⟨5, 0, 0, 0⟩] } 8
        = .error .outOfRange ∧
      SetElement { m_numElements := 5, m_values := [⟨1, 2, 3, 4⟩, ⟨5, 0, 0, 0⟩] } 8 9
        = .error .outOfRange) ∧
    (GetElement { m_numElements := 5, m_values := [⟨1, 2, 3, 4⟩, ⟨5, 0, 0, 0⟩] } 6
        = .ok (slot { m_numElements := 5, m_values := [⟨1, 2, 3, 4⟩, ⟨5, 0, 0, 0⟩] } 6) ∧
      ∃ w, SetElement { m_numElements := 5, m_values := [⟨1, 2, 3, 4⟩, ⟨5, 0, 0, 0⟩] } 6 9
        = .ok w ∧ slot w 6 = 9 ∧ w.m_numElements = 5) :=
  ⟨by decide,
    (C6_out_of_range_index { m_numElements := 5, m_values := [⟨1, 2, 3, 4⟩, ⟨5, 0, 0, 0⟩] } 8 9
      (by decide)).1 (by decide),
    (C6_out_of_range_index { m_numElements := 5, m_values := [⟨1, 2, 3, 4⟩, ⟨5, 0, 0, 0⟩] } 6 9
      (by decide)).2 (by decide) (by decide)⟩

/-- C7, strict ordering against the padding: the length-1 vectors `[1]` and `[2]`
built by `CreateFromFloats` have `1 < 2` in their only element, yet
`IsLessThan` answers `false`, and so does `IsGreaterThan` the other way round:
the lane comparison also tests the padding slots, where `0 < 0` fails. -/
theorem C7_strict_ordering_padding :
    CreateFromFloats Externals.plain 1 (fun _ => 1)
      = .ok { m_numElements := 1, m_values := [⟨1, 0, 0, 0⟩] } ∧
    CreateFromFloats Externals.plain 1 (fun _ => 2)
      = .ok { m_numElements := 1, m_values := [⟨2, 0, 0, 0⟩] } ∧
    GetElement { m_numElements := 1, m_values := [⟨1, 0, 0, 0⟩] } 0 = .ok 1 ∧
    GetElement { m_numElements := 1, m_values := [⟨2, 0, 0, 0⟩] } 0 = .ok 2 ∧
    IsLessThan { m_numElements := 1, m_values := [⟨1, 0, 0, 0⟩] }
      { m_numElements := 1, m_values := [⟨2, 0, 0, 0⟩] } = .ok false ∧
    IsGreaterThan { m_numElements := 1, m_values := [⟨2, 0, 0, 0⟩] }
      { m_numElements := 1, m_values := [⟨1, 0, 0, 0⟩] } = .ok false :=
  ⟨by rfl, by rfl, by rfl, by rfl, by rfl, by rfl⟩

/-! ## Predicates -/

theorem Except_ok_bind {α β : Type} (a : α) (f : α → Except Failure β) :
    (Except.ok a >>= f) = f a := rfl

theorem forall_lt_four (P : Nat → Prop) : (∀ t, t < 4 → P t) ↔ P 0 ∧ P 1 ∧ P 2 ∧ P 3 := by
  constructor
  · intro h
    exact ⟨h 0 (by omega), h 1 (by omega), h 2 (by omega), h 3 (by omega)⟩
  · intro ⟨h0, h1, h2, h3⟩ t ht
    interval_cases t
    · exact h0
    · exact h1
    · exact h2
    · exact h3

theorem getAt_laneAt {l : List Vector4} {i : Nat} (h : i < l.length) :
    getAt l i = .ok (laneAt l i) := by
  simp [getAt, laneAt, List.getElem?_eq_getElem h]

theorem slot_eq_laneAt (v : VectorN) (j : Nat) :
    slot v j = (laneAt v.m_values (j / 4)).GetElement (j % 4) := by
  unfold slot laneAt
  cases h : v.m_values[j / 4]? with
  | some a => rfl
  | none =>
    have h4 : j % 4 < 4 := Nat.mod_lt _ (by omega)
    interval_cases (j % 4) <;> rfl

theorem CmpAllLt_iff (l r : Vector4) :
    CmpAllLt l r = true ↔ ∀ t, t < 4 → l.GetElement t < r.GetElement t := by
  rw [forall_lt_four]
  simp [CmpAllLt, Vector4.GetElement, and_assoc]

theorem CmpAllLtEq_iff (l r : Vector4) :
    CmpAllLtEq l r = true ↔ ∀ t, t < 4 → l.GetElement t ≤ r.GetElement t := by
  rw [forall_lt_four]
  simp [CmpAllLtEq, Vector4.GetElement, and_assoc]

theorem CmpAllGt_iff (l r : Vector4) :
    CmpAllGt l r = true ↔ ∀ t, t < 4 → l.GetElement t > r.GetElement t := by
  rw [forall_lt_four]
  simp [CmpAllGt, Vector4.GetElement, and_assoc]

theorem CmpAllGtEq_iff (l r : Vector4) :
    CmpAllGtEq l r = true ↔ ∀ t, t < 4 → l.GetElement t ≥ r.GetElement t := by
  rw [forall_lt_four]
  simp [CmpAllGtEq, Vector4.GetElement, and_assoc]

/-- The early-exit loop returns, and answers `true` exactly when every test of
its range does. -/
theorem allLoop_spec (test : Nat → Except Failure Bool) (T : Nat → Bool) :
    ∀ (fuel i : Nat), (∀ j, i ≤ j → j < i + fuel → test j = .ok (T j)) →
      ∃ r, allLoop test fuel i = .ok r ∧
        (r = true ↔ ∀ j, i ≤ j → j < i + fuel → T j = true) := by
  intro fuel
  induction fuel with
  | zero =>
    intro i _
    refine ⟨true, rfl, ?_⟩
    simp only [true_iff]
    intro j h1 h2
    omega
  | succ k ih =>
    intro i h
    have hi := h i (le_refl _) (by omega)
    cases hT : T i with
    | false =>
      refine ⟨false, ?_, ?_⟩
      · simp [allLoop, hi, hT]
      · constructor
        · intro hf
          cases hf
        · intro hall
          have := hall i (le_refl _) (by omega)
          rw [hT] at this
          cases this
    | true =>
      obtain ⟨r, hr, hiff⟩ := ih (i + 1) (fun j h1 h2 => h j (by omega) (by omega))
      refine ⟨r, ?_, ?_⟩
      · simp [allLoop, hi, hT, hr]
      · rw [hiff]
        constructor
        · intro hall j h1 h2
          by_cases e : j = i
          · rw [e]
            exact hT
          · exact hall j (by omega) (by omega)
        · intro hall j h1 h2
          exact hall j (by omega) (by omega)

/-- A lane-by-lane comparison loop over two storages of the same size answers
`true` exactly when the relation holds in every slot of every lane, padding
included. -/
theorem compare_spec (cmp : Vector4 → Vector4 → Bool) (R : Scalar → Scalar → Prop)
    (hcmp : ∀ l r, cmp l r = true ↔ ∀ t, t < 4 → R (l.GetElement t) (r.GetElement t))
    (a b : VectorN) (hlen : a.m_values.length = b.m_values.length) :
    ∃ r, allLoop (fun i => do
        let l ← getAt a.m_values i
        let r ← getAt b.m_values i
        pure (cmp l r)) a.m_values.length 0 = .ok r ∧
      (r = true ↔ ∀ j, j < 4 * a.m_values.length → R (slot a j) (slot b j)) := by
  obtain ⟨r, hr, hiff⟩ := allLoop_spec (fun i => do
        let l ← getAt a.m_values i
        let r ← getAt b.m_values i
        pure (cmp l r))
    (fun i => cmp (laneAt a.m_values i) (laneAt b.m_values i)) a.m_values.length 0
    (by
      intro j _ hj
      have h1 : j < a.m_values.length := by omega
      have h2 : j < b.m_values.length := by omega
      simp [getAt_laneAt h1, getAt_laneAt h2, bind, Except.bind, pure, Except.pure])
  refine ⟨r, hr, ?_⟩
  rw [hiff]
  constructor
  · intro h j hj
    have := (hcmp _ _).1 (h (j / 4) (by omega) (by omega)) (j % 4) (Nat.mod_lt _ (by omega))
    rw [slot_eq_laneAt a j, slot_eq_laneAt b j]
    exact this
  · intro h i _ hi
    rw [hcmp]
    intro t ht
    have := h (4 * i + t) (by omega)
    rw [slot_eq_laneAt a, slot_eq_laneAt b] at this
    have e1 : (4 * i + t) / 4 = i := by omega
    have e2 : (4 * i + t) % 4 = t := by omega
    rw [e1, e2] at this
    exact this

/-- Over two vectors in their resting state, a relation that holds at `(0, 0)`
holds in all slots as soon as it holds in the logical ones. -/
theorem slots_iff_logical (R : Scalar → Scalar → Prop) (n : Nat) (a b : VectorN)
    (ha : Settled n a) (hb : Settled n b) (h0 : 1 ≤ n → R (slot a 0) (slot b 0) → R 0 0) :
    (∀ j, j < 4 * a.m_values.length → R (slot a j) (slot b j)) ↔
      (∀ i, i < n → R (slot a i) (slot b i)) := by
  obtain ⟨han, hal, hap⟩ := ha
  obtain ⟨hbn, hbl, hbp⟩ := hb
  have hal1 : a.m_values.length = (a.m_numElements + 3) / 4 := hal
  have hbl1 : b.m_values.length = (b.m_numElements + 3) / 4 := hbl
  constructor
  · intro h i hi
    exact h i (by omega)
  · intro h j hj
    by_cases e : j < n
    · exact h j e
    · rw [hap j hj (by omega), hbp j (by omega) (by omega)]
      exact h0 (by omega) (h 0 (by omega))

theorem assert_pass {α : Type} (x y : Nat) (h : x = y) (k : Except Failure α) :
    (do
      AZ_Assert (x == y) .dimensionalityMismatch
      k) = k := by
  subst h
  simp [AZ_Assert, bind, Except.bind]

theorem Settled_same_length {n : Nat} {a b : VectorN} (ha : Settled n a) (hb : Settled n b) :
    a.m_numElements = b.m_numElements ∧ a.m_values.length = b.m_values.length := by
  obtain ⟨han, hal, _⟩ := ha
  obtain ⟨hbn, hbl, _⟩ := hb
  have hal1 : a.m_values.length = (a.m_numElements + 3) / 4 := hal
  have hbl1 : b.m_values.length = (b.m_numElements + 3) / 4 := hbl
  constructor
  · omega
  · rw [hal1, hbl1, han, hbn]

theorem Settled_GetElement {n : Nat} {a : VectorN} (ha : Settled n a) (i : Nat) (hi : i < n) :
    GetElement a i = .ok (slot a i) := by
  obtain ⟨han, hal, _⟩ := ha
  have hal1 : a.m_values.length = (a.m_numElements + 3) / 4 := hal
  exact GetElement_eq_slot a i (by omega)

/-- The strict orderings over vectors in their resting state: the answer is
`true` exactly when the length is a multiple of 4 and the relation holds in
every logical element. -/
theorem strict_ordering_spec (n : Nat) (a b : VectorN) (ha : Settled n a)
    (hb : Settled n b) :
    (∃ r, IsLessThan a b = .ok r ∧
      (r = true ↔ (n % 4 = 0 ∧ ∀ i, i < n → slot a i < slot b i))) ∧
    (∃ r, IsGreaterThan a b = .ok r ∧
      (r = true ↔ (n % 4 = 0 ∧ ∀ i, i < n → slot a i > slot b i))) := by
  obtain ⟨hd, hlen⟩ := Settled_same_length ha hb
  obtain ⟨han, hal, hap⟩ := ha
  obtain ⟨hbn, hbl, hbp⟩ := hb
  have hal1 : a.m_values.length = (a.m_numElements + 3) / 4 := hal
  constructor
  · obtain ⟨r, hr, hiff⟩ := compare_spec CmpAllLt (fun x y => x < y) CmpAllLt_iff a b hlen
    refine ⟨r, ?_, ?_⟩
    · unfold IsLessThan
      rw [assert_pass _ _ hd]
      exact hr
    · rw [hiff]
      constructor
      · intro h
        have h4 : n % 4 = 0 := by
          by_contra h4
          have := h n (by omega)
          rw [hap n (by omega) (by omega), hbp n (by omega) (by omega)] at this
          exact lt_irrefl _ this
        exact ⟨h4, fun i hi => h i (by omega)⟩
      · intro ⟨h4, h⟩ j hj
        exact h j (by omega)
  · obtain ⟨r, hr, hiff⟩ := compare_spec CmpAllGt (fun x y => x > y) CmpAllGt_iff a b hlen
    refine ⟨r, ?_, ?_⟩
    · unfold IsGreaterThan
      rw [assert_pass _ _ hd]
      exact hr
    · rw [hiff]
      constructor
      · intro h
        have h4 : n % 4 = 0 := by
          by_contra h4
          have := h n (by omega)
          rw [hap n (by omega) (by omega), hbp n (by omega) (by omega)] at this
          exact lt_irrefl _ this
        exact ⟨h4, fun i hi => h i (by omega)⟩
      · intro ⟨h4, h⟩ j hj
        exact h j (by omega)

/-- C8 (non-strict ordering): for all vectors `a`, `b` of length `n` in their
resting state (`ceil(n / 4)` lanes, padding `0.0`), `a.IsLessEqualThan(b)` returns,
and is `true` if and only if `a[i] ≤ b[i]` for every `i < n`; likewise
`a.IsGreaterEqualThan(b)` with `a[i] ≥ b[i]`. The logical elements are what
`GetElement` reads. -/
theorem C8_non_strict_ordering (n : Nat) (a b : VectorN) (ha : Settled n a) (hb : Settled n b) :
    (∀ i, i < n → GetElement a i = .ok (slot a i) ∧ GetElement b i = .ok (slot b i)) ∧
    (∃ r, IsLessEqualThan a b = .ok r ∧ (r = true ↔ ∀ i, i < n → slot a i ≤ slot b i)) ∧
    (∃ r, IsGreaterEqualThan a b = .ok r ∧ (r = true ↔ ∀ i, i < n → slot a i ≥ slot b i)) := by
  obtain ⟨hd, hlen⟩ := Settled_same_length ha hb
  refine ⟨fun i hi => ⟨Settled_GetElement ha i hi, Settled_GetElement hb i hi⟩, ?_, ?_⟩
  · obtain ⟨r, hr, hiff⟩ := compare_spec CmpAllLtEq (fun x y => x ≤ y) CmpAllLtEq_iff a b hlen
    refine ⟨r, ?_, ?_⟩
    · unfold IsLessEqualThan
      rw [assert_pass _ _ hd]
      exact hr
    · rw [hiff]
      exact slots_iff_logical (fun x y => x ≤ y) n a b ha hb (fun _ _ => le_refl _)
  · obtain ⟨r, hr, hiff⟩ := compare_spec CmpAllGtEq (fun x y => x ≥ y) CmpAllGtEq_iff a b hlen
    refine ⟨r, ?_, ?_⟩
    · unfold IsGreaterEqualThan
      rw [assert_pass _ _ hd]
      exact hr
    · rw [hiff]
      exact slots_iff_logical (fun x y => x ≥ y) n a b ha hb (fun _ _ => le_refl _)

/-- C8 at the vectors `[1, 2, 3, 4, 5]` and `[1, 3, 3, 5, 5]`. -/
theorem C8_non_strict_ordering_witness :
    Settled 5 { m_numElements := 5, m_values := [⟨1, 2, 3, 4⟩, ⟨5, 0, 0, 0⟩] } ∧
    Settled 5 { m_numElements := 5, m_values := [⟨1, 3, 3, 5⟩, ⟨5, 0, 0, 0⟩] } ∧
    IsLessEqualThan { m_numElements := 5, m_values := [⟨1, 2, 3, 4⟩, ⟨5, 0, 0, 0⟩] }
      { m_numElements := 5, m_values := [⟨1, 3, 3, 5⟩, ⟨5, 0, 0, 0⟩] } = .ok true ∧
    IsGreaterEqualThan { m_numElements := 5, m_values := [⟨1, 2, 3, 4⟩, ⟨5, 0, 0, 0⟩] }
      { m_numElements := 5, m_values := [⟨1, 3, 3, 5⟩, ⟨5, 0, 0, 0⟩] } = .ok false ∧
    ((∀ i, i < 5 →
        GetElement { m_numElements := 5, m_values := [⟨1, 2, 3, 4⟩, ⟨5, 0, 0, 0⟩] } i
          = .ok (slot { m_numElements := 5, m_values := [⟨1, 2, 3, 4⟩, ⟨5, 0, 0, 0⟩] } i) ∧
        GetElement { m_numElements := 5, m_values := [⟨1, 3, 3, 5⟩, ⟨5, 0, 0, 0⟩] } i
          = .ok (slot { m_numElements := 5, m_values := [⟨1, 3, 3, 5⟩, ⟨5, 0, 0, 0⟩] } i)) ∧
      (∃ r, IsLessEqualThan { m_numElements := 5, m_values := [⟨1, 2, 3, 4⟩, ⟨5, 0, 0, 0⟩] }
          { m_numElements := 5, m_values := [⟨1, 3, 3, 5⟩, ⟨5, 0, 0, 0⟩] } = .ok r ∧
        (r = true ↔ ∀ i, i < 5 →
          slot { m_numElements := 5, m_values := [⟨1, 2, 3, 4⟩, ⟨5, 0, 0, 0⟩] } i
            ≤ slot { m_numElements := 5, m_values := [⟨1, 3, 3, 5⟩, ⟨5, 0, 0, 0⟩] } i)) ∧
      (∃ r, IsGreaterEqualThan { m_numElements := 5, m_values := [⟨1, 2, 3, 4⟩, ⟨5, 0, 0, 0⟩] }
          { m_numElements := 5, m_values := [⟨1, 3, 3, 5⟩, ⟨5, 0, 0, 0⟩] } = .ok r ∧
        (r = true ↔ ∀ i, i < 5 →
          slot { m_numElements := 5, m_values := [⟨1, 2, 3, 4⟩, ⟨5, 0, 0, 0⟩] } i
            ≥ slot { m_numElements := 5, m_values := [⟨1, 3, 3, 5⟩, ⟨5, 0, 0, 0⟩] } i))) :=
  ⟨by decide, by decide, by rfl, by rfl,
    C8_non_strict_ordering 5 _ _ (by decide) (by decide)⟩

/-- The scan of `IsZero` answers `true` exactly when every slot of every lane,
padding included, is within the tolerance. -/
theorem IsZero_iff_slots (a : VectorN) (t : Scalar) :
    IsZero a t = true ↔ ∀ j, j < 4 * a.m_values.length → |slot a j| ≤ t := by
  unfold IsZero
  simp only [List.all_eq_true]
  constructor
  · intro h j hj
    have hj4 : j / 4 < a.m_values.length := by omega
    have h1 := h (a.m_values[j / 4]) (List.getElem_mem hj4)
    rw [CmpAllLtEq_iff] at h1
    have h2 := h1 (j % 4) (Nat.mod_lt _ (by omega))
    rw [Vector4.GetAbs, Vector4.map_get, Splat_get] at h2
    rw [slot_eq_getElem a j hj4]
    exact h2
  · intro h x hx
    obtain ⟨i, hi, rfl⟩ := List.mem_iff_getElem.1 hx
    rw [CmpAllLtEq_iff]
    intro u hu
    have h1 := h (4 * i + u) (by omega)
    have e1 : (4 * i + u) / 4 = i := by omega
    have e2 : (4 * i + u) % 4 = u := by omega
    rw [slot_eq_getElem a _ (by omega)] at h1
    simp only [e1, e2] at h1
    rw [Vector4.GetAbs, Vector4.map_get, Splat_get]
    exact h1

theorem CmpClose_iff (t : Scalar) (l r : Vector4) :
    CmpAllLtEq (Vector4.sub l r).GetAbs (Splat t) = true ↔
      ∀ u, u < 4 → |l.GetElement u - r.GetElement u| ≤ t := by
  rw [CmpAllLtEq_iff]
  constructor
  · intro h u hu
    have := h u hu
    rw [Vector4.GetAbs, Vector4.map_get, Vector4.sub, Vector4.map₂_get, Splat_get] at this
    exact this
  · intro h u hu
    rw [Vector4.GetAbs, Vector4.map_get, Vector4.sub, Vector4.map₂_get, Splat_get]
    exact h u hu

/-- C9 (closeness): for every length `n`, tolerance `t` and vectors `a`, `b` of
length `n` in their resting state, `a.IsClose(b, t)` returns, and is `true` if
and only if `|a[i] - b[i]| ≤ t` for every `i < n`; `a.IsZero(t)` is `true` if and
only if `|a[i]| ≤ t` for every `i < n`. The zero padding never changes the
answer. -/
theorem C9_closeness (n : Nat) (a b : VectorN) (t : Scalar) (ha : Settled n a)
    (hb : Settled n b) :
    (∀ i, i < n → GetElement a i = .ok (slot a i) ∧ GetElement b i = .ok (slot b i)) ∧
    (∃ r, IsClose a b t = .ok r ∧ (r = true ↔ ∀ i, i < n → |slot a i - slot b i| ≤ t)) ∧
    (IsZero a t = true ↔ ∀ i, i < n → |slot a i| ≤ t) := by
  obtain ⟨hd, hlen⟩ := Settled_same_length ha hb
  refine ⟨fun i hi => ⟨Settled_GetElement ha i hi, Settled_GetElement hb i hi⟩, ?_, ?_⟩
  · obtain ⟨r, hr, hiff⟩ := compare_spec
      (fun l r => CmpAllLtEq (Vector4.sub l r).GetAbs (Splat t)) (fun x y => |x - y| ≤ t)
      (CmpClose_iff t) a b hlen
    refine ⟨r, ?_, ?_⟩
    · unfold IsClose
      rw [assert_pass _ _ hd]
      exact hr
    · rw [hiff]
      apply slots_iff_logical (fun x y => |x - y| ≤ t) n a b ha hb
      intro _ h
      have h0 : (0 : Scalar) ≤ |slot a 0 - slot b 0| := abs_nonneg _
      simpa using le_trans h0 h
  · rw [IsZero_iff_slots]
    have h := slots_iff_logical (fun x _ => |x| ≤ t) n a a ha ha (by
      intro _ h
      have h0 : (0 : Scalar) ≤ |slot a 0| := abs_nonneg _
      simpa using le_trans h0 h)
    exact h

/-- C9, the scenario of the spec: `CreateZero(5).IsClose(CreateZero(5), 1e-6)` is
`true`, and so is `IsZero(1e-6)`. -/
theorem C9_closeness_witness :
    CreateZero Externals.plain 5
      = .ok { m_numElements := 5, m_values := [⟨0, 0, 0, 0⟩, ⟨0, 0, 0, 0⟩] } ∧
    Settled 5 { m_numElements := 5, m_values := [⟨0, 0, 0, 0⟩, ⟨0, 0, 0, 0⟩] } ∧
    IsClose { m_numElements := 5, m_values := [⟨0, 0, 0, 0⟩, ⟨0, 0, 0, 0⟩] }
      { m_numElements := 5, m_values := [⟨0, 0, 0, 0⟩, ⟨0, 0, 0, 0⟩] } (1 / 1000000) = .ok true ∧
    IsZero { m_numElements := 5, m_values := [⟨0, 0, 0, 0⟩, ⟨0, 0, 0, 0⟩] } (1 / 1000000) = true ∧
    ((∀ i, i < 5 →
        GetElement { m_numElements := 5, m_values := [⟨0, 0, 0, 0⟩, ⟨0, 0, 0, 0⟩] } i
          = .ok (slot { m_numElements := 5, m_values := [⟨0, 0, 0, 0⟩, ⟨0, 0, 0, 0⟩] } i) ∧
        GetElement { m_numElements := 5, m_values := [⟨0, 0, 0, 0⟩, ⟨0, 0, 0, 0⟩] } i
          = .ok (slot { m_numElements := 5, m_values := [⟨0, 0, 0, 0⟩, ⟨0, 0, 0, 0⟩] } i)) ∧
      (∃ r, IsClose { m_numElements := 5, m_values := [⟨0, 0, 0, 0⟩, ⟨0, 0, 0, 0⟩] }
          { m_numElements := 5, m_values := [⟨0, 0, 0, 0⟩, ⟨0, 0, 0, 0⟩] } (1 / 1000000) = .ok r ∧
        (r = true ↔ ∀ i, i < 5 →
          |slot { m_numElements := 5, m_values := [⟨0, 0, 0, 0⟩, ⟨0, 0, 0, 0⟩] } i
            - slot { m_numElements := 5, m_values := [⟨0, 0, 0, 0⟩, ⟨0, 0, 0, 0⟩] } i|
            ≤ 1 / 1000000)) ∧
      (IsZero { m_numElements := 5, m_values := [⟨0, 0, 0, 0⟩, ⟨0, 0, 0, 0⟩] } (1 / 1000000) = true ↔
        ∀ i, i < 5 →
          |slot { m_numElements := 5, m_values := [⟨0, 0, 0, 0⟩, ⟨0, 0, 0, 0⟩] } i| ≤ 1 / 1000000)) :=
  ⟨by rfl, by decide,
    by simp [IsClose, AZ_Assert, allLoop, getAt, bind, Except.bind, pure, Except.pure,
      CmpAllLtEq, Vector4.GetAbs, Vector4.sub, Vector4.map, Vector4.map₂, Splat],
    by simp [IsZero, CmpAllLtEq, Vector4.GetAbs, Vector4.map, Splat],
    C9_closeness 5 _ _ (1 / 1000000) (by decide) (by decide)⟩

theorem Settled_length {n : Nat} {v : VectorN} (h : Settled n v) :
    v.m_values.length = (n + 3) / 4 := by
  obtain ⟨hn, hl, _⟩ := h
  have hl1 : v.m_values.length = (v.m_numElements + 3) / 4 := hl
  rw [hl1, hn]

/-! ## Reductions -/

theorem lane_sum (a b : VectorN) (i : Nat) :
    ∑ j ∈ Finset.range (4 * (i + 1)), slot a j * slot b j
      = (∑ j ∈ Finset.range (4 * i), slot a j * slot b j)
        + (laneAt a.m_values i).Dot (laneAt b.m_values i) := by
  have e : 4 * (i + 1) = 4 * i + 1 + 1 + 1 + 1 := by omega
  rw [e, Finset.sum_range_succ, Finset.sum_range_succ, Finset.sum_range_succ,
    Finset.sum_range_succ]
  simp only [slot_eq_laneAt]
  have d0 : 4 * i / 4 = i := by omega
  have d1 : (4 * i + 1) / 4 = i := by omega
  have d2 : (4 * i + 1 + 1) / 4 = i := by omega
  have d3 : (4 * i + 1 + 1 + 1) / 4 = i := by omega
  have m0 : 4 * i % 4 = 0 := by omega
  have m1 : (4 * i + 1) % 4 = 1 := by omega
  have m2 : (4 * i + 1 + 1) % 4 = 2 := by omega
  have m3 : (4 * i + 1 + 1 + 1) % 4 = 3 := by omega
  rw [d0, d1, d2, d3, m0, m1, m2, m3]
  unfold Vector4.Dot Vector4.GetElement
  ring

theorem lanes_sum_eq_slots (a b : VectorN) (k : Nat) :
    ∑ i ∈ Finset.range k, (laneAt a.m_values i).Dot (laneAt b.m_values i)
      = ∑ j ∈ Finset.range (4 * k), slot a j * slot b j := by
  induction k with
  | zero => simp
  | succ k ih => rw [Finset.sum_range_succ, ih, lane_sum]

/-- The accumulation loop of `Dot` over two storages of the same size returns
the accumulator after one addition of floats per lane. -/
theorem Dot_lanes (E : Externals) (a b : VectorN) (hd : a.m_numElements = b.m_numElements)
    (hlen : a.m_values.length = b.m_values.length) :
    Dot E a b = .ok (floatSum E.addFloat
      (fun i => (laneAt a.m_values i).Dot (laneAt b.m_values i)) a.m_values.length) := by
  obtain ⟨r, hr, hP⟩ := forLoop_inv (fun i dot => do
      let l ← getAt a.m_values i
      let r ← getAt b.m_values i
      pure (E.addFloat dot (l.Dot r)))
    (fun i s => s = floatSum E.addFloat
      (fun i => (laneAt a.m_values i).Dot (laneAt b.m_values i)) i) a.m_values.length 0 0
    rfl
    (by
      intro j t _ hj ht
      have h1 : j < a.m_values.length := by omega
      have h2 : j < b.m_values.length := by omega
      refine ⟨E.addFloat t ((laneAt a.m_values j).Dot (laneAt b.m_values j)), ?_, ?_⟩
      · simp [getAt_laneAt h1, getAt_laneAt h2, bind, Except.bind, pure, Except.pure]
      · beta_reduce
        rw [ht]
        rfl)
  unfold Dot
  rw [assert_pass _ _ hd, hr, hP, Nat.zero_add]

theorem floatSum_succ (add : Scalar → Scalar → Scalar) (term : Nat → Scalar) (k : Nat) :
    floatSum add term (k + 1) = add (floatSum add term k) (term k) := rfl

/-- With an exact addition the accumulator is the sum of the terms. -/
theorem floatSum_exact (add : Scalar → Scalar → Scalar) (hadd : ∀ x y, add x y = x + y)
    (term : Nat → Scalar) (k : Nat) :
    floatSum add term k = ∑ i ∈ Finset.range k, term i := by
  induction k with
  | zero => rfl
  | succ k ih => rw [floatSum, ih, hadd, Finset.sum_range_succ]

theorem roundTiesToEven_intCast (z : Int) : roundTiesToEven (z : Scalar) = z := by
  unfold roundTiesToEven
  simp

/-- A value whose quotient by its unit in the last place is an integer is a
`float`: rounding leaves it as it is. -/
theorem float32Round_of_int (x : Scalar) (e z : Int) (hx : x ≠ 0)
    (he : max (Int.log 2 |x| - 23) (-149) = e) (hz : x / (2 : Scalar) ^ e = z) :
    float32Round x = x := by
  unfold float32Round
  rw [if_neg hx, he, hz, roundTiesToEven_intCast, ← hz]
  have h2 : (2 : Scalar) ^ e ≠ 0 := zpow_ne_zero _ (by norm_num)
  field_simp

/-- Every natural number up to `2 ^ 24` is a `float`. -/
theorem float32Round_natCast (m : Nat) (hm : m ≤ 2 ^ 24) : float32Round (m : Scalar) = m := by
  by_cases h0 : m = 0
  · subst h0
    simp [float32Round]
  have hx : (m : Scalar) ≠ 0 := by exact_mod_cast h0
  have habs : |(m : Scalar)| = m := abs_of_nonneg (by positivity)
  have hlog : Int.log 2 |(m : Scalar)| = Nat.log 2 m := by
    rw [habs]
    exact Int.log_natCast 2 m
  have hL : Nat.log 2 m ≤ 24 := by
    by_contra hc
    have h1 : 2 ^ 25 ≤ m := by
      have := Nat.pow_log_le_self 2 h0
      have h2 : 25 ≤ Nat.log 2 m := by omega
      exact le_trans (Nat.pow_le_pow_right (by norm_num) h2) this
    omega
  by_cases hL23 : Nat.log 2 m ≤ 23
  · apply float32Round_of_int (m : Scalar) (-((23 - Nat.log 2 m : Nat) : Int))
      ((m * 2 ^ (23 - Nat.log 2 m) : Nat) : Int) hx
    · rw [hlog]
      omega
    · rw [zpow_neg, zpow_natCast]
      push_cast
      field_simp
  · have hL24 : Nat.log 2 m = 24 := by omega
    have hm24 : m = 2 ^ 24 := by
      have := Nat.pow_log_le_self 2 h0
      rw [hL24] at this
      omega
    apply float32Round_of_int (m : Scalar) 1 ((2 ^ 23 : Nat) : Int) hx
    · rw [hlog, hL24]
      norm_num
    · rw [hm24]
      norm_num

/-- The value `2 ^ 24 + 1` lies half way between the floats `2 ^ 24` and
`2 ^ 24 + 2` and is rounded to the even one, `2 ^ 24`. -/
theorem float32Round_pow24_succ : float32Round (16777217 : Scalar) = 16777216 := by
  have hlog : Int.log 2 |(16777217 : Scalar)| = 24 := by
    have habs : |(16777217 : Scalar)| = ((16777217 : Nat) : Scalar) := by norm_num
    rw [habs, Int.log_natCast]
    have : Nat.log 2 16777217 = 24 :=
      Nat.log_eq_of_pow_le_of_lt_pow (by norm_num) (by norm_num)
    rw [this]
    rfl
  have hfloor : ⌊(16777217 : Scalar) / 2⌋ = 8388608 := by
    rw [Int.floor_eq_iff]
    constructor <;> norm_num
  unfold float32Round
  rw [if_neg (by norm_num), hlog]
  have he : max ((24 : Int) - 23) (-149) = 1 := by norm_num
  rw [he]
  have h2 : (2 : Scalar) ^ (1 : Int) = 2 := by norm_num
  rw [h2]
  unfold roundTiesToEven
  rw [hfloor]
  norm_num

/-- With the addition of floats the accumulator is still the sum of the terms as
long as every partial sum is a natural number up to `2 ^ 24`. -/
theorem floatSum_float32 (add : Scalar → Scalar → Scalar)
    (hadd : ∀ x y, add x y = float32Add x y) (term : Nat → Scalar) (k : Nat)
    (h : ∀ j, j < k → ∃ m : Nat, m ≤ 2 ^ 24 ∧ ∑ i ∈ Finset.range (j + 1), term i = m) :
    floatSum add term k = ∑ i ∈ Finset.range k, term i := by
  induction k with
  | zero => rfl
  | succ k ih =>
    obtain ⟨m, hm, hsum⟩ := h k (by omega)
    rw [floatSum, ih (fun j hj => h j (by omega)), hadd, float32Add, ← Finset.sum_range_succ,
      hsum, float32Round_natCast m hm]

/-- Over two vectors in their resting state the products of all slots sum to the
products of the logical ones. -/
theorem slots_sum_settled (n : Nat) (a b : VectorN) (ha : Settled n a) :
    ∑ j ∈ Finset.range (4 * a.m_values.length), slot a j * slot b j
      = ∑ i ∈ Finset.range n, slot a i * slot b i := by
  obtain ⟨han, hal, hap⟩ := ha
  have hal1 : a.m_values.length = (a.m_numElements + 3) / 4 := hal
  symm
  apply Finset.sum_subset
  · intro j hj
    rw [Finset.mem_range] at hj ⊢
    omega
  · intro j hj hnj
    rw [Finset.mem_range] at hj hnj
    rw [hap j hj (by omega), zero_mul]

/-- In a vector of ones in its resting state, the squares of the first `T` slots
sum to the number of logical slots among them. -/
theorem ones_prefix (n : Nat) (one : VectorN) (hs : Settled n one)
    (hx : ∀ j, j < n → slot one j = 1) (T : Nat) (hT : T ≤ 4 * one.m_values.length) :
    ∑ j ∈ Finset.range T, slot one j * slot one j = ((min T n : Nat) : Scalar) := by
  induction T with
  | zero => simp
  | succ T ih =>
    rw [Finset.sum_range_succ, ih (by omega)]
    by_cases hTn : T < n
    · rw [hx T hTn, Nat.min_eq_left (by omega), Nat.min_eq_left (by omega)]
      push_cast
      ring
    · rw [hs.2.2 T (by omega) (by rw [hs.1]; omega), Nat.min_eq_right (by omega),
        Nat.min_eq_right (by omega)]
      ring

/-- In a vector of ones in its resting state, the dot products of the first `k`
lanes with themselves sum to the number of logical slots in these lanes. -/
theorem ones_lanes_prefix (n : Nat) (one : VectorN) (hs : Settled n one)
    (hx : ∀ j, j < n → slot one j = 1) (k : Nat) (hk : k ≤ one.m_values.length) :
    ∑ i ∈ Finset.range k, (laneAt one.m_values i).Dot (laneAt one.m_values i)
      = ((min (4 * k) n : Nat) : Scalar) := by
  rw [lanes_sum_eq_slots, ones_prefix n one hs hx (4 * k) (by omega)]

/-- C10, the float accumulator: `CreateOne(16777217).Dot(CreateOne(16777217))`
returns `16777216`, not `16777217`. The accumulator reaches `2 ^ 24` after the
4194304 full lanes, and the last lane adds `1`: the sum `2 ^ 24 + 1` is not a
`float` and is rounded back to `2 ^ 24`. -/
theorem C10_float_accumulator_saturates :
    ∃ one, CreateOne Externals.plain 16777217 = .ok one ∧
      Dot Externals.plain one one = .ok 16777216 ∧
      (16777216 : Scalar) ≠ ((16777217 : Nat) : Scalar) := by
  obtain ⟨one, hone, hs, hx⟩ := createFill_spec Externals.plain 16777217 1 (by norm_num)
    (by norm_num [SIZE_MOD])
  obtain ⟨K, hK⟩ : ∃ K : Nat, K = 4194304 := ⟨_, rfl⟩
  have hlen : one.m_values.length = K + 1 := by
    have h := Settled_length hs
    omega
  have hfull : floatSum Externals.plain.addFloat
      (fun i => (laneAt one.m_values i).Dot (laneAt one.m_values i)) K
      = ∑ i ∈ Finset.range K, (laneAt one.m_values i).Dot (laneAt one.m_values i) := by
    apply floatSum_float32 _ (fun _ _ => rfl)
    intro j hj
    refine ⟨min (4 * (j + 1)) 16777217, ?_, ?_⟩
    · have : min (4 * (j + 1)) 16777217 ≤ 4 * (j + 1) := Nat.min_le_left _ _
      omega
    · exact ones_lanes_prefix 16777217 one hs hx (j + 1) (by omega)
  have hsum := ones_lanes_prefix 16777217 one hs hx (K + 1) (by omega)
  rw [Finset.sum_range_succ, Nat.min_eq_right (by omega)] at hsum
  have key : floatSum Externals.plain.addFloat
      (fun i => (laneAt one.m_values i).Dot (laneAt one.m_values i)) (K + 1)
      = 16777216 := by
    rw [floatSum_succ, hfull]
    show float32Round (_ + _) = 16777216
    rw [hsum]
    exact_mod_cast float32Round_pow24_succ
  refine ⟨one, hone, ?_, by norm_num⟩
  rw [Dot_lanes Externals.plain one one rfl rfl, hlen, key]

/-- C10 as the code has it (inner product): for all vectors `a`, `b` of length `n`
in their resting state, `a.Dot(b)` is, in exact arithmetic, the sum over `i < n`
of `a[i] * b[i]` (the padding slots contribute 0); and over the addition of
floats, `CreateOne(n).Dot(CreateOne(n)) == n` for every `n` from 1 to
`2 ^ 24 = 16777216`, the range in which every partial sum is a `float`. -/
theorem C10_dot_inner_product (E : Externals) (n : Nat) (a b : VectorN) (ha : Settled n a)
    (hb : Settled n b) :
    (∀ i, i < n → GetElement a i = .ok (slot a i) ∧ GetElement b i = .ok (slot b i)) ∧
    ((∀ x y, E.addFloat x y = x + y) →
      Dot E a b = .ok (∑ i ∈ Finset.range n, slot a i * slot b i)) ∧
    ((∀ x y, E.addFloat x y = float32Add x y) → 1 ≤ n → n ≤ 2 ^ 24 →
      ∃ one, CreateOne E n = .ok one ∧ Dot E one one = .ok (n : Scalar)) := by
  refine ⟨fun i hi => ⟨Settled_GetElement ha i hi, Settled_GetElement hb i hi⟩, ?_, ?_⟩
  · intro hadd
    obtain ⟨hd, hlen⟩ := Settled_same_length ha hb
    rw [Dot_lanes E a b hd hlen, floatSum_exact _ hadd, lanes_sum_eq_slots,
      slots_sum_settled n a b ha]
  · intro hadd hpos hn
    obtain ⟨one, hone, hs, hx⟩ := createFill_spec E n 1 hpos (by
      unfold SIZE_MOD
      omega)
    have hlen : one.m_values.length = (n + 3) / 4 := Settled_length hs
    refine ⟨one, hone, ?_⟩
    rw [Dot_lanes E one one rfl rfl]
    congr 1
    rw [floatSum_float32 _ hadd, ones_lanes_prefix n one hs hx _ (le_refl _),
      Nat.min_eq_right (by omega)]
    intro j hj
    refine ⟨min (4 * (j + 1)) n, ?_, ones_lanes_prefix n one hs hx (j + 1) (by omega)⟩
    have : min (4 * (j + 1)) n ≤ n := Nat.min_le_right _ _
    omega

/-- C10 as the code has it, the scenario of the spec:
`CreateOne(3).Dot(CreateOne(3)) == 3.0` over the addition of floats; and the
exact reading at the vectors `[1, -2, 3, -4, 5]` and `[2, 2, 2, 2, 2]`. -/
theorem C10_dot_inner_product_witness :
    CreateOne Externals.plain 3 = .ok { m_numElements := 3, m_values := [⟨1, 1, 1, 0⟩] } ∧
    Settled 3 { m_numElements := 3, m_values := [⟨1, 1, 1, 0⟩] } ∧
    (∀ x y, Externals.plain.addFloat x y = float32Add x y) ∧ 1 ≤ 3 ∧ 3 ≤ 2 ^ 24 ∧
    (∃ one, CreateOne Externals.plain 3 = .ok one ∧
      Dot Externals.plain one one = .ok ((3 : Nat) : Scalar)) ∧
    Settled 5 sampleA ∧ Settled 5 sampleB ∧
    (∀ x y, ({ Externals.plain with addFloat := fun x y => x + y } : Externals).addFloat x y
      = x + y) ∧
    Dot { Externals.plain with addFloat := fun x y => x + y } sampleA sampleB
      = .ok (∑ i ∈ Finset.range 5, slot sampleA i * slot sampleB i) :=
  ⟨by rfl, by decide, fun _ _ => rfl, by decide, by decide,
    (C10_dot_inner_product Externals.plain 3 { m_numElements := 3, m_values := [⟨1, 1, 1, 0⟩] }
      { m_numElements := 3, m_values := [⟨1, 1, 1, 0⟩] } (by decide) (by decide)).2.2
      (fun _ _ => rfl) (by decide) (by decide),
    by decide, by decide, fun _ _ => rfl,
    (C10_dot_inner_product { Externals.plain with addFloat := fun x y => x + y } 5 sampleA
      sampleB (by decide) (by decide)).2.1 (fun _ _ => rfl)⟩

/-! ## Lane-wise operations: the shared shapes -/

/-- Shape of the value-returning operations: a fresh `VectorN(n)` whose lanes are
all assigned. The result has length `n`, `ceil(n / 4)` lanes, and lane `j / 4`
of what was assigned in every slot `j`. -/
theorem valueOp_spec (E : Externals) (n : Nat) (a : VectorN)
    (value : Nat → Except Failure Vector4) (G : Nat → Vector4) (hpos : 1 ≤ n)
    (hsz : n + 3 < SIZE_MOD) (han : a.m_numElements = n) (hlen : LaneCount a)
    (hv : ∀ j, j < a.m_values.length → value j = .ok (G j)) :
    ∃ w, (do
        let returnValue ← create E a.m_numElements
        let values ← assignLanes value a.m_values.length returnValue.m_values
        pure { returnValue with m_values := values }) = .ok w ∧
      w.m_numElements = n ∧ LaneCount w ∧
      ∀ j, j < 4 * w.m_values.length → slot w j = (G (j / 4)).GetElement (j % 4) := by
  have hlen1 : a.m_values.length = (a.m_numElements + 3) / 4 := hlen
  obtain ⟨rv, hrv, hrn, hrl, _⟩ := create_spec E n hpos hsz
  have hrl1 : rv.m_values.length = (rv.m_numElements + 3) / 4 := hrl
  obtain ⟨vals, hvals, hvl, hvg⟩ := assignLanes_spec value G a.m_values.length rv.m_values
    (by omega) hv
  refine ⟨{ rv with m_values := vals }, ?_, hrn, ?_, ?_⟩
  · rw [han, hrv, Except_ok_bind, hvals, Except_ok_bind]
    rfl
  · unfold LaneCount
    simp only []
    omega
  · intro j hj
    simp only [] at hj
    apply slot_of_some
    exact hvg (j / 4) (by omega)

/-- Shape of the value-returning operations that end with the tail-mask fix-up:
the result is in its resting state and its logical slots hold what was
assigned. -/
theorem valueOpFix_spec (E : Externals) (n : Nat) (a : VectorN)
    (value : Nat → Except Failure Vector4) (G : Nat → Vector4) (hpos : 1 ≤ n)
    (hsz : n + 3 < SIZE_MOD) (han : a.m_numElements = n) (hlen : LaneCount a)
    (hv : ∀ j, j < a.m_values.length → value j = .ok (G j)) :
    ∃ w, (do
        let returnValue ← create E a.m_numElements
        let values ← assignLanes value a.m_values.length returnValue.m_values
        FixLastVectorElement { returnValue with m_values := values }) = .ok w ∧
      Settled n w ∧ ∀ j, j < n → slot w j = (G (j / 4)).GetElement (j % 4) := by
  have hlen1 : a.m_values.length = (a.m_numElements + 3) / 4 := hlen
  obtain ⟨rv, hrv, hrn, hrl, _⟩ := create_spec E n hpos hsz
  have hrl1 : rv.m_values.length = (rv.m_numElements + 3) / 4 := hrl
  obtain ⟨vals, hvals, hvl, hvg⟩ := assignLanes_spec value G a.m_values.length rv.m_values
    (by omega) hv
  obtain ⟨w, hw, hs, hslot⟩ := FixLast_settled { rv with m_values := vals } n hrn hpos
    (by
      unfold LaneCount
      simp only []
      omega) (by omega)
  refine ⟨w, ?_, hs, ?_⟩
  · rw [han, hrv, Except_ok_bind, hvals, Except_ok_bind]
    exact hw
  · intro j hj
    rw [hslot j hj]
    apply slot_of_some
    exact hvg (j / 4) (by omega)

/-- Shape of the compound assignments: every lane is replaced in place. -/
theorem updateOp_spec (a : VectorN) (update : Nat → Vector4 → Except Failure Vector4)
    (U : Nat → Vector4 → Vector4)
    (hu : ∀ j l, j < a.m_values.length → update j l = .ok (U j l)) :
    ∃ w, (do
        let values ← updateLanes update a.m_values.length a.m_values
        pure { a with m_values := values }) = .ok w ∧
      w.m_numElements = a.m_numElements ∧ w.m_values.length = a.m_values.length ∧
      ∀ j, j < 4 * a.m_values.length →
        slot w j = (U (j / 4) (laneAt a.m_values (j / 4))).GetElement (j % 4) := by
  obtain ⟨vals, hvals, hvl, hvg⟩ := updateLanes_spec update U a.m_values hu
  refine ⟨{ a with m_values := vals }, ?_, rfl, hvl, ?_⟩
  · rw [hvals, Except_ok_bind]
    rfl
  · intro j hj
    have hj4 : j / 4 < a.m_values.length := by omega
    apply slot_of_some
    apply hvg (j / 4)
    simp [laneAt, List.getElem?_eq_getElem hj4]

/-- Shape of the compound assignments that end with the tail-mask fix-up. -/
theorem updateOpFix_spec (n : Nat) (a : VectorN) (update : Nat → Vector4 → Except Failure Vector4)
    (U : Nat → Vector4 → Vector4) (hpos : 1 ≤ n) (hsz : n < SIZE_MOD)
    (han : a.m_numElements = n) (hlen : LaneCount a)
    (hu : ∀ j l, j < a.m_values.length → update j l = .ok (U j l)) :
    ∃ w, (do
        let values ← updateLanes update a.m_values.length a.m_values
        FixLastVectorElement { a with m_values := values }) = .ok w ∧
      Settled n w ∧
      ∀ j, j < n → slot w j = (U (j / 4) (laneAt a.m_values (j / 4))).GetElement (j % 4) := by
  have hlen1 : a.m_values.length = (a.m_numElements + 3) / 4 := hlen
  obtain ⟨vals, hvals, hvl, hvg⟩ := updateLanes_spec update U a.m_values hu
  obtain ⟨w, hw, hs, hslot⟩ := FixLast_settled { a with m_values := vals } n han hpos
    (by
      unfold LaneCount
      simp only []
      omega) hsz
  refine ⟨w, ?_, hs, ?_⟩
  · rw [hvals, Except_ok_bind]
    exact hw
  · intro j hj
    have hj4 : j / 4 < a.m_values.length := by omega
    rw [hslot j hj]
    apply slot_of_some
    apply hvg (j / 4)
    simp [laneAt, List.getElem?_eq_getElem hj4]

theorem read1 (a : VectorN) (op : Vector4 → Vector4) (j : Nat) (h : j < a.m_values.length) :
    (do
      let l ← getAt a.m_values j
      pure (op l)) = Except.ok (op (laneAt a.m_values j)) := by
  rw [getAt_laneAt h, Except_ok_bind]
  rfl

theorem read2 (a b : VectorN) (op : Vector4 → Vector4 → Vector4) (j : Nat)
    (h1 : j < a.m_values.length) (h2 : j < b.m_values.length) :
    (do
      let l ← getAt a.m_values j
      let r ← getAt b.m_values j
      pure (op l r)) = Except.ok (op (laneAt a.m_values j) (laneAt b.m_values j)) := by
  rw [getAt_laneAt h1, Except_ok_bind, getAt_laneAt h2, Except_ok_bind]
  rfl

theorem read3 (a b c : VectorN) (op : Vector4 → Vector4 → Vector4 → Vector4) (j : Nat)
    (h1 : j < a.m_values.length) (h2 : j < b.m_values.length) (h3 : j < c.m_values.length) :
    (do
      let l ← getAt a.m_values j
      let lo ← getAt b.m_values j
      let hi ← getAt c.m_values j
      pure (op l lo hi))
      = Except.ok (op (laneAt a.m_values j) (laneAt b.m_values j) (laneAt c.m_values j)) := by
  rw [getAt_laneAt h1, Except_ok_bind, getAt_laneAt h2, Except_ok_bind, getAt_laneAt h3,
    Except_ok_bind]
  rfl

theorem readRhs (b : VectorN) (op : Vector4 → Vector4 → Vector4) (l : Vector4) (j : Nat)
    (h : j < b.m_values.length) :
    (do
      let r ← getAt b.m_values j
      pure (op l r)) = Except.ok (op l (laneAt b.m_values j)) := by
  rw [getAt_laneAt h, Except_ok_bind]
  rfl

/-- A value-returning unary lane map without fix-up, for a function fixing 0. -/
theorem unaryValue_spec (E : Externals) (n : Nat) (a : VectorN) (op : Vector4 → Vector4)
    (f : Scalar → Scalar) (hop : ∀ l u, (op l).GetElement u = f (l.GetElement u))
    (h0 : f 0 = 0) (hpos : 1 ≤ n) (hsz : n + 3 < SIZE_MOD) (ha : Settled n a) :
    ∃ w, (do
        let returnValue ← create E a.m_numElements
        let values ← assignLanes (fun i => do
          let l ← getAt a.m_values i
          pure (op l)) a.m_values.length returnValue.m_values
        pure { returnValue with m_values := values }) = .ok w ∧
      Settled n w ∧ ∀ j, j < n → slot w j = f (slot a j) := by
  obtain ⟨han, hal, hap⟩ := ha
  have hal1 : a.m_values.length = (a.m_numElements + 3) / 4 := hal
  obtain ⟨w, hw, hwn, hwl, hslot⟩ := valueOp_spec E n a _
    (fun j => op (laneAt a.m_values j)) hpos hsz han hal (fun j hj => read1 a op j hj)
  have hwl1 : w.m_values.length = (w.m_numElements + 3) / 4 := hwl
  have key : ∀ j, j < 4 * w.m_values.length → slot w j = f (slot a j) := by
    intro j hj
    rw [hslot j hj, hop, ← slot_eq_laneAt]
  refine ⟨w, hw, ⟨hwn, hwl, ?_⟩, fun j hj => key j (by omega)⟩
  intro j hj hnj
  rw [key j hj, hap j (by omega) (by omega), h0]

/-- A value-returning unary lane map followed by the fix-up. -/
theorem unaryValueFix_spec (E : Externals) (n : Nat) (a : VectorN) (op : Vector4 → Vector4)
    (f : Scalar → Scalar) (hop : ∀ l u, (op l).GetElement u = f (l.GetElement u))
    (hpos : 1 ≤ n) (hsz : n + 3 < SIZE_MOD) (ha : Settled n a) :
    ∃ w, (do
        let returnValue ← create E a.m_numElements
        let values ← assignLanes (fun i => do
          let l ← getAt a.m_values i
          pure (op l)) a.m_values.length returnValue.m_values
        FixLastVectorElement { returnValue with m_values := values }) = .ok w ∧
      Settled n w ∧ ∀ j, j < n → slot w j = f (slot a j) := by
  obtain ⟨han, hal, hap⟩ := ha
  obtain ⟨w, hw, hs, hslot⟩ := valueOpFix_spec E n a _
    (fun j => op (laneAt a.m_values j)) hpos hsz han hal (fun j hj => read1 a op j hj)
  refine ⟨w, hw, hs, ?_⟩
  intro j hj
  rw [hslot j hj, hop, ← slot_eq_laneAt]

/-- A value-returning binary lane map without fix-up, for a function fixing 0. -/
theorem binaryValue_spec (E : Externals) (n : Nat) (a b : VectorN)
    (op : Vector4 → Vector4 → Vector4) (f : Scalar → Scalar → Scalar)
    (hop : ∀ l r u, (op l r).GetElement u = f (l.GetElement u) (r.GetElement u))
    (h0 : f 0 0 = 0) (hpos : 1 ≤ n) (hsz : n + 3 < SIZE_MOD) (ha : Settled n a)
    (hb : Settled n b) :
    ∃ w, (do
        let returnValue ← create E a.m_numElements
        let values ← assignLanes (fun i => do
          let l ← getAt a.m_values i
          let r ← getAt b.m_values i
          pure (op l r)) a.m_values.length returnValue.m_values
        pure { returnValue with m_values := values }) = .ok w ∧
      Settled n w ∧ ∀ j, j < n → slot w j = f (slot a j) (slot b j) := by
  obtain ⟨_, hlen⟩ := Settled_same_length ha hb
  obtain ⟨han, hal, hap⟩ := ha
  obtain ⟨hbn, hbl, hbp⟩ := hb
  have hal1 : a.m_values.length = (a.m_numElements + 3) / 4 := hal
  obtain ⟨w, hw, hwn, hwl, hslot⟩ := valueOp_spec E n a _
    (fun j => op (laneAt a.m_values j) (laneAt b.m_values j)) hpos hsz han hal
    (fun j hj => read2 a b op j hj (by omega))
  have hwl1 : w.m_values.length = (w.m_numElements + 3) / 4 := hwl
  have key : ∀ j, j < 4 * w.m_values.length → slot w j = f (slot a j) (slot b j) := by
    intro j hj
    rw [hslot j hj, hop, ← slot_eq_laneAt, ← slot_eq_laneAt]
  refine ⟨w, hw, ⟨hwn, hwl, ?_⟩, fun j hj => key j (by omega)⟩
  intro j hj hnj
  rw [key j hj, hap j (by omega) (by omega), hbp j (by omega) (by omega), h0]

/-- A value-returning binary lane map followed by the fix-up. -/
theorem binaryValueFix_spec (E : Externals) (n : Nat) (a b : VectorN)
    (op : Vector4 → Vector4 → Vector4) (f : Scalar → Scalar → Scalar)
    (hop : ∀ l r u, (op l r).GetElement u = f (l.GetElement u) (r.GetElement u))
    (hpos : 1 ≤ n) (hsz : n + 3 < SIZE_MOD) (ha : Settled n a) (hb : Settled n b) :
    ∃ w, (do
        let returnValue ← create E a.m_numElements
        let values ← assignLanes (fun i => do
          let l ← getAt a.m_values i
          let r ← getAt b.m_values i
          pure (op l r)) a.m_values.length returnValue.m_values
        FixLastVectorElement { returnValue with m_values := values }) = .ok w ∧
      Settled n w ∧ ∀ j, j < n → slot w j = f (slot a j) (slot b j) := by
  obtain ⟨_, hlen⟩ := Settled_same_length ha hb
  obtain ⟨han, hal, hap⟩ := ha
  obtain ⟨w, hw, hs, hslot⟩ := valueOpFix_spec E n a _
    (fun j => op (laneAt a.m_values j) (laneAt b.m_values j)) hpos hsz han hal
    (fun j hj => read2 a b op j hj (by omega))
  refine ⟨w, hw, hs, ?_⟩
  intro j hj
  rw [hslot j hj, hop, ← slot_eq_laneAt, ← slot_eq_laneAt]

/-- A binary compound assignment without fix-up, for a function fixing 0. -/
theorem binaryUpdate_spec (n : Nat) (a b : VectorN)
    (op : Vector4 → Vector4 → Vector4) (f : Scalar → Scalar → Scalar)
    (hop : ∀ l r u, (op l r).GetElement u = f (l.GetElement u) (r.GetElement u))
    (h0 : f 0 0 = 0) (ha : Settled n a) (hb : Settled n b) :
    ∃ w, (do
        let values ← updateLanes (fun i l => do
          let r ← getAt b.m_values i
          pure (op l r)) a.m_values.length a.m_values
        pure { a with m_values := values }) = .ok w ∧
      Settled n w ∧ ∀ j, j < n → slot w j = f (slot a j) (slot b j) := by
  obtain ⟨_, hlen⟩ := Settled_same_length ha hb
  obtain ⟨han, hal, hap⟩ := ha
  obtain ⟨hbn, hbl, hbp⟩ := hb
  have hal1 : a.m_values.length = (a.m_numElements + 3) / 4 := hal
  obtain ⟨w, hw, hwn, hwl, hslot⟩ := updateOp_spec a _
    (fun j l => op l (laneAt b.m_values j)) (fun j l hj => readRhs b op l j (by omega))
  have key : ∀ j, j < 4 * a.m_values.length → slot w j = f (slot a j) (slot b j) := by
    intro j hj
    rw [hslot j hj, hop, ← slot_eq_laneAt, ← slot_eq_laneAt]
  refine ⟨w, hw, ⟨by omega, ?_, ?_⟩, fun j hj => key j (by omega)⟩
  · unfold LaneCount
    omega
  · intro j hj hnj
    rw [key j (by omega), hap j (by omega) (by omega), hbp j (by omega) (by omega), h0]

/-- A binary compound assignment followed by the fix-up. -/
theorem binaryUpdateFix_spec (n : Nat) (a b : VectorN)
    (op : Vector4 → Vector4 → Vector4) (f : Scalar → Scalar → Scalar)
    (hop : ∀ l r u, (op l r).GetElement u = f (l.GetElement u) (r.GetElement u))
    (hpos : 1 ≤ n) (hsz : n < SIZE_MOD) (ha : Settled n a) (hb : Settled n b) :
    ∃ w, (do
        let values ← updateLanes (fun i l => do
          let r ← getAt b.m_values i
          pure (op l r)) a.m_values.length a.m_values
        FixLastVectorElement { a with m_values := values }) = .ok w ∧
      Settled n w ∧ ∀ j, j < n → slot w j = f (slot a j) (slot b j) := by
  obtain ⟨_, hlen⟩ := Settled_same_length ha hb
  obtain ⟨han, hal, hap⟩ := ha
  obtain ⟨w, hw, hs, hslot⟩ := updateOpFix_spec n a _
    (fun j l => op l (laneAt b.m_values j)) hpos hsz han hal
    (fun j l hj => readRhs b op l j (by omega))
  refine ⟨w, hw, hs, ?_⟩
  intro j hj
  rw [hslot j hj, hop, ← slot_eq_laneAt, ← slot_eq_laneAt]

/-- A scalar compound assignment without fix-up, for a function fixing 0. -/
theorem scalarUpdate_spec (n : Nat) (a : VectorN) (op : Vector4 → Vector4)
    (f : Scalar → Scalar) (hop : ∀ l u, (op l).GetElement u = f (l.GetElement u))
    (h0 : f 0 = 0) (ha : Settled n a) :
    ∃ w, (do
        let values ← updateLanes (fun _ l => pure (op l)) a.m_values.length a.m_values
        pure { a with m_values := values }) = .ok w ∧
      Settled n w ∧ ∀ j, j < n → slot w j = f (slot a j) := by
  obtain ⟨han, hal, hap⟩ := ha
  have hal1 : a.m_values.length = (a.m_numElements + 3) / 4 := hal
  obtain ⟨w, hw, hwn, hwl, hslot⟩ := updateOp_spec a _
    (fun _ l => op l) (fun _ _ _ => rfl)
  have key : ∀ j, j < 4 * a.m_values.length → slot w j = f (slot a j) := by
    intro j hj
    rw [hslot j hj, hop, ← slot_eq_laneAt]
  refine ⟨w, hw, ⟨by omega, ?_, ?_⟩, fun j hj => key j (by omega)⟩
  · unfold LaneCount
    omega
  · intro j hj hnj
    rw [key j (by omega), hap j (by omega) (by omega), h0]

/-- A scalar compound assignment followed by the fix-up. -/
theorem scalarUpdateFix_spec (n : Nat) (a : VectorN) (op : Vector4 → Vector4)
    (f : Scalar → Scalar) (hop : ∀ l u, (op l).GetElement u = f (l.GetElement u))
    (hpos : 1 ≤ n) (hsz : n < SIZE_MOD) (ha : Settled n a) :
    ∃ w, (do
        let values ← updateLanes (fun _ l => pure (op l)) a.m_values.length a.m_values
        FixLastVectorElement { a with m_values := values }) = .ok w ∧
      Settled n w ∧ ∀ j, j < n → slot w j = f (slot a j) := by
  obtain ⟨han, hal, hap⟩ := ha
  obtain ⟨w, hw, hs, hslot⟩ := updateOpFix_spec n a _
    (fun _ l => op l) hpos hsz han hal (fun _ _ _ => rfl)
  refine ⟨w, hw, hs, ?_⟩
  intro j hj
  rw [hslot j hj, hop, ← slot_eq_laneAt]

/-! ## Lane-wise operations: one statement per operation -/

theorem lane_add_get (l r : Vector4) (u : Nat) :
    (l.add r).GetElement u = l.GetElement u + r.GetElement u := Vector4.map₂_get _ l r u

theorem lane_sub_get (l r : Vector4) (u : Nat) :
    (l.sub r).GetElement u = l.GetElement u - r.GetElement u := Vector4.map₂_get _ l r u

theorem lane_mul_get (l r : Vector4) (u : Nat) :
    (l.mul r).GetElement u = l.GetElement u * r.GetElement u := Vector4.map₂_get _ l r u

theorem lane_div_get (E : Externals) (l r : Vector4) (u : Nat) :
    (l.div E r).GetElement u = scalarDiv E (l.GetElement u) (r.GetElement u) :=
  Vector4.map₂_get _ l r u

theorem lane_min_get (l r : Vector4) (u : Nat) :
    (l.GetMin r).GetElement u = min (l.GetElement u) (r.GetElement u) := Vector4.map₂_get _ l r u

theorem lane_max_get (l r : Vector4) (u : Nat) :
    (l.GetMax r).GetElement u = max (l.GetElement u) (r.GetElement u) := Vector4.map₂_get _ l r u

theorem lane_clamp_get (l lo hi : Vector4) (u : Nat) :
    (l.GetClamp lo hi).GetElement u
      = max (min (l.GetElement u) (hi.GetElement u)) (lo.GetElement u) := by
  rw [Vector4.GetClamp, lane_max_get, lane_min_get]

theorem lane_neg_get (l : Vector4) (u : Nat) :
    (l.neg).GetElement u = -(l.GetElement u) := Vector4.map_get _ l u

theorem lane_floor_get (l : Vector4) (u : Nat) :
    (l.GetFloor).GetElement u = ((⌊l.GetElement u⌋ : Int) : Scalar) := Vector4.map_get _ l u

theorem lane_ceil_get (l : Vector4) (u : Nat) :
    (l.GetCeil).GetElement u = ((⌈l.GetElement u⌉ : Int) : Scalar) := Vector4.map_get _ l u

theorem lane_round_get (l : Vector4) (u : Nat) :
    (l.GetRound).GetElement u = ((round (l.GetElement u) : Int) : Scalar) := Vector4.map_get _ l u

theorem lane_abs_get (l : Vector4) (u : Nat) :
    (l.GetAbs).GetElement u = |l.GetElement u| := Vector4.map_get _ l u

theorem lane_add_splat_get (s : Scalar) (l : Vector4) (u : Nat) :
    (l.add (Splat s)).GetElement u = l.GetElement u + s := by
  rw [lane_add_get, Splat_get]

theorem lane_sub_splat_get (s : Scalar) (l : Vector4) (u : Nat) :
    (l.sub (Splat s)).GetElement u = l.GetElement u - s := by
  rw [lane_sub_get, Splat_get]

theorem lane_mul_splat_get (s : Scalar) (l : Vector4) (u : Nat) :
    (l.mul (Splat s)).GetElement u = l.GetElement u * s := by
  rw [lane_mul_get, Splat_get]

theorem lane_div_splat_get (E : Externals) (s : Scalar) (l : Vector4) (u : Nat) :
    (l.div E (Splat s)).GetElement u = scalarDiv E (l.GetElement u) s := by
  rw [lane_div_get, Splat_get]

theorem lane_relu_get (e : Vector4) (u : Nat) :
    (Select e ZeroFloat (CmpGtEq e ZeroFloat)).GetElement u
      = if e.GetElement u ≥ 0 then e.GetElement u else 0 := by
  rcases u with _ | _ | _ | u <;> simp [Select, CmpGtEq, ZeroFloat, Vector4.GetElement]

theorem GetFloor_spec (E : Externals) (n : Nat) (a : VectorN) (hpos : 1 ≤ n)
    (hsz : n + 3 < SIZE_MOD) (ha : Settled n a) :
    ∃ w, GetFloor E a = .ok w ∧ Settled n w ∧
      ∀ j, j < n → slot w j = ((⌊slot a j⌋ : Int) : Scalar) := by
  unfold GetFloor
  exact unaryValue_spec E n a (Vector4.GetFloor) (fun s => ((⌊s⌋ : Int) : Scalar)) (lane_floor_get) (by simp) hpos hsz ha

theorem GetCeil_spec (E : Externals) (n : Nat) (a : VectorN) (hpos : 1 ≤ n)
    (hsz : n + 3 < SIZE_MOD) (ha : Settled n a) :
    ∃ w, GetCeil E a = .ok w ∧ Settled n w ∧
      ∀ j, j < n → slot w j = ((⌈slot a j⌉ : Int) : Scalar) := by
  unfold GetCeil
  exact unaryValue_spec E n a (Vector4.GetCeil) (fun s => ((⌈s⌉ : Int) : Scalar)) (lane_ceil_get) (by simp) hpos hsz ha

theorem GetRound_spec (E : Externals) (n : Nat) (a : VectorN) (hpos : 1 ≤ n)
    (hsz : n + 3 < SIZE_MOD) (ha : Settled n a) :
    ∃ w, GetRound E a = .ok w ∧ Settled n w ∧
      ∀ j, j < n → slot w j = ((round (slot a j) : Int) : Scalar) := by
  unfold GetRound
  exact unaryValue_spec E n a (Vector4.GetRound) (fun s => ((round s : Int) : Scalar)) (lane_round_get) (by simp) hpos hsz ha

theorem GetAbs_spec (E : Externals) (n : Nat) (a : VectorN) (hpos : 1 ≤ n)
    (hsz : n + 3 < SIZE_MOD) (ha : Settled n a) :
    ∃ w, GetAbs E a = .ok w ∧ Settled n w ∧
      ∀ j, j < n → slot w j = |slot a j| := by
  unfold GetAbs
  exact unaryValue_spec E n a (Vector4.GetAbs) (fun s => |s|) (lane_abs_get) (by simp) hpos hsz ha

theorem opNeg_spec (E : Externals) (n : Nat) (a : VectorN) (hpos : 1 ≤ n)
    (hsz : n + 3 < SIZE_MOD) (ha : Settled n a) :
    ∃ w, opNeg E a = .ok w ∧ Settled n w ∧
      ∀ j, j < n → slot w j = -(slot a j) := by
  unfold opNeg
  exact unaryValue_spec E n a (Vector4.neg) (fun s => -s) (lane_neg_get) (by simp) hpos hsz ha

theorem opMulScalar_spec (E : Externals) (n : Nat) (a : VectorN) (s : Scalar) (hpos : 1 ≤ n)
    (hsz : n + 3 < SIZE_MOD) (ha : Settled n a) :
    ∃ w, opMulScalar E a s = .ok w ∧ Settled n w ∧
      ∀ j, j < n → slot w j = slot a j * s := by
  unfold opMulScalar
  exact unaryValue_spec E n a (fun l => l.mul (Splat s)) (fun x => x * s) (lane_mul_splat_get s) (by simp) hpos hsz ha

theorem opDivScalar_spec (E : Externals) (n : Nat) (a : VectorN) (s : Scalar) (hpos : 1 ≤ n)
    (hsz : n + 3 < SIZE_MOD) (ha : Settled n a) :
    ∃ w, opDivScalar E a s = .ok w ∧ Settled n w ∧
      ∀ j, j < n → slot w j = scalarDiv E (slot a j) s := by
  unfold opDivScalar
  exact unaryValueFix_spec E n a (fun l => l.div E (Splat s)) (fun x => scalarDiv E x s) (lane_div_splat_get E s) hpos hsz ha

theorem GetSquare_spec (E : Externals) (n : Nat) (a : VectorN) (hpos : 1 ≤ n)
    (hsz : n + 3 < SIZE_MOD) (ha : Settled n a) :
    ∃ w, GetSquare E a = .ok w ∧ Settled n w ∧
      ∀ j, j < n → slot w j = slot a j * slot a j := by
  unfold GetSquare
  exact binaryValue_spec E n a a (Vector4.mul) (fun s t => s * t) (lane_mul_get) (by simp)
    hpos hsz ha ha

theorem GetMin_spec (E : Externals) (n : Nat) (a b : VectorN) (hpos : 1 ≤ n)
    (hsz : n + 3 < SIZE_MOD) (ha : Settled n a) (hb : Settled n b) :
    ∃ w, GetMin E a b = .ok w ∧ Settled n w ∧
      ∀ j, j < n → slot w j = min (slot a j) (slot b j) := by
  unfold GetMin
  rw [assert_pass _ _ (Settled_same_length ha hb).1]
  exact binaryValue_spec E n a b (Vector4.GetMin) (fun s t => min s t) (lane_min_get) (by simp) hpos hsz ha hb

theorem GetMax_spec (E : Externals) (n : Nat) (a b : VectorN) (hpos : 1 ≤ n)
    (hsz : n + 3 < SIZE_MOD) (ha : Settled n a) (hb : Settled n b) :
    ∃ w, GetMax E a b = .ok w ∧ Settled n w ∧
      ∀ j, j < n → slot w j = max (slot a j) (slot b j) := by
  unfold GetMax
  rw [assert_pass _ _ (Settled_same_length ha hb).1]
  exact binaryValue_spec E n a b (Vector4.GetMax) (fun s t => max s t) (lane_max_get) (by simp) hpos hsz ha hb

theorem opAdd_spec (E : Externals) (n : Nat) (a b : VectorN) (hpos : 1 ≤ n)
    (hsz : n + 3 < SIZE_MOD) (ha : Settled n a) (hb : Settled n b) :
    ∃ w, opAdd E a b = .ok w ∧ Settled n w ∧
      ∀ j, j < n → slot w j = slot a j + slot b j := by
  unfold opAdd
  rw [assert_pass _ _ (Settled_same_length ha hb).1]
  exact binaryValue_spec E n a b (Vector4.add) (fun s t => s + t) (lane_add_get) (by simp) hpos hsz ha hb

theorem opSub_spec (E : Externals) (n : Nat) (a b : VectorN) (hpos : 1 ≤ n)
    (hsz : n + 3 < SIZE_MOD) (ha : Settled n a) (hb : Settled n b) :
    ∃ w, opSub E a b = .ok w ∧ Settled n w ∧
      ∀ j, j < n → slot w j = slot a j - slot b j := by
  unfold opSub
  rw [assert_pass _ _ (Settled_same_length ha hb).1]
  exact binaryValue_spec E n a b (Vector4.sub) (fun s t => s - t) (lane_sub_get) (by simp) hpos hsz ha hb

theorem opMul_spec (E : Externals) (n : Nat) (a b : VectorN) (hpos : 1 ≤ n)
    (hsz : n + 3 < SIZE_MOD) (ha : Settled n a) (hb : Settled n b) :
    ∃ w, opMul E a b = .ok w ∧ Settled n w ∧
      ∀ j, j < n → slot w j = slot a j * slot b j := by
  unfold opMul
  rw [assert_pass _ _ (Settled_same_length ha hb).1]
  exact binaryValue_spec E n a b (Vector4.mul) (fun s t => s * t) (lane_mul_get) (by simp) hpos hsz ha hb

theorem opDiv_spec (E : Externals) (n : Nat) (a b : VectorN) (hpos : 1 ≤ n)
    (hsz : n + 3 < SIZE_MOD) (ha : Settled n a) (hb : Settled n b) :
    ∃ w, opDiv E a b = .ok w ∧ Settled n w ∧
      ∀ j, j < n → slot w j = scalarDiv E (slot a j) (slot b j) := by
  unfold opDiv
  rw [assert_pass _ _ (Settled_same_length ha hb).1]
  exact binaryValueFix_spec E n a b (Vector4.div E) (scalarDiv E) (lane_div_get E) hpos hsz ha hb

theorem opAddAssign_spec (n : Nat) (a b : VectorN) (ha : Settled n a) (hb : Settled n b) :
    ∃ w, opAddAssign a b = .ok w ∧ Settled n w ∧
      ∀ j, j < n → slot w j = slot a j + slot b j := by
  unfold opAddAssign
  rw [assert_pass _ _ (Settled_same_length ha hb).1]
  exact binaryUpdate_spec n a b (Vector4.add) (fun s t => s + t) (lane_add_get) (by simp) ha hb

theorem opSubAssign_spec (n : Nat) (a b : VectorN) (ha : Settled n a) (hb : Settled n b) :
    ∃ w, opSubAssign a b = .ok w ∧ Settled n w ∧
      ∀ j, j < n → slot w j = slot a j - slot b j := by
  unfold opSubAssign
  rw [assert_pass _ _ (Settled_same_length ha hb).1]
  exact binaryUpdate_spec n a b (Vector4.sub) (fun s t => s - t) (lane_sub_get) (by simp) ha hb

theorem opMulAssign_spec (n : Nat) (a b : VectorN) (ha : Settled n a) (hb : Settled n b) :
    ∃ w, opMulAssign a b = .ok w ∧ Settled n w ∧
      ∀ j, j < n → slot w j = slot a j * slot b j := by
  unfold opMulAssign
  rw [assert_pass _ _ (Settled_same_length ha hb).1]
  exact binaryUpdate_spec n a b (Vector4.mul) (fun s t => s * t) (lane_mul_get) (by simp) ha hb

theorem opDivAssign_spec (E : Externals) (n : Nat) (a b : VectorN) (hpos : 1 ≤ n)
    (hsz : n < SIZE_MOD) (ha : Settled n a) (hb : Settled n b) :
    ∃ w, opDivAssign E a b = .ok w ∧ Settled n w ∧
      ∀ j, j < n → slot w j = scalarDiv E (slot a j) (slot b j) := by
  unfold opDivAssign
  rw [assert_pass _ _ (Settled_same_length ha hb).1]
  exact binaryUpdateFix_spec n a b (Vector4.div E) (scalarDiv E) (lane_div_get E) hpos hsz ha hb

theorem opAddAssignScalar_spec (n : Nat) (a : VectorN) (s : Scalar) (hpos : 1 ≤ n)
    (hsz : n < SIZE_MOD) (ha : Settled n a) :
    ∃ w, opAddAssignScalar a s = .ok w ∧ Settled n w ∧
      ∀ j, j < n → slot w j = slot a j + s := by
  unfold opAddAssignScalar
  exact scalarUpdateFix_spec n a (fun l => l.add (Splat s)) (fun x => x + s) (lane_add_splat_get s) hpos hsz ha

theorem opSubAssignScalar_spec (n : Nat) (a : VectorN) (s : Scalar) (hpos : 1 ≤ n)
    (hsz : n < SIZE_MOD) (ha : Settled n a) :
    ∃ w, opSubAssignScalar a s = .ok w ∧ Settled n w ∧
      ∀ j, j < n → slot w j = slot a j - s := by
  unfold opSubAssignScalar
  exact scalarUpdateFix_spec n a (fun l => l.sub (Splat s)) (fun x => x - s) (lane_sub_splat_get s) hpos hsz ha

theorem opDivAssignScalar_spec (E : Externals) (n : Nat) (a : VectorN) (s : Scalar) (hpos : 1 ≤ n)
    (hsz : n < SIZE_MOD) (ha : Settled n a) :
    ∃ w, opDivAssignScalar E a s = .ok w ∧ Settled n w ∧
      ∀ j, j < n → slot w j = scalarDiv E (slot a j) s := by
  unfold opDivAssignScalar
  exact scalarUpdateFix_spec n a (fun l => l.div E (Splat s)) (fun x => scalarDiv E x s) (lane_div_splat_get E s) hpos hsz ha

theorem opMulAssignScalar_spec (n : Nat) (a : VectorN) (s : Scalar) (ha : Settled n a) :
    ∃ w, opMulAssignScalar a s = .ok w ∧ Settled n w ∧
      ∀ j, j < n → slot w j = slot a j * s := by
  unfold opMulAssignScalar
  exact scalarUpdate_spec n a (fun l => l.mul (Splat s)) (fun x => x * s) (lane_mul_splat_get s) (by simp) ha

theorem GetClamp_spec (E : Externals) (n : Nat) (a lo hi : VectorN) (hpos : 1 ≤ n)
    (hsz : n + 3 < SIZE_MOD) (ha : Settled n a) (hlo : Settled n lo) (hhi : Settled n hi) :
    ∃ w, GetClamp E a lo hi = .ok w ∧ Settled n w ∧
      ∀ j, j < n → slot w j = max (min (slot a j) (slot hi j)) (slot lo j) := by
  obtain ⟨hd1, hlen1⟩ := Settled_same_length ha hlo
  obtain ⟨hd2, hlen2⟩ := Settled_same_length ha hhi
  obtain ⟨han, hal, hap⟩ := ha
  obtain ⟨_, _, hlop⟩ := hlo
  obtain ⟨_, _, hhip⟩ := hhi
  have hal1 : a.m_values.length = (a.m_numElements + 3) / 4 := hal
  obtain ⟨w, hw, hwn, hwl, hslot⟩ := valueOp_spec E n a _
    (fun j => (laneAt a.m_values j).GetClamp (laneAt lo.m_values j) (laneAt hi.m_values j))
    hpos hsz han hal
    (fun j hj => read3 a lo hi Vector4.GetClamp j hj (by omega) (by omega))
  have hwl1 : w.m_values.length = (w.m_numElements + 3) / 4 := hwl
  have key : ∀ j, j < 4 * w.m_values.length →
      slot w j = max (min (slot a j) (slot hi j)) (slot lo j) := by
    intro j hj
    rw [hslot j hj, lane_clamp_get, ← slot_eq_laneAt, ← slot_eq_laneAt, ← slot_eq_laneAt]
  refine ⟨w, ?_, ⟨hwn, hwl, ?_⟩, fun j hj => key j (by omega)⟩
  · unfold GetClamp
    rw [assert_pass _ _ hd1, assert_pass _ _ hd2]
    exact hw
  · intro j hj hnj
    rw [key j hj, hap j (by omega) (by omega), hhip j (by omega) (by omega),
      hlop j (by omega) (by omega)]
    simp

theorem ReLU_slot (a : VectorN) (j : Nat) :
    slot (ReLU a) j = if slot a j ≥ 0 then slot a j else 0 := by
  unfold slot ReLU
  simp only [List.getElem?_map]
  cases a.m_values[j / 4]? with
  | none => simp
  | some l => exact lane_relu_get l (j % 4)

theorem ReLU_spec (n : Nat) (a : VectorN) (ha : Settled n a) :
    Settled n (ReLU a) ∧ ∀ j, slot (ReLU a) j = if slot a j ≥ 0 then slot a j else 0 := by
  obtain ⟨han, hal, hap⟩ := ha
  have hal1 : a.m_values.length = (a.m_numElements + 3) / 4 := hal
  refine ⟨⟨han, ?_, ?_⟩, ReLU_slot a⟩
  · unfold LaneCount ReLU
    simpa using hal1
  · intro j hj hnj
    have hj1 : j < 4 * a.m_values.length := by simpa [ReLU] using hj
    have hnj1 : a.m_numElements ≤ j := hnj
    rw [ReLU_slot, hap j hj1 hnj1]
    simp

theorem SetElement_settled (n : Nat) (a : VectorN) (i : Nat) (x : Scalar) (hi : i < n)
    (ha : Settled n a) :
    ∃ w, SetElement a i x = .ok w ∧ Settled n w ∧
      ∀ j, slot w j = if j = i then x else slot a j := by
  obtain ⟨han, hal, hap⟩ := ha
  have hal1 : a.m_values.length = (a.m_numElements + 3) / 4 := hal
  obtain ⟨w, hw, hwn, hwl, hslot⟩ := SetElement_spec a i x (by omega)
  refine ⟨w, hw, ⟨by omega, ?_, ?_⟩, hslot⟩
  · unfold LaneCount
    omega
  · intro j hj hnj
    rw [hslot j, if_neg (by omega)]
    exact hap j (by omega) (by omega)

theorem GetLengthSq_returns (E : Externals) (a : VectorN) : ∃ s, GetLengthSq E a = .ok s := by
  obtain ⟨r, hr, _⟩ := forLoop_inv (fun i lengthSquared => do
      let l ← getAt a.m_values i
      pure (E.addFloat lengthSquared l.GetLengthSq))
    (fun _ _ => True) a.m_values.length 0 0 trivial
    (by
      intro j t _ hj _
      have h1 : j < a.m_values.length := by omega
      refine ⟨E.addFloat t (laneAt a.m_values j).GetLengthSq, ?_, trivial⟩
      beta_reduce
      rw [getAt_laneAt h1, Except_ok_bind]
      rfl)
  exact ⟨r, hr⟩

theorem Normalize_spec (E : Externals) (n : Nat) (a : VectorN) (hpos : 1 ≤ n)
    (hsz : n < SIZE_MOD) (ha : Settled n a) :
    ∃ len w, GetLength E a = .ok len ∧ Normalize E a = .ok w ∧ Settled n w ∧
      ∀ j, j < n → slot w j = scalarDiv E (slot a j) len := by
  obtain ⟨sq, hsq⟩ := GetLengthSq_returns E a
  have hlen : GetLength E a = .ok (E.sqrt sq) := by
    unfold GetLength
    rw [hsq, Except_ok_bind]
    rfl
  obtain ⟨w, hw, hs, hslot⟩ := opDivAssignScalar_spec E n a (E.sqrt sq) hpos hsz ha
  refine ⟨E.sqrt sq, w, hlen, ?_, hs, hslot⟩
  unfold Normalize
  rw [hlen, Except_ok_bind]
  exact hw

/-! ## The tail invariant -/

theorem Yields_of_spec {n : Nat} {r : Except Failure VectorN} {P : VectorN → Prop}
    (h : ∃ w, r = .ok w ∧ Settled n w ∧ P w) : Yields n r := by
  obtain ⟨w, hw, hs, _⟩ := h
  exact ⟨w, hw, hs⟩

/-- C1 (tail invariant I1): for every length `n ≥ 1` whose lane count is computed
without wrap-around and all vectors of length `n` with `ceil(n / 4)` lanes and
padding `0.0`, the vector produced or left behind by `SetElement(i, x)` with
`i < n`, `Resize(m)` with `m ≥ 1`, `ReLU`, `GetFloor`, `GetCeil`, `GetRound`,
`GetAbs`, `GetSquare`, `GetMin`, `GetMax`, `GetClamp`, the vector operators
`+ - * /` and `+= -= *= /=`, the scalar `+= -= /=`, `operator/(float)` and
`Normalize` is returned, has `ceil(length / 4)` lanes and has every padding slot
equal to `0.0`. -/
theorem C1_tail_invariant (E : Externals) (n : Nat) (a b lo hi : VectorN) (hpos : 1 ≤ n)
    (hsz : n + 3 < SIZE_MOD) (ha : Settled n a) (hb : Settled n b) (hlo : Settled n lo)
    (hhi : Settled n hi) :
    (∀ i x, i < n → Yields n (SetElement a i x)) ∧
    (∀ m, 1 ≤ m → m + 3 < SIZE_MOD → Yields m (Resize E a m)) ∧
    Settled n (ReLU a) ∧
    Yields n (GetFloor E a) ∧ Yields n (GetCeil E a) ∧ Yields n (GetRound E a) ∧
    Yields n (GetAbs E a) ∧ Yields n (GetSquare E a) ∧
    Yields n (GetMin E a b) ∧ Yields n (GetMax E a b) ∧ Yields n (GetClamp E a lo hi) ∧
    Yields n (opAdd E a b) ∧ Yields n (opSub E a b) ∧ Yields n (opMul E a b) ∧
    Yields n (opDiv E a b) ∧
    Yields n (opAddAssign a b) ∧ Yields n (opSubAssign a b) ∧ Yields n (opMulAssign a b) ∧
    Yields n (opDivAssign E a b) ∧
    (∀ s, Yields n (opAddAssignScalar a s) ∧ Yields n (opSubAssignScalar a s) ∧
      Yields n (opDivAssignScalar E a s) ∧ Yields n (opDivScalar E a s)) ∧
    Yields n (Normalize E a) := by
  have hsz1 : n < SIZE_MOD := by omega
  refine ⟨?_, ?_, (ReLU_spec n a ha).1, Yields_of_spec (GetFloor_spec E n a hpos hsz ha),
    Yields_of_spec (GetCeil_spec E n a hpos hsz ha),
    Yields_of_spec (GetRound_spec E n a hpos hsz ha),
    Yields_of_spec (GetAbs_spec E n a hpos hsz ha),
    Yields_of_spec (GetSquare_spec E n a hpos hsz ha),
    Yields_of_spec (GetMin_spec E n a b hpos hsz ha hb),
    Yields_of_spec (GetMax_spec E n a b hpos hsz ha hb),
    Yields_of_spec (GetClamp_spec E n a lo hi hpos hsz ha hlo hhi),
    Yields_of_spec (opAdd_spec E n a b hpos hsz ha hb),
    Yields_of_spec (opSub_spec E n a b hpos hsz ha hb),
    Yields_of_spec (opMul_spec E n a b hpos hsz ha hb),
    Yields_of_spec (opDiv_spec E n a b hpos hsz ha hb),
    Yields_of_spec (opAddAssign_spec n a b ha hb),
    Yields_of_spec (opSubAssign_spec n a b ha hb),
    Yields_of_spec (opMulAssign_spec n a b ha hb),
    Yields_of_spec (opDivAssign_spec E n a b hpos hsz1 ha hb), ?_, ?_⟩
  · intro i x hi
    exact Yields_of_spec (SetElement_settled n a i x hi ha)
  · intro m hm hmsz
    exact Resize_spec E a m hm hmsz
  · intro s
    exact ⟨Yields_of_spec (opAddAssignScalar_spec n a s hpos hsz1 ha),
      Yields_of_spec (opSubAssignScalar_spec n a s hpos hsz1 ha),
      Yields_of_spec (opDivAssignScalar_spec E n a s hpos hsz1 ha),
      Yields_of_spec (opDivScalar_spec E n a s hpos hsz ha)⟩
  · obtain ⟨_, w, _, hw, hs, _⟩ := Normalize_spec E n a hpos hsz1 ha
    exact ⟨w, hw, hs⟩

/-- C1 at the vectors `[1, -2, 3, -4, 5]` and `[2, 2, 2, 2, 2]` of length 5. -/
theorem C1_tail_invariant_witness :
    1 ≤ 5 ∧ 5 + 3 < SIZE_MOD ∧ Settled 5 sampleA ∧ Settled 5 sampleB ∧
    (∀ i x, i < 5 → Yields 5 (SetElement sampleA i x)) ∧
    (∀ m, 1 ≤ m → m + 3 < SIZE_MOD → Yields m (Resize Externals.plain sampleA m)) ∧
    Settled 5 (ReLU sampleA) ∧
    Yields 5 (GetFloor Externals.plain sampleA) ∧ Yields 5 (GetCeil Externals.plain sampleA) ∧ Yields 5 (GetRound Externals.plain sampleA) ∧
    Yields 5 (GetAbs Externals.plain sampleA) ∧ Yields 5 (GetSquare Externals.plain sampleA) ∧
    Yields 5 (GetMin Externals.plain sampleA sampleB) ∧ Yields 5 (GetMax Externals.plain sampleA sampleB) ∧ Yields 5 (GetClamp Externals.plain sampleA sampleB sampleA) ∧
    Yields 5 (opAdd Externals.plain sampleA sampleB) ∧ Yields 5 (opSub Externals.plain sampleA sampleB) ∧ Yields 5 (opMul Externals.plain sampleA sampleB) ∧
    Yields 5 (opDiv Externals.plain sampleA sampleB) ∧
    Yields 5 (opAddAssign sampleA sampleB) ∧ Yields 5 (opSubAssign sampleA sampleB) ∧ Yields 5 (opMulAssign sampleA sampleB) ∧
    Yields 5 (opDivAssign Externals.plain sampleA sampleB) ∧
    (∀ s, Yields 5 (opAddAssignScalar sampleA s) ∧ Yields 5 (opSubAssignScalar sampleA s) ∧
      Yields 5 (opDivAssignScalar Externals.plain sampleA s) ∧ Yields 5 (opDivScalar Externals.plain sampleA s)) ∧
    Yields 5 (Normalize Externals.plain sampleA) :=
  ⟨by decide, by decide, by decide, by decide,
    C1_tail_invariant Externals.plain 5 sampleA sampleB sampleB sampleA (by decide) (by decide)
      (by decide) (by decide) (by decide) (by decide)⟩

/-! ## Lengths -/

/-- The loop of `Dot(v, v)` is the loop of `GetLengthSq`, lane by lane. -/
theorem Dot_self_eq_GetLengthSq (E : Externals) (v : VectorN) :
    Dot E v v = GetLengthSq E v := by
  unfold Dot GetLengthSq
  rw [assert_pass _ _ rfl]
  congr 1
  funext i s
  cases h : getAt v.m_values i <;> rfl

/-- C11 (dot/length consistency): for every vector `v`, `v.Dot(v)` and
`v.GetLengthSq()` are the same computation (both return the same value), and
`v.GetLength()` is the square root of `v.GetLengthSq()`. -/
theorem C11_dot_length_consistency (E : Externals) (v : VectorN) :
    Dot E v v = GetLengthSq E v ∧
    ∃ s, GetLengthSq E v = .ok s ∧ Dot E v v = .ok s ∧ GetLength E v = .ok (E.sqrt s) := by
  obtain ⟨s, hs⟩ := GetLengthSq_returns E v
  refine ⟨Dot_self_eq_GetLengthSq E v, s, hs, ?_, ?_⟩
  · rw [Dot_self_eq_GetLengthSq, hs]
  · unfold GetLength
    rw [hs, Except_ok_bind]
    rfl

/-- C11, the scenario of the spec: `CreateFromFloats(2, [3, 4])` has
`GetLengthSq() == 25` and `GetLength() == 5`. -/
theorem C11_dot_length_consistency_witness :
    CreateFromFloats Externals.plain 2 (fun i => if i = 0 then 3 else 4)
      = .ok { m_numElements := 2, m_values := [⟨3, 4, 0, 0⟩] } ∧
    GetLengthSq Externals.plain { m_numElements := 2, m_values := [⟨3, 4, 0, 0⟩] } = .ok 25 ∧
    Externals.plain.sqrt 25 = 5 ∧
    GetLength Externals.plain { m_numElements := 2, m_values := [⟨3, 4, 0, 0⟩] } = .ok 5 ∧
    (Dot Externals.plain { m_numElements := 2, m_values := [⟨3, 4, 0, 0⟩] }
        { m_numElements := 2, m_values := [⟨3, 4, 0, 0⟩] }
      = GetLengthSq Externals.plain { m_numElements := 2, m_values := [⟨3, 4, 0, 0⟩] } ∧
    ∃ s, GetLengthSq Externals.plain { m_numElements := 2, m_values := [⟨3, 4, 0, 0⟩] } = .ok s ∧
      Dot Externals.plain { m_numElements := 2, m_values := [⟨3, 4, 0, 0⟩] }
        { m_numElements := 2, m_values := [⟨3, 4, 0, 0⟩] } = .ok s ∧
      GetLength Externals.plain { m_numElements := 2, m_values := [⟨3, 4, 0, 0⟩] }
        = .ok (Externals.plain.sqrt s)) := by
  have h25 : GetLengthSq Externals.plain { m_numElements := 2, m_values := [⟨3, 4, 0, 0⟩] } = .ok 25 := by
    have h : float32Round (25 : Scalar) = 25 := by
      exact_mod_cast float32Round_natCast 25 (by norm_num)
    norm_num [GetLengthSq, forLoop, getAt, bind, Except.bind, pure, Except.pure,
      Vector4.GetLengthSq, Vector4.Dot, Externals.plain, float32Add, h]
  have hsq : Externals.plain.sqrt 25 = 5 := by
    have e : Nat.sqrt 25 = 5 := Nat.sqrt_eq 5
    have e1 : Nat.sqrt 1 = 1 := Nat.sqrt_eq 1
    simp [Externals.plain, e, e1]
  refine ⟨by rfl, h25, hsq, ?_, C11_dot_length_consistency Externals.plain _⟩
  unfold GetLength
  rw [h25, Except_ok_bind]
  show Except.ok (Externals.plain.sqrt 25) = Except.ok 5
  rw [hsq]

/-! ## ReLU, Resize and SetElement -/

/-- C13 (ReLU): for every vector `v` of length `n` with `ceil(n / 4)` lanes, after
`v.ReLU()` the dimensionality and the lane count are unchanged and, for every
`i < n`, `GetElement(i)` is the old `v[i]` when the old `v[i] ≥ 0` and `0`
otherwise, that is `max(v[i], 0)`. -/
theorem C13_relu (n : Nat) (v : VectorN) (hn : v.m_numElements = n) (hl : LaneCount v) :
    GetDimensionality (ReLU v) = n ∧ (ReLU v).m_values.length = v.m_values.length ∧
    ∀ i, i < n → GetElement v i = .ok (slot v i) ∧
      GetElement (ReLU v) i = .ok (if slot v i ≥ 0 then slot v i else 0) ∧
      GetElement (ReLU v) i = .ok (max (slot v i) 0) := by
  have hl1 : v.m_values.length = (v.m_numElements + 3) / 4 := hl
  have hlen : (ReLU v).m_values.length = v.m_values.length := by simp [ReLU]
  refine ⟨hn, hlen, ?_⟩
  intro i hi
  have h1 : GetElement (ReLU v) i = .ok (if slot v i ≥ 0 then slot v i else 0) := by
    rw [GetElement_eq_slot (ReLU v) i (by omega), ReLU_slot]
  refine ⟨GetElement_eq_slot v i (by omega), h1, ?_⟩
  rw [h1]
  congr 1
  by_cases h : slot v i ≥ 0
  · rw [if_pos h, max_eq_left h]
  · rw [if_neg h, max_eq_right (le_of_lt (not_le.mp h))]

/-- C13, the scenario of the spec: `[1, -2, 3, -4]` becomes `[1, 0, 3, 0]`. -/
theorem C13_relu_witness :
    CreateFromFloats Externals.plain 4 (fun i => if i % 2 = 0 then (i : Scalar) + 1 else -(i : Scalar) - 1)
      = .ok { m_numElements := 4, m_values := [⟨1, -2, 3, -4⟩] } ∧
    ReLU { m_numElements := 4, m_values := [⟨1, -2, 3, -4⟩] }
      = { m_numElements := 4, m_values := [⟨1, 0, 3, 0⟩] } ∧
    LaneCount { m_numElements := 4, m_values := [⟨1, -2, 3, -4⟩] } ∧
    (GetDimensionality (ReLU { m_numElements := 4, m_values := [⟨1, -2, 3, -4⟩] }) = 4 ∧
      (ReLU { m_numElements := 4, m_values := [⟨1, -2, 3, -4⟩] }).m_values.length
        = ({ m_numElements := 4, m_values := [⟨1, -2, 3, -4⟩] } : VectorN).m_values.length ∧
      ∀ i, i < 4 →
        GetElement { m_numElements := 4, m_values := [⟨1, -2, 3, -4⟩] } i
          = .ok (slot { m_numElements := 4, m_values := [⟨1, -2, 3, -4⟩] } i) ∧
        GetElement (ReLU { m_numElements := 4, m_values := [⟨1, -2, 3, -4⟩] }) i
          = .ok (if slot { m_numElements := 4, m_values := [⟨1, -2, 3, -4⟩] } i ≥ 0
              then slot { m_numElements := 4, m_values := [⟨1, -2, 3, -4⟩] } i else 0) ∧
        GetElement (ReLU { m_numElements := 4, m_values := [⟨1, -2, 3, -4⟩] }) i
          = .ok (max (slot { m_numElements := 4, m_values := [⟨1, -2, 3, -4⟩] } i) 0)) :=
  ⟨by norm_num [CreateFromFloats, create, OnSizeChanged, FixLastVectorElement, resize, sizeAdd,
      sizeSub, SIZE_MOD, LoadAligned, masks, getAt, setAt, And, andWord, forLoop, SetElement,
      Vector4.SetElement, Externals.plain, bind, Except.bind, pure, Except.pure],
    by decide, by decide,
    C13_relu 4 { m_numElements := 4, m_values := [⟨1, -2, 3, -4⟩] } rfl (by decide)⟩

/-- C14 (Resize postcondition): for every vector and every new length `m ≥ 1`
whose lane count is computed without wrap-around, `Resize(m)` returns with
`GetDimensionality() == m`, exactly `ceil(m / 4)` lanes, and every slot of index
at least `m` equal to `0.0` (whatever the padding held before the call). -/
theorem C14_resize_postcondition (E : Externals) (v : VectorN) (m : Nat) (hm : 1 ≤ m)
    (hsz : m + 3 < SIZE_MOD) :
    ∃ w, Resize E v m = .ok w ∧ GetDimensionality w = m ∧
      w.m_values.length = (m + 3) / 4 ∧
      ∀ j, m ≤ j → j < 4 * w.m_values.length → slot w j = 0 := by
  obtain ⟨w, hw, hwn, hwl, hwp⟩ := Resize_spec E v m hm hsz
  have hwl1 : w.m_values.length = (w.m_numElements + 3) / 4 := hwl
  refine ⟨w, hw, hwn, by omega, ?_⟩
  intro j h1 h2
  exact hwp j h2 (by omega)

/-- C14 at the vector `[1, -2, 3, -4, 5]`, resized to length 2 and to length 7. -/
theorem C14_resize_postcondition_witness :
    Resize Externals.plain sampleA 2 = .ok { m_numElements := 2, m_values := [⟨1, -2, 0, 0⟩] } ∧
    1 ≤ 7 ∧ 7 + 3 < SIZE_MOD ∧
    ∃ w, Resize Externals.plain sampleA 7 = .ok w ∧ GetDimensionality w = 7 ∧
      w.m_values.length = (7 + 3) / 4 ∧
      ∀ j, 7 ≤ j → j < 4 * w.m_values.length → slot w j = 0 :=
  ⟨by rfl, by decide, by decide,
    C14_resize_postcondition Externals.plain sampleA 7 (by decide) (by decide)⟩

/-- C19 (SetElement frame): for every vector of length `n` with `ceil(n / 4)` lanes,
every index `i < n` and every value `x`, `SetElement(i, x)` returns; afterwards
`GetElement(i) == x`, `GetElement(j)` is unchanged for every other `j < n`, the
dimensionality and the lane count are unchanged, and every other slot, the
padding slots included, keeps its previous value. -/
theorem C19_set_element_frame (n : Nat) (v : VectorN) (i : Nat) (x : Scalar)
    (hn : v.m_numElements = n) (hl : LaneCount v) (hi : i < n) :
    ∃ w, SetElement v i x = .ok w ∧ GetDimensionality w = n ∧
      w.m_values.length = v.m_values.length ∧
      GetElement w i = .ok x ∧
      (∀ j, j < n → j ≠ i → GetElement w j = GetElement v j) ∧
      (∀ j, j ≠ i → slot w j = slot v j) ∧
      (∀ j, n ≤ j → slot w j = slot v j) := by
  have hl1 : v.m_values.length = (v.m_numElements + 3) / 4 := hl
  obtain ⟨w, hw, hwn, hwl, hslot⟩ := SetElement_spec v i x (by omega)
  refine ⟨w, hw, by rw [GetDimensionality, hwn, hn], hwl, ?_, ?_, ?_, ?_⟩
  · rw [GetElement_eq_slot w i (by omega), hslot i, if_pos rfl]
  · intro j hj hne
    rw [GetElement_eq_slot w j (by omega), GetElement_eq_slot v j (by omega), hslot j,
      if_neg hne]
  · intro j hne
    rw [hslot j, if_neg hne]
  · intro j hj
    rw [hslot j, if_neg (by omega)]

/-- C19 at the vector `[1, -2, 3, -4, 5]`: writing 9 at index 4. -/
theorem C19_set_element_frame_witness :
    SetElement sampleA 4 9 = .ok { m_numElements := 5, m_values := [⟨1, -2, 3, -4⟩, ⟨9, 0, 0, 0⟩] } ∧
    sampleA.m_numElements = 5 ∧ LaneCount sampleA ∧ 4 < 5 ∧
    ∃ w, SetElement sampleA 4 9 = .ok w ∧ GetDimensionality w = 5 ∧
      w.m_values.length = sampleA.m_values.length ∧
      GetElement w 4 = .ok 9 ∧
      (∀ j, j < 5 → j ≠ 4 → GetElement w j = GetElement sampleA j) ∧
      (∀ j, j ≠ 4 → slot w j = slot sampleA j) ∧
      (∀ j, 5 ≤ j → slot w j = slot sampleA j) :=
  ⟨by rfl, by rfl, by decide, by decide,
    C19_set_element_frame 5 sampleA 4 9 rfl (by decide) (by decide)⟩

/-! ## Division and scalar multiplication -/

theorem scalarDiv_of_ne (E : Externals) (x y : Scalar) (h : y ≠ 0) : scalarDiv E x y = x / y := by
  unfold scalarDiv
  rw [if_neg h]

/-- C12 (division re-masking): for every length `n ≥ 1` whose lane count is
computed without wrap-around and all vectors `a`, `b` of length `n` in their
resting state with `b[i] ≠ 0` for every `i < n`, the quotient `a / b` and the
state of `a` after `a /= b` have `GetElement(i) == a[i] / b[i]` for every `i < n`
and every padding slot exactly `0.0`, whatever the lane division yields for a
zero divisor. -/
theorem C12_division_remasking (E : Externals) (n : Nat) (a b : VectorN) (hpos : 1 ≤ n)
    (hsz : n + 3 < SIZE_MOD) (ha : Settled n a) (hb : Settled n b)
    (hnz : ∀ i, i < n → slot b i ≠ 0) :
    (∃ w, opDiv E a b = .ok w ∧ GetDimensionality w = n ∧
      (∀ i, i < n → GetElement w i = .ok (slot a i / slot b i)) ∧
      ∀ j, n ≤ j → j < 4 * w.m_values.length → slot w j = 0) ∧
    (∃ w, opDivAssign E a b = .ok w ∧ GetDimensionality w = n ∧
      (∀ i, i < n → GetElement w i = .ok (slot a i / slot b i)) ∧
      ∀ j, n ≤ j → j < 4 * w.m_values.length → slot w j = 0) := by
  constructor
  · obtain ⟨w, hw, hs, hslot⟩ := opDiv_spec E n a b hpos hsz ha hb
    refine ⟨w, hw, hs.1, ?_, ?_⟩
    · intro i hi
      rw [Settled_GetElement hs i hi, hslot i hi, scalarDiv_of_ne E _ _ (hnz i hi)]
    · intro j h1 h2
      exact hs.2.2 j h2 (by rw [hs.1]; exact h1)
  · obtain ⟨w, hw, hs, hslot⟩ := opDivAssign_spec E n a b hpos (by omega) ha hb
    refine ⟨w, hw, hs.1, ?_, ?_⟩
    · intro i hi
      rw [Settled_GetElement hs i hi, hslot i hi, scalarDiv_of_ne E _ _ (hnz i hi)]
    · intro j h1 h2
      exact hs.2.2 j h2 (by rw [hs.1]; exact h1)

/-- C12, the scenario of the spec, over a lane division that gives 7 for a zero
divisor: `CreateOne(5) / CreateOne(5)` is all ones on the indices 0..4 and has
the slots 5, 6 and 7 equal to `0.0`. -/
theorem C12_division_remasking_witness :
    CreateOne { Externals.plain with divByZero := fun _ => 7 } 5
      = .ok { m_numElements := 5, m_values := [⟨1, 1, 1, 1⟩, ⟨1, 0, 0, 0⟩] } ∧
    opDiv { Externals.plain with divByZero := fun _ => 7 }
        { m_numElements := 5, m_values := [⟨1, 1, 1, 1⟩, ⟨1, 0, 0, 0⟩] }
        { m_numElements := 5, m_values := [⟨1, 1, 1, 1⟩, ⟨1, 0, 0, 0⟩] }
      = .ok { m_numElements := 5, m_values := [⟨1, 1, 1, 1⟩, ⟨1, 0, 0, 0⟩] } ∧
    1 ≤ 5 ∧ 5 + 3 < SIZE_MOD ∧
    Settled 5 { m_numElements := 5, m_values := [⟨1, 1, 1, 1⟩, ⟨1, 0, 0, 0⟩] } ∧
    (∀ i, i < 5 → slot { m_numElements := 5, m_values := [⟨1, 1, 1, 1⟩, ⟨1, 0, 0, 0⟩] } i ≠ 0) ∧
    ((∃ w, opDiv { Externals.plain with divByZero := fun _ => 7 }
          { m_numElements := 5, m_values := [⟨1, 1, 1, 1⟩, ⟨1, 0, 0, 0⟩] }
          { m_numElements := 5, m_values := [⟨1, 1, 1, 1⟩, ⟨1, 0, 0, 0⟩] } = .ok w ∧
        GetDimensionality w = 5 ∧
        (∀ i, i < 5 → GetElement w i
          = .ok (slot { m_numElements := 5, m_values := [⟨1, 1, 1, 1⟩, ⟨1, 0, 0, 0⟩] } i
              / slot { m_numElements := 5, m_values := [⟨1, 1, 1, 1⟩, ⟨1, 0, 0, 0⟩] } i)) ∧
        ∀ j, 5 ≤ j → j < 4 * w.m_values.length → slot w j = 0) ∧
      (∃ w, opDivAssign { Externals.plain with divByZero := fun _ => 7 }
          { m_numElements := 5, m_values := [⟨1, 1, 1, 1⟩, ⟨1, 0, 0, 0⟩] }
          { m_numElements := 5, m_values := [⟨1, 1, 1, 1⟩, ⟨1, 0, 0, 0⟩] } = .ok w ∧
        GetDimensionality w = 5 ∧
        (∀ i, i < 5 → GetElement w i
          = .ok (slot { m_numElements := 5, m_values := [⟨1, 1, 1, 1⟩, ⟨1, 0, 0, 0⟩] } i
              / slot { m_numElements := 5, m_values := [⟨1, 1, 1, 1⟩, ⟨1, 0, 0, 0⟩] } i)) ∧
        ∀ j, 5 ≤ j → j < 4 * w.m_values.length → slot w j = 0)) :=
  ⟨by rfl,
    by norm_num [opDiv, AZ_Assert, create, OnSizeChanged, FixLastVectorElement, resize, sizeAdd,
      sizeSub, SIZE_MOD, LoadAligned, masks, getAt, setAt, And, andWord, forLoop, assignLanes,
      Vector4.div, Vector4.map₂, scalarDiv, Externals.plain, bind, Except.bind, pure,
      Except.pure, List.replicate],
    by decide, by decide, by decide, by decide,
    C12_division_remasking _ 5 _ _ (by decide) (by decide) (by decide) (by decide)
      (by decide)⟩

/-- On finite values the product with special values is the exact product. -/
theorem Float32.mul_finite (a b : Scalar) :
    Float32.mul (.finite a) (.finite b) = .finite (a * b) := rfl

theorem Vector4.toFloats_mul (l : Vector4) (s : Scalar) :
    (l.mul (Splat s)).toFloats = l.toFloats.mulScalar (.finite s) := rfl

/-- On finite values the reading of `operator*=(float)` over floats with special
values is the exact one: both loops return, and the lanes of the first are the
lanes of the second. -/
theorem opMulAssignScalarIEEE_finite (a : VectorN) (s : Scalar) :
    ∃ w, opMulAssignScalar a s = .ok w ∧
      opMulAssignScalarIEEE (a.m_values.map Vector4.toFloats) (.finite s)
        = .ok (w.m_values.map Vector4.toFloats) := by
  obtain ⟨r, hr, hrl, hrg⟩ := updateLanes_spec (fun _ l => pure (l.mul (Splat s)))
    (fun _ l => l.mul (Splat s)) a.m_values (fun _ _ _ => rfl)
  have hk : (a.m_values.map Vector4.toFloats).length = a.m_values.length := by simp
  obtain ⟨c, hc, hcl, hcp, _⟩ := forLoop_inv (fun i cur =>
      match cur[i]? with
      | some l => Except.ok (cur.set i (l.mulScalar (.finite s)))
      | none => Except.error Failure.outOfRange)
    (fun i (cur : List Vector4F) => cur.length = a.m_values.length ∧
      (∀ j l, j < i → a.m_values[j]? = some l → cur[j]? = some (l.mul (Splat s)).toFloats) ∧
      ∀ j, i ≤ j → cur[j]? = (a.m_values[j]?).map Vector4.toFloats)
    a.m_values.length 0 (a.m_values.map Vector4.toFloats)
    ⟨hk, fun j l hj => absurd hj (Nat.not_lt_zero j), fun j _ => by rw [List.getElem?_map]⟩
    (by
      intro j t _ hj ⟨hl, hp, hq⟩
      have hjk : j < a.m_values.length := by omega
      have htj : t[j]? = some (a.m_values[j]).toFloats := by
        rw [hq j (le_refl _), List.getElem?_eq_getElem hjk]
        rfl
      refine ⟨t.set j ((a.m_values[j]).mul (Splat s)).toFloats, ?_, ?_, ?_, ?_⟩
      · simp only [htj]
        rfl
      · simp [hl]
      · intro j1 l hj1 hl1
        by_cases e : j1 = j
        · subst e
          rw [List.getElem?_eq_getElem hjk] at hl1
          cases hl1
          simp [hl, hjk]
        · rw [List.getElem?_set_ne (Ne.symm e)]
          exact hp j1 l (by omega) hl1
      · intro j1 hj1
        have e : j ≠ j1 := by omega
        rw [List.getElem?_set_ne e]
        exact hq j1 (by omega))
  refine ⟨{ a with m_values := r }, ?_, ?_⟩
  · unfold opMulAssignScalar
    rw [hr, Except_ok_bind]
    rfl
  · unfold opMulAssignScalarIEEE
    rw [hk, hc]
    congr 1
    apply List.ext_getElem?
    intro j
    rw [List.getElem?_map]
    by_cases hj : j < a.m_values.length
    · rw [hcp j (a.m_values[j]) (by omega) (List.getElem?_eq_getElem hj),
        hrg j (a.m_values[j]) (List.getElem?_eq_getElem hj)]
      rfl
    · have hcl1 : c.length = a.m_values.length := hcl
      have hrl1 : r.length = a.m_values.length := hrl
      rw [List.getElem?_eq_none (by omega), List.getElem?_eq_none (by simp only []; omega)]
      rfl

/-- C15, the infinite multiplier: the length-1 vector `[1]`, whose padding slots
1, 2 and 3 hold `0.0`, multiplied in place by `+∞` ends with NaN in its three
padding slots, `0 × ∞` being NaN and no fix-up following the product. -/
theorem C15_infinite_multiplier :
    (⟨1, 0, 0, 0⟩ : Vector4).toFloats = ⟨.finite 1, .finite 0, .finite 0, .finite 0⟩ ∧
    opMulAssignScalarIEEE [⟨.finite 1, .finite 0, .finite 0, .finite 0⟩] (.infinity false)
      = .ok [⟨.infinity false, .nan, .nan, .nan⟩] ∧
    Float32.nan ≠ Float32.finite 0 :=
  ⟨by rfl, by rfl, by decide⟩

/-- C15 as the code has it (scalar multiplication and negation): for every length
`n ≥ 1` whose lane count is computed without wrap-around, every vector `v` of
length `n` in its resting state and every finite scalar `s`, the results of
`v *= s`, `v * s` and `-v` are returned with dimensionality `n` and every padding
slot equal to `0.0`, without any tail-mask fix-up. -/
theorem C15_scalar_mul_neg_padding (E : Externals) (n : Nat) (v : VectorN) (s : Scalar)
    (hpos : 1 ≤ n) (hsz : n + 3 < SIZE_MOD) (hv : Settled n v) :
    (∃ w, opMulAssignScalar v s = .ok w ∧ GetDimensionality w = n ∧
      ∀ j, n ≤ j → j < 4 * w.m_values.length → slot w j = 0) ∧
    (∃ w, opMulScalar E v s = .ok w ∧ GetDimensionality w = n ∧
      ∀ j, n ≤ j → j < 4 * w.m_values.length → slot w j = 0) ∧
    (∃ w, opNeg E v = .ok w ∧ GetDimensionality w = n ∧
      ∀ j, n ≤ j → j < 4 * w.m_values.length → slot w j = 0) := by
  refine ⟨?_, ?_, ?_⟩
  · obtain ⟨w, hw, hs, _⟩ := opMulAssignScalar_spec n v s hv
    exact ⟨w, hw, hs.1, fun j h1 h2 => hs.2.2 j h2 (by rw [hs.1]; exact h1)⟩
  · obtain ⟨w, hw, hs, _⟩ := opMulScalar_spec E n v s hpos hsz hv
    exact ⟨w, hw, hs.1, fun j h1 h2 => hs.2.2 j h2 (by rw [hs.1]; exact h1)⟩
  · obtain ⟨w, hw, hs, _⟩ := opNeg_spec E n v hpos hsz hv
    exact ⟨w, hw, hs.1, fun j h1 h2 => hs.2.2 j h2 (by rw [hs.1]; exact h1)⟩

/-- C15 at the vector `[1, -2, 3, -4, 5]` and the scalar 3; and on a storage
whose padding holds 1 the product keeps a non-zero padding, no fix-up being
applied. -/
theorem C15_scalar_mul_neg_padding_witness :
    opMulAssignScalar sampleA 3
      = .ok { m_numElements := 5, m_values := [⟨3, -6, 9, -12⟩, ⟨15, 0, 0, 0⟩] } ∧
    opMulAssignScalar { m_numElements := 1, m_values := [⟨1, 1, 1, 1⟩] } 3
      = .ok { m_numElements := 1, m_values := [⟨3, 3, 3, 3⟩] } ∧
    1 ≤ 5 ∧ 5 + 3 < SIZE_MOD ∧ Settled 5 sampleA ∧
    ((∃ w, opMulAssignScalar sampleA 3 = .ok w ∧ GetDimensionality w = 5 ∧
        ∀ j, 5 ≤ j → j < 4 * w.m_values.length → slot w j = 0) ∧
      (∃ w, opMulScalar Externals.plain sampleA 3 = .ok w ∧ GetDimensionality w = 5 ∧
        ∀ j, 5 ≤ j → j < 4 * w.m_values.length → slot w j = 0) ∧
      (∃ w, opNeg Externals.plain sampleA = .ok w ∧ GetDimensionality w = 5 ∧
        ∀ j, 5 ≤ j → j < 4 * w.m_values.length → slot w j = 0)) :=
  ⟨by norm_num [opMulAssignScalar, sampleA, updateLanes, forLoop, getAt, setAt, Vector4.mul,
      Vector4.map₂, Splat, bind, Except.bind, pure, Except.pure],
    by norm_num [opMulAssignScalar, updateLanes, forLoop, getAt, setAt, Vector4.mul,
      Vector4.map₂, Splat, bind, Except.bind, pure, Except.pure],
    by decide, by decide, by decide,
    C15_scalar_mul_neg_padding Externals.plain 5 sampleA 3 (by decide) (by decide) (by decide)⟩

/-! ## The tail mask -/

theorem lane_ext (l r : Vector4) (h : ∀ u, u < 4 → l.GetElement u = r.GetElement u) : l = r := by
  cases l
  cases r
  have h0 := h 0 (by omega)
  have h1 := h 1 (by omega)
  have h2 := h 2 (by omega)
  have h3 := h 3 (by omega)
  simp only [Vector4.GetElement] at h0 h1 h2 h3
  simp [h0, h1, h2, h3]

/-- Two storages of the same size agree on lane `i` when they agree on its four
slots. -/
theorem lanes_eq_of_slots (w v : VectorN) (i : Nat) (hi : i < v.m_values.length)
    (hl : w.m_values.length = v.m_values.length)
    (hs : ∀ u, u < 4 → slot w (4 * i + u) = slot v (4 * i + u)) :
    w.m_values[i]? = v.m_values[i]? := by
  have hlane : laneAt w.m_values i = laneAt v.m_values i := by
    apply lane_ext
    intro u hu
    have h := hs u hu
    rw [slot_eq_laneAt w, slot_eq_laneAt v] at h
    have e1 : (4 * i + u) / 4 = i := by omega
    have e2 : (4 * i + u) % 4 = u := by omega
    rw [e1, e2] at h
    exact h
  have hiw : i < w.m_values.length := by omega
  simp only [laneAt, List.getElem?_eq_getElem hi, List.getElem?_eq_getElem hiw] at hlane
  rw [List.getElem?_eq_getElem hi, List.getElem?_eq_getElem hiw, hlane]

/-- Two vectors with the same length and lane count are equal when all their
slots agree. -/
theorem VectorN_ext_slots (w v : VectorN) (hn : w.m_numElements = v.m_numElements)
    (hl : w.m_values.length = v.m_values.length)
    (hs : ∀ j, j < 4 * v.m_values.length → slot w j = slot v j) : w = v := by
  have hlanes : w.m_values = v.m_values := by
    apply List.ext_getElem?
    intro i
    by_cases hi : i < v.m_values.length
    · exact lanes_eq_of_slots w v i hi hl (fun u hu => hs (4 * i + u) (by omega))
    · rw [List.getElem?_eq_none (by omega), List.getElem?_eq_none (by omega)]
  cases w
  cases v
  simp only at hn hlanes
  rw [hn, hlanes]

/-- C16 (tail-masking algorithm): for every length `n ≥ 1` and every content of the
`ceil(n / 4)` lanes, the mask is read inside the 16-entry table at offset
`4 * (n mod 4)`, and `FixLastVectorElement` returns a vector of the same length
and lane count which is the input itself when `n mod 4 = 0`, whose last lane
otherwise keeps the slots `0 .. n mod 4 - 1` and holds `0.0` in the others, and
whose other lanes are unchanged; applying it again changes nothing. -/
theorem C16_tail_masking (n : Nat) (v : VectorN) (hn : v.m_numElements = n) (hl : LaneCount v)
    (hpos : 1 ≤ n) (hsz : n < SIZE_MOD) :
    (∃ m, LoadAligned masks (4 * (n % 4)) = .ok m) ∧ 4 * (n % 4) + 4 ≤ masks.length ∧
    ∃ w, FixLastVectorElement v = .ok w ∧ w.m_numElements = n ∧
      w.m_values.length = v.m_values.length ∧
      (n % 4 = 0 → w = v) ∧
      (∀ u, u < 4 → slot w (4 * (v.m_values.length - 1) + u)
        = if n % 4 = 0 ∨ u < n % 4 then slot v (4 * (v.m_values.length - 1) + u) else 0) ∧
      (∀ i, i + 1 < v.m_values.length → w.m_values[i]? = v.m_values[i]?) ∧
      FixLastVectorElement w = .ok w := by
  subst hn
  have hl1 : v.m_values.length = (v.m_numElements + 3) / 4 := hl
  obtain ⟨m, hm, _⟩ := loadMask_spec v.m_numElements
  obtain ⟨w, hw, hwn, hwl, hslot⟩ := FixLast_spec v hpos hl hsz
  have hwlc : LaneCount w := by
    unfold LaneCount
    rw [hwl, hwn]
    exact hl
  obtain ⟨w2, hw2, hw2n, hw2l, hslot2⟩ := FixLast_spec w (by omega) hwlc (by omega)
  refine ⟨⟨m, hm⟩, ?_, w, hw, hwn, hwl, ?_, ?_, ?_, ?_⟩
  · have : masks.length = 16 := rfl
    omega
  · intro h0
    apply VectorN_ext_slots w v hwn hwl
    intro j hj
    rw [hslot j hj, if_pos (by omega)]
  · intro u hu
    rw [hslot _ (by omega)]
    have hiff : (4 * (v.m_values.length - 1) + u < v.m_numElements) ↔
        (v.m_numElements % 4 = 0 ∨ u < v.m_numElements % 4) := by omega
    simp only [hiff]
  · intro i hi
    apply lanes_eq_of_slots w v i (by omega) hwl
    intro u hu
    rw [hslot _ (by omega), if_pos (by omega)]
  · rw [hw2]
    congr 1
    apply VectorN_ext_slots w2 w hw2n hw2l
    intro j hj
    rw [hslot2 j hj, hwn]
    by_cases hjn : j < v.m_numElements
    · rw [if_pos hjn]
    · rw [if_neg hjn, hslot j (by omega), if_neg hjn]

/-- C16 at a storage of length 6 holding 7 in all eight slots: the slots 6 and 7
are cleared and the rest is kept. -/
theorem C16_tail_masking_witness :
    FixLastVectorElement { m_numElements := 6, m_values := [⟨7, 7, 7, 7⟩, ⟨7, 7, 7, 7⟩] }
      = .ok { m_numElements := 6, m_values := [⟨7, 7, 7, 7⟩, ⟨7, 7, 0, 0⟩] } ∧
    LaneCount { m_numElements := 6, m_values := [⟨7, 7, 7, 7⟩, ⟨7, 7, 7, 7⟩] } ∧
    1 ≤ 6 ∧ 6 < SIZE_MOD ∧
    ((∃ m, LoadAligned masks (4 * (6 % 4)) = .ok m) ∧ 4 * (6 % 4) + 4 ≤ masks.length ∧
    ∃ w, FixLastVectorElement { m_numElements := 6, m_values := [⟨7, 7, 7, 7⟩, ⟨7, 7, 7, 7⟩] }
        = .ok w ∧ w.m_numElements = 6 ∧
      w.m_values.length
        = ({ m_numElements := 6, m_values := [⟨7, 7, 7, 7⟩, ⟨7, 7, 7, 7⟩] } : VectorN).m_values.length ∧
      (6 % 4 = 0 → w = { m_numElements := 6, m_values := [⟨7, 7, 7, 7⟩, ⟨7, 7, 7, 7⟩] }) ∧
      (∀ u, u < 4 →
        slot w (4 * (({ m_numElements := 6, m_values := [⟨7, 7, 7, 7⟩, ⟨7, 7, 7, 7⟩] }
            : VectorN).m_values.length - 1) + u)
        = if 6 % 4 = 0 ∨ u < 6 % 4 then
            slot { m_numElements := 6, m_values := [⟨7, 7, 7, 7⟩, ⟨7, 7, 7, 7⟩] }
              (4 * (({ m_numElements := 6, m_values := [⟨7, 7, 7, 7⟩, ⟨7, 7, 7, 7⟩] }
                : VectorN).m_values.length - 1) + u)
          else 0) ∧
      (∀ i, i + 1 < ({ m_numElements := 6, m_values := [⟨7, 7, 7, 7⟩, ⟨7, 7, 7, 7⟩] }
            : VectorN).m_values.length →
        w.m_values[i]?
          = ({ m_numElements := 6, m_values := [⟨7, 7, 7, 7⟩, ⟨7, 7, 7, 7⟩] }
            : VectorN).m_values[i]?) ∧
      FixLastVectorElement w = .ok w) :=
  ⟨by rfl, by decide, by decide, by decide,
    C16_tail_masking 6 { m_numElements := 6, m_values := [⟨7, 7, 7, 7⟩, ⟨7, 7, 7, 7⟩] } rfl
      (by decide) (by decide) (by decide)⟩

/-! ## Lane-wise operations on vectors with arbitrary padding -/

theorem Settled_shaped {n : Nat} {v : VectorN} (h : Settled n v) : Shaped n v :=
  ⟨h.1, h.2.1⟩

theorem Shaped_length {n : Nat} {v : VectorN} (h : Shaped n v) :
    v.m_values.length = (n + 3) / 4 := by
  obtain ⟨hn, hl⟩ := h
  have hl1 : v.m_values.length = (v.m_numElements + 3) / 4 := hl
  rw [hl1, hn]

theorem Shaped_GetElement {n : Nat} {v : VectorN} (h : Shaped n v) (i : Nat) (hi : i < n) :
    GetElement v i = .ok (slot v i) := by
  have hl := Shaped_length h
  exact GetElement_eq_slot v i (by omega)

/-- Two vectors of length `n` with `ceil(n / 4)` lanes are equal when all their
slots agree. -/
theorem Shaped_ext {n : Nat} {w v : VectorN} (hw : Shaped n w) (hv : Shaped n v)
    (hs : ∀ j, j < 4 * ((n + 3) / 4) → slot w j = slot v j) : w = v := by
  have hwl := Shaped_length hw
  have hvl := Shaped_length hv
  apply VectorN_ext_slots w v (by rw [hw.1, hv.1]) (by omega)
  intro j hj
  exact hs j (by omega)

/-- Two vectors of length `n` in their resting state are equal when their
logical slots agree. -/
theorem Settled_ext {n : Nat} {w v : VectorN} (hw : Settled n w) (hv : Settled n v)
    (hs : ∀ j, j < n → slot w j = slot v j) : w = v := by
  apply Shaped_ext (Settled_shaped hw) (Settled_shaped hv)
  intro j hj
  have hwl := Shaped_length (Settled_shaped hw)
  have hvl := Shaped_length (Settled_shaped hv)
  by_cases h : j < n
  · exact hs j h
  · rw [hw.2.2 j (by omega) (by rw [hw.1]; omega), hv.2.2 j (by omega) (by rw [hv.1]; omega)]

theorem unaryValue_slots (E : Externals) (n : Nat) (a : VectorN) (op : Vector4 → Vector4)
    (f : Scalar → Scalar) (hop : ∀ l u, (op l).GetElement u = f (l.GetElement u))
    (hpos : 1 ≤ n) (hsz : n + 3 < SIZE_MOD) (ha : Shaped n a) :
    ∃ w, (do
        let returnValue ← create E a.m_numElements
        let values ← assignLanes (fun i => do
          let l ← getAt a.m_values i
          pure (op l)) a.m_values.length returnValue.m_values
        pure { returnValue with m_values := values }) = .ok w ∧
      Shaped n w ∧ ∀ j, j < 4 * ((n + 3) / 4) → slot w j = f (slot a j) := by
  obtain ⟨w, hw, hwn, hwl, hslot⟩ := valueOp_spec E n a _
    (fun j => op (laneAt a.m_values j)) hpos hsz ha.1 ha.2 (fun j hj => read1 a op j hj)
  have hwlen := Shaped_length ⟨hwn, hwl⟩
  refine ⟨w, hw, ⟨hwn, hwl⟩, ?_⟩
  intro j hj
  rw [hslot j (by omega), hop, ← slot_eq_laneAt]

theorem unaryValueFix_slots (E : Externals) (n : Nat) (a : VectorN) (op : Vector4 → Vector4)
    (f : Scalar → Scalar) (hop : ∀ l u, (op l).GetElement u = f (l.GetElement u))
    (hpos : 1 ≤ n) (hsz : n + 3 < SIZE_MOD) (ha : Shaped n a) :
    ∃ w, (do
        let returnValue ← create E a.m_numElements
        let values ← assignLanes (fun i => do
          let l ← getAt a.m_values i
          pure (op l)) a.m_values.length returnValue.m_values
        FixLastVectorElement { returnValue with m_values := values }) = .ok w ∧
      Settled n w ∧ ∀ j, j < n → slot w j = f (slot a j) := by
  obtain ⟨w, hw, hs, hslot⟩ := valueOpFix_spec E n a _
    (fun j => op (laneAt a.m_values j)) hpos hsz ha.1 ha.2 (fun j hj => read1 a op j hj)
  refine ⟨w, hw, hs, ?_⟩
  intro j hj
  rw [hslot j hj, hop, ← slot_eq_laneAt]

theorem binaryValue_slots (E : Externals) (n : Nat) (a b : VectorN)
    (op : Vector4 → Vector4 → Vector4) (f : Scalar → Scalar → Scalar)
    (hop : ∀ l r u, (op l r).GetElement u = f (l.GetElement u) (r.GetElement u))
    (hpos : 1 ≤ n) (hsz : n + 3 < SIZE_MOD) (ha : Shaped n a) (hb : Shaped n b) :
    ∃ w, (do
        let returnValue ← create E a.m_numElements
        let values ← assignLanes (fun i => do
          let l ← getAt a.m_values i
          let r ← getAt b.m_values i
          pure (op l r)) a.m_values.length returnValue.m_values
        pure { returnValue with m_values := values }) = .ok w ∧
      Shaped n w ∧ ∀ j, j < 4 * ((n + 3) / 4) → slot w j = f (slot a j) (slot b j) := by
  have hal := Shaped_length ha
  have hbl := Shaped_length hb
  obtain ⟨w, hw, hwn, hwl, hslot⟩ := valueOp_spec E n a _
    (fun j => op (laneAt a.m_values j) (laneAt b.m_values j)) hpos hsz ha.1 ha.2
    (fun j hj => read2 a b op j hj (by omega))
  have hwlen := Shaped_length ⟨hwn, hwl⟩
  refine ⟨w, hw, ⟨hwn, hwl⟩, ?_⟩
  intro j hj
  rw [hslot j (by omega), hop, ← slot_eq_laneAt, ← slot_eq_laneAt]

theorem binaryValueFix_slots (E : Externals) (n : Nat) (a b : VectorN)
    (op : Vector4 → Vector4 → Vector4) (f : Scalar → Scalar → Scalar)
    (hop : ∀ l r u, (op l r).GetElement u = f (l.GetElement u) (r.GetElement u))
    (hpos : 1 ≤ n) (hsz : n + 3 < SIZE_MOD) (ha : Shaped n a) (hb : Shaped n b) :
    ∃ w, (do
        let returnValue ← create E a.m_numElements
        let values ← assignLanes (fun i => do
          let l ← getAt a.m_values i
          let r ← getAt b.m_values i
          pure (op l r)) a.m_values.length returnValue.m_values
        FixLastVectorElement { returnValue with m_values := values }) = .ok w ∧
      Settled n w ∧ ∀ j, j < n → slot w j = f (slot a j) (slot b j) := by
  have hal := Shaped_length ha
  have hbl := Shaped_length hb
  obtain ⟨w, hw, hs, hslot⟩ := valueOpFix_spec E n a _
    (fun j => op (laneAt a.m_values j) (laneAt b.m_values j)) hpos hsz ha.1 ha.2
    (fun j hj => read2 a b op j hj (by omega))
  refine ⟨w, hw, hs, ?_⟩
  intro j hj
  rw [hslot j hj, hop, ← slot_eq_laneAt, ← slot_eq_laneAt]

theorem binaryUpdate_slots (n : Nat) (a b : VectorN)
    (op : Vector4 → Vector4 → Vector4) (f : Scalar → Scalar → Scalar)
    (hop : ∀ l r u, (op l r).GetElement u = f (l.GetElement u) (r.GetElement u))
    (ha : Shaped n a) (hb : Shaped n b) :
    ∃ w, (do
        let values ← updateLanes (fun i l => do
          let r ← getAt b.m_values i
          pure (op l r)) a.m_values.length a.m_values
        pure { a with m_values := values }) = .ok w ∧
      Shaped n w ∧ ∀ j, j < 4 * ((n + 3) / 4) → slot w j = f (slot a j) (slot b j) := by
  have hal := Shaped_length ha
  have hbl := Shaped_length hb
  obtain ⟨w, hw, hwn, hwl, hslot⟩ := updateOp_spec a _
    (fun j l => op l (laneAt b.m_values j)) (fun j l hj => readRhs b op l j (by omega))
  refine ⟨w, hw, ⟨by rw [hwn, ha.1], ?_⟩, ?_⟩
  · unfold LaneCount
    rw [hwl, hwn]
    exact ha.2
  · intro j hj
    rw [hslot j (by omega), hop, ← slot_eq_laneAt, ← slot_eq_laneAt]

theorem binaryUpdateFix_slots (n : Nat) (a b : VectorN)
    (op : Vector4 → Vector4 → Vector4) (f : Scalar → Scalar → Scalar)
    (hop : ∀ l r u, (op l r).GetElement u = f (l.GetElement u) (r.GetElement u))
    (hpos : 1 ≤ n) (hsz : n < SIZE_MOD) (ha : Shaped n a) (hb : Shaped n b) :
    ∃ w, (do
        let values ← updateLanes (fun i l => do
          let r ← getAt b.m_values i
          pure (op l r)) a.m_values.length a.m_values
        FixLastVectorElement { a with m_values := values }) = .ok w ∧
      Settled n w ∧ ∀ j, j < n → slot w j = f (slot a j) (slot b j) := by
  have hal := Shaped_length ha
  have hbl := Shaped_length hb
  obtain ⟨w, hw, hs, hslot⟩ := updateOpFix_spec n a _
    (fun j l => op l (laneAt b.m_values j)) hpos hsz ha.1 ha.2
    (fun j l hj => readRhs b op l j (by omega))
  refine ⟨w, hw, hs, ?_⟩
  intro j hj
  rw [hslot j hj, hop, ← slot_eq_laneAt, ← slot_eq_laneAt]

theorem scalarUpdate_slots (n : Nat) (a : VectorN) (op : Vector4 → Vector4)
    (f : Scalar → Scalar) (hop : ∀ l u, (op l).GetElement u = f (l.GetElement u))
    (ha : Shaped n a) :
    ∃ w, (do
        let values ← updateLanes (fun _ l => pure (op l)) a.m_values.length a.m_values
        pure { a with m_values := values }) = .ok w ∧
      Shaped n w ∧ ∀ j, j < 4 * ((n + 3) / 4) → slot w j = f (slot a j) := by
  have hal := Shaped_length ha
  obtain ⟨w, hw, hwn, hwl, hslot⟩ := updateOp_spec a _
    (fun _ l => op l) (fun _ _ _ => rfl)
  refine ⟨w, hw, ⟨by rw [hwn, ha.1], ?_⟩, ?_⟩
  · unfold LaneCount
    rw [hwl, hwn]
    exact ha.2
  · intro j hj
    rw [hslot j (by omega), hop, ← slot_eq_laneAt]

theorem scalarUpdateFix_slots (n : Nat) (a : VectorN) (op : Vector4 → Vector4)
    (f : Scalar → Scalar) (hop : ∀ l u, (op l).GetElement u = f (l.GetElement u))
    (hpos : 1 ≤ n) (hsz : n < SIZE_MOD) (ha : Shaped n a) :
    ∃ w, (do
        let values ← updateLanes (fun _ l => pure (op l)) a.m_values.length a.m_values
        FixLastVectorElement { a with m_values := values }) = .ok w ∧
      Settled n w ∧ ∀ j, j < n → slot w j = f (slot a j) := by
  obtain ⟨w, hw, hs, hslot⟩ := updateOpFix_spec n a _
    (fun _ l => op l) hpos hsz ha.1 ha.2 (fun _ _ _ => rfl)
  refine ⟨w, hw, hs, ?_⟩
  intro j hj
  rw [hslot j hj, hop, ← slot_eq_laneAt]

theorem opAdd_slots (E : Externals) (n : Nat) (a b : VectorN) (hpos : 1 ≤ n)
    (hsz : n + 3 < SIZE_MOD) (ha : Shaped n a) (hb : Shaped n b) :
    ∃ w, opAdd E a b = .ok w ∧ Shaped n w ∧
      ∀ j, j < 4 * ((n + 3) / 4) → slot w j = slot a j + slot b j := by
  unfold opAdd
  rw [assert_pass _ _ (by rw [ha.1, hb.1])]
  exact binaryValue_slots E n a b (Vector4.add) (fun s t => s + t) (lane_add_get) hpos hsz ha hb

theorem opSub_slots (E : Externals) (n : Nat) (a b : VectorN) (hpos : 1 ≤ n)
    (hsz : n + 3 < SIZE_MOD) (ha : Shaped n a) (hb : Shaped n b) :
    ∃ w, opSub E a b = .ok w ∧ Shaped n w ∧
      ∀ j, j < 4 * ((n + 3) / 4) → slot w j = slot a j - slot b j := by
  unfold opSub
  rw [assert_pass _ _ (by rw [ha.1, hb.1])]
  exact binaryValue_slots E n a b (Vector4.sub) (fun s t => s - t) (lane_sub_get) hpos hsz ha hb

theorem opMul_slots (E : Externals) (n : Nat) (a b : VectorN) (hpos : 1 ≤ n)
    (hsz : n + 3 < SIZE_MOD) (ha : Shaped n a) (hb : Shaped n b) :
    ∃ w, opMul E a b = .ok w ∧ Shaped n w ∧
      ∀ j, j < 4 * ((n + 3) / 4) → slot w j = slot a j * slot b j := by
  unfold opMul
  rw [assert_pass _ _ (by rw [ha.1, hb.1])]
  exact binaryValue_slots E n a b (Vector4.mul) (fun s t => s * t) (lane_mul_get) hpos hsz ha hb

theorem opDiv_slots (E : Externals) (n : Nat) (a b : VectorN) (hpos : 1 ≤ n)
    (hsz : n + 3 < SIZE_MOD) (ha : Shaped n a) (hb : Shaped n b) :
    ∃ w, opDiv E a b = .ok w ∧ Settled n w ∧
      ∀ j, j < n → slot w j = scalarDiv E (slot a j) (slot b j) := by
  unfold opDiv
  rw [assert_pass _ _ (by rw [ha.1, hb.1])]
  exact binaryValueFix_slots E n a b (Vector4.div E) (scalarDiv E) (lane_div_get E) hpos hsz ha hb

theorem opAddAssign_slots (n : Nat) (a b : VectorN) (ha : Shaped n a) (hb : Shaped n b) :
    ∃ w, opAddAssign a b = .ok w ∧ Shaped n w ∧
      ∀ j, j < 4 * ((n + 3) / 4) → slot w j = slot a j + slot b j := by
  unfold opAddAssign
  rw [assert_pass _ _ (by rw [ha.1, hb.1])]
  exact binaryUpdate_slots n a b (Vector4.add) (fun s t => s + t) (lane_add_get) ha hb

theorem opSubAssign_slots (n : Nat) (a b : VectorN) (ha : Shaped n a) (hb : Shaped n b) :
    ∃ w, opSubAssign a b = .ok w ∧ Shaped n w ∧
      ∀ j, j < 4 * ((n + 3) / 4) → slot w j = slot a j - slot b j := by
  unfold opSubAssign
  rw [assert_pass _ _ (by rw [ha.1, hb.1])]
  exact binaryUpdate_slots n a b (Vector4.sub) (fun s t => s - t) (lane_sub_get) ha hb

theorem opMulAssign_slots (n : Nat) (a b : VectorN) (ha : Shaped n a) (hb : Shaped n b) :
    ∃ w, opMulAssign a b = .ok w ∧ Shaped n w ∧
      ∀ j, j < 4 * ((n + 3) / 4) → slot w j = slot a j * slot b j := by
  unfold opMulAssign
  rw [assert_pass _ _ (by rw [ha.1, hb.1])]
  exact binaryUpdate_slots n a b (Vector4.mul) (fun s t => s * t) (lane_mul_get) ha hb

theorem opDivAssign_slots (E : Externals) (n : Nat) (a b : VectorN) (hpos : 1 ≤ n)
    (hsz : n < SIZE_MOD) (ha : Shaped n a) (hb : Shaped n b) :
    ∃ w, opDivAssign E a b = .ok w ∧ Settled n w ∧
      ∀ j, j < n → slot w j = scalarDiv E (slot a j) (slot b j) := by
  unfold opDivAssign
  rw [assert_pass _ _ (by rw [ha.1, hb.1])]
  exact binaryUpdateFix_slots n a b (Vector4.div E) (scalarDiv E) (lane_div_get E) hpos hsz ha hb

theorem opMulScalar_slots (E : Externals) (n : Nat) (a : VectorN) (s : Scalar) (hpos : 1 ≤ n)
    (hsz : n + 3 < SIZE_MOD) (ha : Shaped n a) :
    ∃ w, opMulScalar E a s = .ok w ∧ Shaped n w ∧
      ∀ j, j < 4 * ((n + 3) / 4) → slot w j = slot a j * s := by
  unfold opMulScalar
  exact unaryValue_slots E n a (fun l => l.mul (Splat s)) (fun x => x * s) (lane_mul_splat_get s) hpos hsz ha

theorem opDivScalar_slots (E : Externals) (n : Nat) (a : VectorN) (s : Scalar) (hpos : 1 ≤ n)
    (hsz : n + 3 < SIZE_MOD) (ha : Shaped n a) :
    ∃ w, opDivScalar E a s = .ok w ∧ Settled n w ∧
      ∀ j, j < n → slot w j = scalarDiv E (slot a j) s := by
  unfold opDivScalar
  exact unaryValueFix_slots E n a (fun l => l.div E (Splat s)) (fun x => scalarDiv E x s) (lane_div_splat_get E s) hpos hsz ha

theorem opMulAssignScalar_slots (n : Nat) (a : VectorN) (s : Scalar) (ha : Shaped n a) :
    ∃ w, opMulAssignScalar a s = .ok w ∧ Shaped n w ∧
      ∀ j, j < 4 * ((n + 3) / 4) → slot w j = slot a j * s := by
  unfold opMulAssignScalar
  exact scalarUpdate_slots n a (fun l => l.mul (Splat s)) (fun x => x * s) (lane_mul_splat_get s) ha

theorem opDivAssignScalar_slots (E : Externals) (n : Nat) (a : VectorN) (s : Scalar) (hpos : 1 ≤ n)
    (hsz : n < SIZE_MOD) (ha : Shaped n a) :
    ∃ w, opDivAssignScalar E a s = .ok w ∧ Settled n w ∧
      ∀ j, j < n → slot w j = scalarDiv E (slot a j) s := by
  unfold opDivAssignScalar
  exact scalarUpdateFix_slots n a (fun l => l.div E (Splat s)) (fun x => scalarDiv E x s) (lane_div_splat_get E s) hpos hsz ha

theorem opAddAssignScalar_slots (n : Nat) (a : VectorN) (s : Scalar) (hpos : 1 ≤ n)
    (hsz : n < SIZE_MOD) (ha : Shaped n a) :
    ∃ w, opAddAssignScalar a s = .ok w ∧ Settled n w ∧
      ∀ j, j < n → slot w j = slot a j + s := by
  unfold opAddAssignScalar
  exact scalarUpdateFix_slots n a (fun l => l.add (Splat s)) (fun x => x + s) (lane_add_splat_get s) hpos hsz ha

theorem opSubAssignScalar_slots (n : Nat) (a : VectorN) (s : Scalar) (hpos : 1 ≤ n)
    (hsz : n < SIZE_MOD) (ha : Shaped n a) :
    ∃ w, opSubAssignScalar a s = .ok w ∧ Settled n w ∧
      ∀ j, j < n → slot w j = slot a j - s := by
  unfold opSubAssignScalar
  exact scalarUpdateFix_slots n a (fun l => l.sub (Splat s)) (fun x => x - s) (lane_sub_splat_get s) hpos hsz ha

/-! ## Elementwise arithmetic and the two operator forms -/

/-- C17 (elementwise arithmetic): for every length `n ≥ 1` whose lane count is
computed without wrap-around and all vectors `a`, `b` of length `n` (with
`ceil(n / 4)` lanes, any padding), each of `a + b`, `a - b` and `a * b` is
returned with dimensionality `n` and `GetElement(i)` equal to `a[i] + b[i]`,
`a[i] - b[i]` and `a[i] * b[i]` for every `i < n`; and for every scalar `s`, after
`a += s` (resp. `a -= s`) `GetElement(i)` is the old `a[i] + s` (resp. `a[i] - s`)
for every `i < n` while every padding slot is `0.0`. -/
theorem C17_elementwise_arithmetic (E : Externals) (n : Nat) (a b : VectorN) (s : Scalar)
    (hpos : 1 ≤ n) (hsz : n + 3 < SIZE_MOD) (ha : Shaped n a) (hb : Shaped n b) :
    (∀ i, i < n → GetElement a i = .ok (slot a i) ∧ GetElement b i = .ok (slot b i)) ∧
    (∃ w, opAdd E a b = .ok w ∧ GetDimensionality w = n ∧
      ∀ i, i < n → GetElement w i = .ok (slot a i + slot b i)) ∧
    (∃ w, opSub E a b = .ok w ∧ GetDimensionality w = n ∧
      ∀ i, i < n → GetElement w i = .ok (slot a i - slot b i)) ∧
    (∃ w, opMul E a b = .ok w ∧ GetDimensionality w = n ∧
      ∀ i, i < n → GetElement w i = .ok (slot a i * slot b i)) ∧
    (∃ w, opAddAssignScalar a s = .ok w ∧ GetDimensionality w = n ∧
      (∀ i, i < n → GetElement w i = .ok (slot a i + s)) ∧
      ∀ j, n ≤ j → j < 4 * w.m_values.length → slot w j = 0) ∧
    (∃ w, opSubAssignScalar a s = .ok w ∧ GetDimensionality w = n ∧
      (∀ i, i < n → GetElement w i = .ok (slot a i - s)) ∧
      ∀ j, n ≤ j → j < 4 * w.m_values.length → slot w j = 0) := by
  have hsz1 : n < SIZE_MOD := by omega
  refine ⟨fun i hi => ⟨Shaped_GetElement ha i hi, Shaped_GetElement hb i hi⟩, ?_, ?_, ?_, ?_, ?_⟩
  · obtain ⟨w, hw, hs, hslot⟩ := opAdd_slots E n a b hpos hsz ha hb
    refine ⟨w, hw, hs.1, fun i hi => ?_⟩
    rw [Shaped_GetElement hs i hi, hslot i (by omega)]
  · obtain ⟨w, hw, hs, hslot⟩ := opSub_slots E n a b hpos hsz ha hb
    refine ⟨w, hw, hs.1, fun i hi => ?_⟩
    rw [Shaped_GetElement hs i hi, hslot i (by omega)]
  · obtain ⟨w, hw, hs, hslot⟩ := opMul_slots E n a b hpos hsz ha hb
    refine ⟨w, hw, hs.1, fun i hi => ?_⟩
    rw [Shaped_GetElement hs i hi, hslot i (by omega)]
  · obtain ⟨w, hw, hs, hslot⟩ := opAddAssignScalar_slots n a s hpos hsz1 ha
    refine ⟨w, hw, hs.1, fun i hi => ?_, fun j h1 h2 => hs.2.2 j h2 (by rw [hs.1]; exact h1)⟩
    rw [Settled_GetElement hs i hi, hslot i hi]
  · obtain ⟨w, hw, hs, hslot⟩ := opSubAssignScalar_slots n a s hpos hsz1 ha
    refine ⟨w, hw, hs.1, fun i hi => ?_, fun j h1 h2 => hs.2.2 j h2 (by rw [hs.1]; exact h1)⟩
    rw [Settled_GetElement hs i hi, hslot i hi]

/-- C17 at the vectors `[1, -2, 3, -4, 5]` and `[2, 2, 2, 2, 2]` and the scalar 3. -/
theorem C17_elementwise_arithmetic_witness :
    opAddAssignScalar sampleA 3
      = .ok { m_numElements := 5, m_values := [⟨4, 1, 6, -1⟩, ⟨8, 0, 0, 0⟩] } ∧
    1 ≤ 5 ∧ 5 + 3 < SIZE_MOD ∧ Shaped 5 sampleA ∧ Shaped 5 sampleB ∧
    ((∀ i, i < 5 → GetElement sampleA i = .ok (slot sampleA i) ∧ GetElement sampleB i = .ok (slot sampleB i)) ∧
    (∃ w, opAdd Externals.plain sampleA sampleB = .ok w ∧ GetDimensionality w = 5 ∧
      ∀ i, i < 5 → GetElement w i = .ok (slot sampleA i + slot sampleB i)) ∧
    (∃ w, opSub Externals.plain sampleA sampleB = .ok w ∧ GetDimensionality w = 5 ∧
      ∀ i, i < 5 → GetElement w i = .ok (slot sampleA i - slot sampleB i)) ∧
    (∃ w, opMul Externals.plain sampleA sampleB = .ok w ∧ GetDimensionality w = 5 ∧
      ∀ i, i < 5 → GetElement w i = .ok (slot sampleA i * slot sampleB i)) ∧
    (∃ w, opAddAssignScalar sampleA 3 = .ok w ∧ GetDimensionality w = 5 ∧
      (∀ i, i < 5 → GetElement w i = .ok (slot sampleA i + 3)) ∧
      ∀ j, 5 ≤ j → j < 4 * w.m_values.length → slot w j = 0) ∧
    (∃ w, opSubAssignScalar sampleA 3 = .ok w ∧ GetDimensionality w = 5 ∧
      (∀ i, i < 5 → GetElement w i = .ok (slot sampleA i - 3)) ∧
      ∀ j, 5 ≤ j → j < 4 * w.m_values.length → slot w j = 0)) :=
  ⟨by norm_num [opAddAssignScalar, sampleA, updateLanes, forLoop, getAt, setAt, Vector4.add,
      Vector4.map₂, Splat, FixLastVectorElement, sizeSub, SIZE_MOD, LoadAligned, masks, And,
      andWord, bind, Except.bind, pure, Except.pure],
    by decide, by decide, by decide, by decide,
    C17_elementwise_arithmetic Externals.plain 5 sampleA sampleB 3 (by decide) (by decide)
      (by decide) (by decide)⟩

/-- C18 (in-place and value-returning operators agree): for every length `n ≥ 1`
whose lane count is computed without wrap-around, all vectors `a`, `b` of length
`n` (with `ceil(n / 4)` lanes, any padding) and every scalar `s`, the state of `a`
after `a op= b` is the vector returned by `a op b`, lane for lane and padding
included, for `op` in `+ - * /`; the state after `a *= s` is the vector returned
by `a * s`, and the state after `a /= s` the one returned by `a / s`. -/
theorem C18_in_place_agrees (E : Externals) (n : Nat) (a b : VectorN) (s : Scalar)
    (hpos : 1 ≤ n) (hsz : n + 3 < SIZE_MOD) (ha : Shaped n a) (hb : Shaped n b) :
    (∃ w, opAddAssign a b = .ok w ∧ opAdd E a b = .ok w) ∧
    (∃ w, opSubAssign a b = .ok w ∧ opSub E a b = .ok w) ∧
    (∃ w, opMulAssign a b = .ok w ∧ opMul E a b = .ok w) ∧
    (∃ w, opDivAssign E a b = .ok w ∧ opDiv E a b = .ok w) ∧
    (∃ w, opMulAssignScalar a s = .ok w ∧ opMulScalar E a s = .ok w) ∧
    (∃ w, opDivAssignScalar E a s = .ok w ∧ opDivScalar E a s = .ok w) := by
  have hsz1 : n < SIZE_MOD := by omega
  refine ⟨?_, ?_, ?_, ?_, ?_, ?_⟩
  · obtain ⟨w1, hw1, hs1, hslot1⟩ := opAddAssign_slots n a b ha hb
    obtain ⟨w2, hw2, hs2, hslot2⟩ := opAdd_slots E n a b hpos hsz ha hb
    have e : w2 = w1 := Shaped_ext hs2 hs1 (fun j hj => by rw [hslot1 j hj, hslot2 j hj])
    exact ⟨w1, hw1, by rw [hw2, e]⟩
  · obtain ⟨w1, hw1, hs1, hslot1⟩ := opSubAssign_slots n a b ha hb
    obtain ⟨w2, hw2, hs2, hslot2⟩ := opSub_slots E n a b hpos hsz ha hb
    have e : w2 = w1 := Shaped_ext hs2 hs1 (fun j hj => by rw [hslot1 j hj, hslot2 j hj])
    exact ⟨w1, hw1, by rw [hw2, e]⟩
  · obtain ⟨w1, hw1, hs1, hslot1⟩ := opMulAssign_slots n a b ha hb
    obtain ⟨w2, hw2, hs2, hslot2⟩ := opMul_slots E n a b hpos hsz ha hb
    have e : w2 = w1 := Shaped_ext hs2 hs1 (fun j hj => by rw [hslot1 j hj, hslot2 j hj])
    exact ⟨w1, hw1, by rw [hw2, e]⟩
  · obtain ⟨w1, hw1, hs1, hslot1⟩ := opDivAssign_slots E n a b hpos hsz1 ha hb
    obtain ⟨w2, hw2, hs2, hslot2⟩ := opDiv_slots E n a b hpos hsz ha hb
    have e : w2 = w1 := Settled_ext hs2 hs1 (fun j hj => by rw [hslot1 j hj, hslot2 j hj])
    exact ⟨w1, hw1, by rw [hw2, e]⟩
  · obtain ⟨w1, hw1, hs1, hslot1⟩ := opMulAssignScalar_slots n a s ha
    obtain ⟨w2, hw2, hs2, hslot2⟩ := opMulScalar_slots E n a s hpos hsz ha
    have e : w2 = w1 := Shaped_ext hs2 hs1 (fun j hj => by rw [hslot1 j hj, hslot2 j hj])
    exact ⟨w1, hw1, by rw [hw2, e]⟩
  · obtain ⟨w1, hw1, hs1, hslot1⟩ := opDivAssignScalar_slots E n a s hpos hsz1 ha
    obtain ⟨w2, hw2, hs2, hslot2⟩ := opDivScalar_slots E n a s hpos hsz ha
    have e : w2 = w1 := Settled_ext hs2 hs1 (fun j hj => by rw [hslot1 j hj, hslot2 j hj])
    exact ⟨w1, hw1, by rw [hw2, e]⟩

/-- C18 at the vectors `[1, -2, 3, -4, 5]` and `[2, 2, 2, 2, 2]` and the scalar 3. -/
theorem C18_in_place_agrees_witness :
    opAddAssign sampleA sampleB
      = .ok { m_numElements := 5, m_values := [⟨3, 0, 5, -2⟩, ⟨7, 0, 0, 0⟩] } ∧
    1 ≤ 5 ∧ 5 + 3 < SIZE_MOD ∧ Shaped 5 sampleA ∧ Shaped 5 sampleB ∧
    ((∃ w, opAddAssign sampleA sampleB = .ok w ∧ opAdd Externals.plain sampleA sampleB = .ok w) ∧
    (∃ w, opSubAssign sampleA sampleB = .ok w ∧ opSub Externals.plain sampleA sampleB = .ok w) ∧
    (∃ w, opMulAssign sampleA sampleB = .ok w ∧ opMul Externals.plain sampleA sampleB = .ok w) ∧
    (∃ w, opDivAssign Externals.plain sampleA sampleB = .ok w ∧ opDiv Externals.plain sampleA sampleB = .ok w) ∧
    (∃ w, opMulAssignScalar sampleA 3 = .ok w ∧ opMulScalar Externals.plain sampleA 3 = .ok w) ∧
    (∃ w, opDivAssignScalar Externals.plain sampleA 3 = .ok w ∧ opDivScalar Externals.plain sampleA 3 = .ok w)) :=
  ⟨by norm_num [opAddAssign, AZ_Assert, sampleA, sampleB, updateLanes, forLoop, getAt, setAt,
      Vector4.add, Vector4.map₂, bind, Except.bind, pure, Except.pure],
    by decide, by decide, by decide, by decide,
    C18_in_place_agrees Externals.plain 5 sampleA sampleB 3 (by decide) (by decide)
      (by decide) (by decide)⟩

/-! ## Resize and the surviving elements -/

end AZ
